import Mathlib

/-!
Verification of auto-refresh-ami.

A shallow embedding of the orchestration core of `autorefresh`
(`config.go`, `util.go`, `instance.go`, `ami.go`, `engine.go`), followed by
theorems about it.  Definitions come first, theorems afterwards.

Conventions of the embedding.

* Go strings are `String`; `uint` is a natural number below `2 ^ 64` and
  `int(u)` is the two's-complement reading of it (`intOfUint`).
* Go maps and slices are references.  Where aliasing matters they live in an
  explicit `Heap`, and a value of map or slice type is an address into it
  (`none` is Go's `nil`).
* A provider (EC2) call is an event appended to a trace; its outcome is read
  from an oracle passed to the function.
* `panic`, `defer` and `recover` are modelled by an explicit stack of deferred
  functions that is unwound over a run state holding the panic in flight.
-/

namespace AutoRefresh

/-! ## `config.go`: sources and the source filter -/

/-- The `Source` struct of `config.go`.  The Go field `Type` is written
`Type_` here. -/
structure Source where
  AmiId : String
  Architecture : String
  Name : String
  OS : String
  Region : String
  Type_ : String
  Version : String
deriving DecidableEq, Repr

/-- The method `Source.Copy`: returns `*self`, a copy by value. -/
def Source.Copy (self : Source) : Source := self

/-- The `switch` inside the loop of `findSources`.  Every case body is
`fallthrough` except the last, which is `continue`; Go's `fallthrough` enters
the next case body without testing its condition, so the first case whose
condition holds leads to the `continue`.  The result is `true` when the
iteration is abandoned by that `continue`. -/
def Source.skips (self temp : Source) : Bool :=
  if self.AmiId != "" && temp.AmiId != self.AmiId then true
  else if self.Architecture != "" && temp.Architecture != self.Architecture then true
  else if self.Name != "" && temp.Name != self.Name then true
  else if self.OS != "" && temp.OS != self.OS then true
  else if self.Region != "" && temp.Region != self.Region then true
  else if self.Type_ != "" && temp.Type_ != self.Type_ then true
  else if self.Version != "" && temp.Version != self.Version then true
  else false

/-- The method `Source.findSources`: `matches` starts empty and every source
that is not skipped is appended to it, in the order of the range loop. -/
def Source.findSources (self : Source) (sources : List Source) : List Source :=
  sources.foldl (fun found temp => if self.skips temp then found else found ++ [temp]) []

/-- Specification side of the filter: a filter field left empty matches
anything, a set field matches only the same value. -/
def fieldMatches (filterField sourceField : String) : Prop :=
  filterField = "" ∨ sourceField = filterField

instance (a b : String) : Decidable (fieldMatches a b) := by
  unfold fieldMatches; infer_instance

/-- Specification side of the filter: matching is conjunctive across the seven
fields. -/
def Source.matchesFilter (f s : Source) : Prop :=
  fieldMatches f.AmiId s.AmiId ∧ fieldMatches f.Architecture s.Architecture ∧
  fieldMatches f.Name s.Name ∧ fieldMatches f.OS s.OS ∧
  fieldMatches f.Region s.Region ∧ fieldMatches f.Type_ s.Type_ ∧
  fieldMatches f.Version s.Version

instance (f s : Source) : Decidable (f.matchesFilter s) := by
  unfold Source.matchesFilter; infer_instance

/-- Specification side of the filter: some set field of `f` has another value
in `s`. -/
def Source.differsInSetField (f s : Source) : Prop :=
  (f.AmiId ≠ "" ∧ s.AmiId ≠ f.AmiId) ∨ (f.Architecture ≠ "" ∧ s.Architecture ≠ f.Architecture) ∨
  (f.Name ≠ "" ∧ s.Name ≠ f.Name) ∨ (f.OS ≠ "" ∧ s.OS ≠ f.OS) ∨
  (f.Region ≠ "" ∧ s.Region ≠ f.Region) ∨ (f.Type_ ≠ "" ∧ s.Type_ ≠ f.Type_) ∨
  (f.Version ≠ "" ∧ s.Version ≠ f.Version)

/-- The filter with all seven fields empty. -/
def emptyFilter : Source := ⟨"", "", "", "", "", "", ""⟩

/-! ## `instance.go`, `util.go`: launch descriptors on a heap -/

/-- Contents of a Go `map[string]string`: an association list without
duplicate keys. -/
abbrev TagMap := AList (fun _ : String => String)

/-- The `EbsVolume` struct of `instance.go` (`VolumeSize` is an `int64` on
which no arithmetic is done). -/
structure EbsVolume where
  DeviceName : String
  DeleteOnTermination : Bool
  VolumeSize : Int
  VolumeType : String
deriving DecidableEq, Repr

/-- The method `EbsVolume.Copy`: returns `*self`, a copy by value. -/
def EbsVolume.Copy (self : EbsVolume) : EbsVolume := self

/-- The part of the Go heap that holds tag maps and volume slices.  A map or
slice value is an address; `nextMap` and `nextSlice` are the first addresses
not yet allocated.  A slice is identified with its backing array: the program
never reslices, so a slice always views the whole of its array. -/
structure Heap where
  maps : Nat → TagMap
  nextMap : Nat
  slices : Nat → List EbsVolume
  nextSlice : Nat

/-- Go's `make(map[string]string)`: a fresh, empty map. -/
def Heap.makeMap (h : Heap) : Heap × Nat :=
  ({ h with maps := Function.update h.maps h.nextMap ∅, nextMap := h.nextMap + 1 }, h.nextMap)

/-- Go's `m[k] = v` on the map at address `a` (insert or change). -/
def Heap.mapSet (h : Heap) (a : Nat) (k v : String) : Heap :=
  { h with maps := Function.update h.maps a ((h.maps a).insert k v) }

/-- Go's `delete(m, k)` on the map at address `a`. -/
def Heap.mapDelete (h : Heap) (a : Nat) (k : String) : Heap :=
  { h with maps := Function.update h.maps a ((h.maps a).erase k) }

/-- The contents of a map value; ranging over or reading a `nil` map sees no
entries. -/
def Heap.readMap (h : Heap) (r : Option Nat) : TagMap :=
  match r with
  | none => ∅
  | some a => h.maps a

/-- Go's `make([]EbsVolume, 0)`: a fresh, empty slice. -/
def Heap.makeSlice (h : Heap) : Heap × Nat :=
  ({ h with slices := Function.update h.slices h.nextSlice [], nextSlice := h.nextSlice + 1 },
    h.nextSlice)

/-- Go's `s = append(s, v)` for a slice `s` that is the only reference to its
array (growth in place and reallocation are then indistinguishable). -/
def Heap.sliceAppend (h : Heap) (a : Nat) (v : EbsVolume) : Heap :=
  { h with slices := Function.update h.slices a (h.slices a ++ [v]) }

/-- Go's `s[i] = v` on the slice at address `a`. -/
def Heap.sliceSet (h : Heap) (a i : Nat) (v : EbsVolume) : Heap :=
  { h with slices := Function.update h.slices a ((h.slices a).set i v) }

/-- The contents of a slice value; a `nil` slice has no elements. -/
def Heap.readSlice (h : Heap) (r : Option Nat) : List EbsVolume :=
  match r with
  | none => []
  | some a => h.slices a

/-- A map value is `nil` or an allocated address. -/
def Heap.validMap (h : Heap) (r : Option Nat) : Prop := ∀ a, r = some a → a < h.nextMap

/-- A slice value is `nil` or an allocated address. -/
def Heap.validSlice (h : Heap) (r : Option Nat) : Prop := ∀ a, r = some a → a < h.nextSlice

/-- The function `CopyMap` of `util.go`: a new map is made and every entry of
the source is stored in it.  The entries are visited in the order of the
association list; Go leaves the order open, and the resulting map does not
depend on it. -/
def CopyMap (h : Heap) (source : Option Nat) : Heap × Nat :=
  let made := h.makeMap
  ((made.1.readMap source).entries.foldl (fun hh kv => hh.mapSet made.2 kv.1 kv.2) made.1, made.2)

/-- The `LaunchConfig` struct of `instance.go`; `Tags` and `Ebs` are
references into the heap. -/
structure LaunchConfig where
  UserData : String
  Source : Source
  InstanceType : String
  Tags : Option Nat
  Ebs : Option Nat
deriving DecidableEq, Repr

/-- The method `LaunchConfig.Copy`: scalar fields are assigned, the tag map is
copied with `CopyMap`, and the volumes are appended one by one, each copied by
value, to a new empty slice. -/
def LaunchConfig.Copy (h : Heap) (self : LaunchConfig) : Heap × LaunchConfig :=
  let copied := CopyMap h self.Tags
  let made := copied.1.makeSlice
  let h3 := (made.1.readSlice self.Ebs).foldl (fun hh ebs => hh.sliceAppend made.2 ebs.Copy) made.1
  (h3, { UserData := self.UserData, Source := self.Source.Copy,
         InstanceType := self.InstanceType, Tags := some copied.2, Ebs := some made.2 })

/-- A change made through a descriptor with tag map `t` and volume slice `e`:
a tag is inserted or changed, a tag is deleted, a volume is appended, or a
volume is overwritten. -/
inductive Mutation where
  | setTag (k v : String)
  | deleteTag (k : String)
  | appendVolume (v : EbsVolume)
  | setVolume (i : Nat) (v : EbsVolume)

/-- One change applied to the heap. -/
def Heap.mutate (h : Heap) (t e : Nat) : Mutation → Heap
  | .setTag k v => h.mapSet t k v
  | .deleteTag k => h.mapDelete t k
  | .appendVolume v => h.sliceAppend e v
  | .setVolume i v => h.sliceSet e i v

/-- A sequence of changes applied to the heap, first to last. -/
def Heap.mutateAll (h : Heap) (t e : Nat) (ms : List Mutation) : Heap :=
  ms.foldl (fun hh m => hh.mutate t e m) h

/-- A tag map as `Project.validateAndSetDefaults` leaves it: the marker tag and
one tag of the user. -/
def sampleTags : TagMap :=
  ((∅ : TagMap).insert "Name" "base-image").insert "__Maintained_By__" "AutoRefreshAmi"

/-- A volume. -/
def sampleVolume : EbsVolume :=
  { DeviceName := "/dev/sda1", DeleteOnTermination := true, VolumeSize := 8, VolumeType := "gp2" }

/-- A heap with one tag map and one volume slice allocated, both at address 0. -/
def sampleHeap : Heap :=
  { maps := fun a => if a = 0 then sampleTags else ∅, nextMap := 1,
    slices := fun a => if a = 0 then [sampleVolume] else [], nextSlice := 1 }

/-- Two sources that differ in their region. -/
def sourceEast : Source := ⟨"ami-1", "x86_64", "ubuntu", "linux", "us-east-1", "hvm", "14.04"⟩

/-- See `sourceEast`. -/
def sourceWest : Source := ⟨"ami-2", "x86_64", "ubuntu", "linux", "us-west-2", "hvm", "14.04"⟩

/-- A descriptor whose tag map and volume slice are the ones of `sampleHeap`. -/
def sampleConfig : LaunchConfig :=
  { UserData := "#!/bin/bash\nsudo init 0\n", Source := sourceEast, InstanceType := "t2.nano",
    Tags := some 0, Ebs := some 0 }

/-! ## `ami.go`: retirement of old images -/

/-- The `AutoAmi` struct of `ami.go`, without its tag map and its connection,
which the retirement walk does not read. -/
structure AutoAmi where
  Id : String
  Region : String
  Architecture : String
  Name : String
  State : String
  Description : String
  CreationDate : String
deriving DecidableEq, Repr

/-- Go's conversion `int(u)` of a `uint` on a 64-bit platform: the same 64
bits read in two's complement. -/
def intOfUint (u : Nat) : Int :=
  if u < 2 ^ 63 then (u : Int) else (u : Int) - 2 ^ 64

/-- Go's `u++` on a `uint` on a 64-bit platform: addition wraps around. -/
def uintSucc (u : Nat) : Nat := (u + 1) % 2 ^ 64

/-- What one call of `DeleteOldAmi` did: the image ids of the `DeregisterImage`
requests it issued, in order; the ids for which the request failed (a warning
is logged); the images appended to `deletedImages`; and whether the call ended
in a run-time panic (index out of range) instead of returning. -/
structure Retirement where
  deregistered : List String
  failed : List String
  deletedImages : List AutoAmi
  panicked : Bool
deriving DecidableEq, Repr

/-- The loop of `DeleteOldAmi`,
`for i := len(amiFound) - 1; i >= int(retentionCount); i--`.
The first numeric argument is `i + 1`, so that `0` stands for `i = -1`, where
the guard can still hold when `int(retentionCount)` is negative and the body
then indexes `amiFound[-1]`.  `apiFails i` tells whether the `DeregisterImage`
request for position `i` returns an error. -/
def deleteOldAmiLoop (amiFound : List AutoAmi) (apiFails : Nat → Bool) :
    Nat → Nat → Retirement → Retirement
  | 0, retentionCount, acc =>
    if (-1 : Int) ≥ intOfUint retentionCount then { acc with panicked := true } else acc
  | i + 1, retentionCount, acc =>
    if (i : Int) ≥ intOfUint retentionCount then
      match amiFound[i]? with
      | none => { acc with panicked := true }
      | some ami =>
        if ami.State != "available" then
          deleteOldAmiLoop amiFound apiFails i (uintSucc retentionCount) acc
        else
          deleteOldAmiLoop amiFound apiFails i retentionCount
            { acc with
              deregistered := acc.deregistered ++ [ami.Id]
              failed := if apiFails i then acc.failed ++ [ami.Id] else acc.failed
              deletedImages := acc.deletedImages ++ [ami] }
    else acc

/-- The method `AutoAmi.DeleteOldAmi`, given the list `amiFound` that
`findAmi` returned (the images of the owner that carry the tags, newest
first). -/
def DeleteOldAmi (amiFound : List AutoAmi) (retentionCount : Nat) (apiFails : Nat → Bool) :
    Retirement :=
  deleteOldAmiLoop amiFound apiFails amiFound.length retentionCount
    { deregistered := [], failed := [], deletedImages := [], panicked := false }

/-- Specification side: the number of images that are not "available" at
positions greater than `i`. -/
def nonAvailableAfter (images : List AutoAmi) (i : Nat) : Nat :=
  (images.drop (i + 1)).countP (fun a => a.State != "available")

/-- Specification side: position `i` holds an "available" image and
`i >= k + nonAvailableAfter images i`. -/
def isRetiredPosition (images : List AutoAmi) (k i : Nat) : Bool :=
  (match images[i]? with
   | some a => a.State == "available"
   | none => false) && decide (k + nonAvailableAfter images i ≤ i)

/-- Specification side: the images at the retired positions, oldest first. -/
def expectedRetired (images : List AutoAmi) (k : Nat) : List AutoAmi :=
  (((List.range images.length).reverse).filter (isRetiredPosition images k)).filterMap
    (fun i => images[i]?)

/-- An image with the given id and state. -/
def imageWith (id state : String) : AutoAmi :=
  { Id := id, Region := "us-east-1", Architecture := "x86_64", Name := id, State := state,
    Description := id, CreationDate := id }

/-- The scenario of the specification: five images, newest first, the third
one still pending. -/
def fiveImages : List AutoAmi :=
  [imageWith "ami-5" "available", imageWith "ami-4" "available", imageWith "ami-3" "pending",
   imageWith "ami-2" "available", imageWith "ami-1" "available"]

/-- Specification side: the number of "available" images that a run of
`DeleteOldAmi` did not retire. -/
def retainedAvailable (images : List AutoAmi) (run : Retirement) : Nat :=
  images.countP (fun a => a.State == "available") - run.deletedImages.length

/-- Three images, newest first, the newest one still pending. -/
def pendingNewest : List AutoAmi :=
  [imageWith "ami-3" "pending", imageWith "ami-2" "available", imageWith "ami-1" "available"]

/-! ## `engine.go`: the refresh job, the clean-up job and the engine -/

/-- The `Account` struct of `account.go`. -/
structure Account where
  Name : String
  AccessKeyId : String
  OwnerId : String
  SecretAccessKey : String
deriving DecidableEq, Repr

/-- The `AutoInstance` struct of `instance.go`, without its tag map and its
connection.  `LaunchTime` is an instant in nanoseconds. -/
structure AutoInstance where
  Id : String
  ImageId : String
  LaunchTime : Int
  State : String
  Region : String
deriving DecidableEq, Repr

/-- The `AutoRefreshAmi` struct of `engine.go`.  `Account` is a pointer and may
be `nil`.  The log fields are left out, and so is `waitGroup`, which in every
job points to the one barrier `cs.GoWait`; the barrier's counter is part of the
run state. -/
structure AutoRefreshAmi where
  Account : Option Account
  LaunchConfig : LaunchConfig
  RetentionCount : Nat
  Cron : String
  Name : String
  ConfigErrors : Nat
deriving DecidableEq, Repr

/-- The method `AutoRefreshAmi.Copy`: the account pointer, retention count,
cron expression and name are assigned, the launch descriptor is copied with
`LaunchConfig.Copy`, and the error count starts at zero. -/
def AutoRefreshAmi.Copy (h : Heap) (self : AutoRefreshAmi) : Heap × AutoRefreshAmi :=
  let copied := self.LaunchConfig.Copy h
  (copied.1, { Account := self.Account, LaunchConfig := copied.2,
               RetentionCount := self.RetentionCount, Cron := self.Cron, Name := self.Name,
               ConfigErrors := 0 })

/-- What a job does that can be seen from outside: operations on the
completion barrier, calls of the provider-facing methods, and the recovery of
a panic. -/
inductive Event where
  | waitGroupAdd (n : Nat)
  | waitGroupDone
  | launchInstance (amiId : String)
  | waitForStoppedState (instanceId : String)
  | createAmi (instanceId : String) (name : String)
  | terminate (instanceId : String)
  | waitForAvailableState (imageId : String)
  | deleteOldAmi (owner : String) (retentionCount : Nat)
  | deregisterImage (imageId : String)
  | findInstances
  | recovered
deriving DecidableEq, Repr

/-- The outcomes of the provider-facing methods, as an oracle.  A waiting
method returns the handle as the polls left it, and its error if it has one;
`findAmi` panics with the error of `DescribeImages`, otherwise returns the
images found, newest first. -/
structure Provider where
  launchInstance : LaunchConfig → Except String AutoInstance
  waitForStoppedState : AutoInstance → AutoInstance × Option String
  createAmi : AutoInstance → String → Except String AutoAmi
  waitForAvailableState : AutoAmi → AutoAmi × Option String
  findAmi : AutoAmi → String → Except String (List AutoAmi)
  deregisterFails : Nat → Bool
  findInstances : LaunchConfig → Except String (List AutoInstance)

/-- The state of one run of a job: the events so far, the counter of the
completion barrier, the job's `ConfigErrors`, and the value of the panic in
flight, if the goroutine is panicking. -/
structure RunState where
  trace : List Event
  waitGroup : Int
  ConfigErrors : Nat
  panicking : Option String
deriving DecidableEq, Repr

/-- An event is appended to the trace. -/
def RunState.emit (s : RunState) (e : Event) : RunState :=
  { s with trace := s.trace ++ [e] }

/-- Go's `panic(v)`. -/
def RunState.raise (s : RunState) (v : String) : RunState :=
  { s with panicking := some v }

/-- A deferred call on the stack of `Refresh` or `CleanUp`.  The handles are
pointers: the deferred call sees the handle as it is when the call runs. -/
inductive Deferred where
  | waitGroupDone
  | recoverPanic
  | terminate (autoInstance : AutoInstance)
  | deleteOldAmi (autoAmi : AutoAmi) (owner : String) (retentionCount : Nat)

/-- One deferred call is run.
* `waitGroup.Done()` lowers the counter and panics when it would become
  negative.
* `recoverPanic` calls `recover()`; when a panic is in flight it stops it and
  raises `ConfigErrors`.
* `Terminate` issues the terminate request; its error is returned to nobody.
* `DeleteOldAmi` calls `findAmi`, which panics on a provider error, then walks
  the images; a panic of a deferred call replaces the one in flight. -/
def runDeferred (p : Provider) : Deferred → RunState → RunState
  | .waitGroupDone, s =>
    if s.waitGroup - 1 < 0 then
      { (s.emit .waitGroupDone) with
        waitGroup := s.waitGroup - 1, panicking := some "sync: negative WaitGroup counter" }
    else { (s.emit .waitGroupDone) with waitGroup := s.waitGroup - 1 }
  | .recoverPanic, s =>
    match s.panicking with
    | some _ => { (s.emit .recovered) with panicking := none, ConfigErrors := s.ConfigErrors + 1 }
    | none => s
  | .terminate autoInstance, s => s.emit (.terminate autoInstance.Id)
  | .deleteOldAmi autoAmi owner retentionCount, s =>
    let s1 := s.emit (.deleteOldAmi owner retentionCount)
    match p.findAmi autoAmi owner with
    | .error e => s1.raise e
    | .ok amiFound =>
      let run := DeleteOldAmi amiFound retentionCount p.deregisterFails
      let s2 := { s1 with trace := s1.trace ++ run.deregistered.map Event.deregisterImage }
      if run.panicked then s2.raise "index out of range" else s2

/-- The deferred calls are run, last registered first (the head of the list is
the call registered last). -/
def unwind (p : Provider) : List Deferred → RunState → RunState
  | [], s => s
  | d :: rest, s => unwind p rest (runDeferred p d s)

/-- The opening of `Refresh` and of `CleanUp`: a job with a cron expression
adds one to the barrier. -/
def AutoRefreshAmi.enter (self : AutoRefreshAmi) (waitGroup : Int) : RunState :=
  let s : RunState :=
    { trace := [], waitGroup := waitGroup, ConfigErrors := self.ConfigErrors, panicking := none }
  if self.Cron != "" then { (s.emit (.waitGroupAdd 1)) with waitGroup := waitGroup + 1 } else s

/-- The method `AutoRefreshAmi.Refresh`, run with the barrier's counter at
`waitGroup`.  Each `self.check(err, ...)` panics when `err` is not `nil`, and a
panic unwinds the deferred calls registered so far.  `resetLogFields` reads
`self.Account.Name`, a nil dereference when the account is `nil`. -/
def AutoRefreshAmi.Refresh (self : AutoRefreshAmi) (p : Provider) (waitGroup : Int) : RunState :=
  let s1 := self.enter waitGroup
  let d0 := [Deferred.recoverPanic, Deferred.waitGroupDone]
  match self.Account with
  | none => unwind p d0 (s1.raise "nil pointer dereference")
  | some account =>
    let s2 := s1.emit (.launchInstance self.LaunchConfig.Source.AmiId)
    match p.launchInstance self.LaunchConfig with
    | .error e => unwind p d0 (s2.raise e)
    | .ok launched =>
      let s3 := s2.emit (.waitForStoppedState launched.Id)
      let waited := p.waitForStoppedState launched
      let autoInstance := waited.1
      let d1 := Deferred.terminate autoInstance :: d0
      match waited.2 with
      | some e => unwind p d1 (s3.raise e)
      | none =>
        let s4 := s3.emit (.createAmi autoInstance.Id self.Name)
        match p.createAmi autoInstance self.Name with
        | .error e => unwind p d1 (s4.raise e)
        | .ok created =>
          let s5 := s4.emit (.waitForAvailableState created.Id)
          let ready := p.waitForAvailableState created
          let d2 := Deferred.deleteOldAmi ready.1 account.OwnerId self.RetentionCount :: d1
          match ready.2 with
          | some e => unwind p d2 (s5.raise e)
          | none => unwind p d2 s5

/-- The events of the image walk inside a deferred `DeleteOldAmi`: one
`DeregisterImage` request per retired image, none when `findAmi` panics. -/
def retirementEvents (p : Provider) (autoAmi : AutoAmi) (owner : String)
    (retentionCount : Nat) : List Event :=
  match p.findAmi autoAmi owner with
  | .error _ => []
  | .ok amiFound =>
    (DeleteOldAmi amiFound retentionCount p.deregisterFails).deregistered.map Event.deregisterImage

/-- The panic a deferred `DeleteOldAmi` ends in, if it does. -/
def retirementPanic (p : Provider) (autoAmi : AutoAmi) (owner : String)
    (retentionCount : Nat) : Option String :=
  match p.findAmi autoAmi owner with
  | .error e => some e
  | .ok amiFound =>
    if (DeleteOldAmi amiFound retentionCount p.deregisterFails).panicked then
      some "index out of range"
    else none

/-- The event is a terminate request. -/
def Event.isTerminate : Event → Bool
  | .terminate _ => true
  | _ => false

/-- The event is a call of `DeleteOldAmi`. -/
def Event.isDeleteOldAmi : Event → Bool
  | .deleteOldAmi _ _ => true
  | _ => false

/-- The event is a call of `WaitForStoppedState`. -/
def Event.isWaitForStopped : Event → Bool
  | .waitForStoppedState _ => true
  | _ => false

/-- The event is a call of `CreateAmi`. -/
def Event.isCreateAmi : Event → Bool
  | .createAmi _ _ => true
  | _ => false

/-- The event is a call of `WaitForAvailableState`. -/
def Event.isWaitForAvailable : Event → Bool
  | .waitForAvailableState _ => true
  | _ => false

/-- The event is a `DeregisterImage` request. -/
def Event.isDeregister : Event → Bool
  | .deregisterImage _ => true
  | _ => false

/-- The constant `INSTANCE_MAX_AGE`, `time.Minute * 120`, in nanoseconds. -/
def INSTANCE_MAX_AGE : Int := 60 * 1000000000 * 120

/-- Go's `time.Since(t)` read at the instant `now`: the difference in
nanoseconds, kept within the range of a `Duration` (an `int64`). -/
def timeSince (now t : Int) : Int :=
  if now - t > 2 ^ 63 - 1 then 2 ^ 63 - 1
  else if now - t < -(2 ^ 63) then -(2 ^ 63)
  else now - t

/-- The loop of `CleanUp` over the instances found.  `clock i` is the reading
of the clock in iteration `i`. -/
def cleanUpLoop (clock : Nat → Int) : List AutoInstance → Nat → RunState → RunState
  | [], _, s => s
  | autoInst :: rest, i, s =>
    let timeOld := timeSince (clock i) autoInst.LaunchTime
    if decide (timeOld > INSTANCE_MAX_AGE) && autoInst.State == "stopped" then
      cleanUpLoop clock rest (i + 1) (s.emit (.terminate autoInst.Id))
    else cleanUpLoop clock rest (i + 1) s

/-- The method `AutoRefreshAmi.CleanUp`, run with the barrier's counter at
`waitGroup`. -/
def AutoRefreshAmi.CleanUp (self : AutoRefreshAmi) (p : Provider) (clock : Nat → Int)
    (waitGroup : Int) : RunState :=
  let s1 := self.enter waitGroup
  let d0 := [Deferred.recoverPanic, Deferred.waitGroupDone]
  match self.Account with
  | none => unwind p d0 (s1.raise "nil pointer dereference")
  | some _ =>
    let s2 := s1.emit .findInstances
    match p.findInstances self.LaunchConfig with
    | .error e => unwind p d0 (s2.raise e)
    | .ok instancesFound => unwind p d0 (cleanUpLoop clock instancesFound 0 s2)

/-- Specification side: in iteration `i` the instance is older than 120
minutes (now minus launch time, as a plain difference) and its state is
"stopped". -/
def agedAndStopped (clock : Nat → Int) (i : Nat) (inst : AutoInstance) : Bool :=
  decide (clock i - inst.LaunchTime > 120 * 60 * 1000000000) && inst.State == "stopped"

/-- Specification side: the instances to terminate, in the order found. -/
def expectedTerminations (clock : Nat → Int) (instances : List AutoInstance) : List AutoInstance :=
  (instances.enum.filter (fun x => agedAndStopped clock x.1 x.2)).map (fun x => x.2)

/-- An account. -/
def sampleAccount : Account :=
  { Name := "prod", AccessKeyId := "AKIAEXAMPLE", OwnerId := "123456789012",
    SecretAccessKey := "secret" }

/-- A one-shot job (no cron expression) with retention count 2. -/
def sampleJob : AutoRefreshAmi :=
  { Account := some sampleAccount, LaunchConfig := sampleConfig, RetentionCount := 2,
    Cron := "", Name := "base", ConfigErrors := 0 }

/-- An instance handle as `LaunchInstance` returns it. -/
def sampleInstance : AutoInstance :=
  { Id := "i-1", ImageId := "ami-1", LaunchTime := 0, State := "pending", Region := "us-east-1" }

/-- A provider on which every call succeeds: the instance stops, the image
`ami-6` is created and becomes available, and the five images of the scenario
are found. -/
def happyProvider : Provider :=
  { launchInstance := fun _ => .ok sampleInstance
    waitForStoppedState := fun i => ({ i with State := "stopped" }, none)
    createAmi := fun _ _ => .ok (imageWith "ami-6" "pending")
    waitForAvailableState := fun a => ({ a with State := "available" }, none)
    findAmi := fun _ _ => .ok fiveImages
    deregisterFails := fun _ => false
    findInstances := fun _ => .ok [] }

/-- A provider on which the launch fails. -/
def launchFailsProvider : Provider :=
  { happyProvider with launchInstance := fun _ => .error "RunInstances: request limit exceeded" }

/-- A provider on which the wait for the available state fails. -/
def waitAvailableFailsProvider : Provider :=
  { happyProvider with
    waitForAvailableState := fun a => (a, some "DescribeImages: request limit exceeded") }

/-- A provider on which the image creation fails. -/
def createFailsProvider : Provider :=
  { happyProvider with createAmi := fun _ _ => .error "CreateImage: request limit exceeded" }

/-- Three instances launched at instant 0, 0 and 6000 seconds: the first
stopped, the second running, the third stopped. -/
def threeInstances : List AutoInstance :=
  [{ Id := "i-old-stopped", ImageId := "ami-1", LaunchTime := 0, State := "stopped",
     Region := "us-east-1" },
   { Id := "i-old-running", ImageId := "ami-1", LaunchTime := 0, State := "running",
     Region := "us-east-1" },
   { Id := "i-young-stopped", ImageId := "ami-1", LaunchTime := 6000 * 1000000000,
     State := "stopped", Region := "us-east-1" }]

/-- A provider that finds the three instances. -/
def cleanUpProvider : Provider :=
  { happyProvider with findInstances := fun _ => .ok threeInstances }

/-- A clock that reads 3 hours (10800 seconds) in every iteration. -/
def threeHours : Nat → Int := fun _ => 10800 * 1000000000

/-- The `UserData` struct of `config.go`. -/
structure UserData where
  Name : String
  Bash : String
deriving DecidableEq, Repr

/-- The `Project` struct of `config.go`; `UserData` and `Account` are names of
records, `EbsVolumes` and `Tags` are references into the heap. -/
structure Project where
  Name : String
  InstanceType : String
  Cron : String
  RetentionCount : Nat
  SourceFilter : Source
  UserData : String
  Account : String
  EbsVolumes : Option Nat
  Tags : Option Nat
deriving DecidableEq, Repr

/-- The records of `ConfigStorage` that `StartEngine` reads.  The maps
`accounts` and `userdatas` are lookups by name (a missing key yields a `nil`
pointer); `projects` lists the values of the map `projects` in the order in
which the range loop happens to visit them. -/
structure ConfigStorage where
  sources : List Source
  accounts : String → Option Account
  projects : List Project
  userdatas : String → Option UserData

/-- The two functions `newRefreshAmi.Refresh` and `newRefreshAmi.CleanUp` that
`StartEngine` hands to `go` or to `cronRunner.AddFunc`: both are bound to the
same job value.  `recurring` tells which of the two dispatches was used. -/
structure JobPair where
  job : AutoRefreshAmi
  recurring : Bool
deriving DecidableEq, Repr

/-- The state of `StartEngine` while it walks the projects: the heap, the
counter of `cs.GoWait`, the job pairs dispatched so far, and the run-time panic
that ended the walk, if there is one. -/
structure Engine where
  heap : Heap
  GoWait : Int
  pairs : List JobPair
  fatal : Option String

/-- The job value `refreshAmi` that `StartEngine` fills in for a project before
the sources are matched; `launchConfig.Source` is still the zero value, and
`Tags` and `Ebs` are the project's own map and slice. -/
def projectJob (cs : ConfigStorage) (project : Project) (userdata : UserData) : AutoRefreshAmi :=
  { Account := cs.accounts project.Account
    LaunchConfig :=
      { UserData := userdata.Bash, Source := ⟨"", "", "", "", "", "", ""⟩,
        InstanceType := project.InstanceType, Tags := project.Tags, Ebs := project.EbsVolumes }
    RetentionCount := project.RetentionCount
    Cron := project.Cron
    Name := project.Name
    ConfigErrors := 0 }

/-- The body of the inner loop of `StartEngine` for one matching source: the
job is copied, the copy gets the source, and the pair is dispatched, with
`cs.GoWait.Add(2)` and two `go` statements when there is no cron expression and
with two `cronRunner.AddFunc` calls otherwise. -/
def startSource (refreshAmi : AutoRefreshAmi) (e : Engine) (source : Source) : Engine :=
  let copied := refreshAmi.Copy e.heap
  let newRefreshAmi : AutoRefreshAmi :=
    { copied.2 with LaunchConfig := { copied.2.LaunchConfig with Source := source.Copy } }
  if newRefreshAmi.Cron == "" then
    { heap := copied.1, GoWait := e.GoWait + 2,
      pairs := e.pairs ++ [{ job := newRefreshAmi, recurring := false }], fatal := e.fatal }
  else
    { heap := copied.1, GoWait := e.GoWait,
      pairs := e.pairs ++ [{ job := newRefreshAmi, recurring := true }], fatal := e.fatal }

/-- The body of the outer loop of `StartEngine` for one project.  Reading
`cs.userdatas[project.UserData].Bash` dereferences a `nil` pointer when the
user-data record is missing; that panic is not recovered and ends the
process. -/
def startProject (cs : ConfigStorage) (e : Engine) (project : Project) : Engine :=
  match e.fatal with
  | some _ => e
  | none =>
    match cs.userdatas project.UserData with
    | none => { e with fatal := some "nil pointer dereference" }
    | some userdata =>
      (project.SourceFilter.findSources cs.sources).foldl
        (startSource (projectJob cs project userdata)) e

/-- The loop of `StartEngine` over the projects, from a heap that holds the
projects' tag maps and volume slices and a fresh barrier. -/
def StartEngine (cs : ConfigStorage) (h : Heap) : Engine :=
  cs.projects.foldl (startProject cs) { heap := h, GoWait := 0, pairs := [], fatal := none }

/-- Specification side: the pair built for source `s`, with its tag map at
address `t` and its volume slice at address `v`. -/
def pairFor (job : AutoRefreshAmi) (t v : Nat) (s : Source) : JobPair :=
  { job :=
      { Account := job.Account
        LaunchConfig :=
          { UserData := job.LaunchConfig.UserData, Source := s,
            InstanceType := job.LaunchConfig.InstanceType, Tags := some t, Ebs := some v }
        RetentionCount := job.RetentionCount
        Cron := job.Cron
        Name := job.Name
        ConfigErrors := 0 }
    recurring := job.Cron != "" }

/-- Specification side: one pair per source, with consecutive fresh
addresses. -/
def expectedPairs (job : AutoRefreshAmi) : Nat → Nat → List Source → List JobPair
  | _, _, [] => []
  | t, v, s :: rest => pairFor job t v s :: expectedPairs job (t + 1) (v + 1) rest

/-- A third source, of another architecture. -/
def sourceArm : Source := ⟨"ami-3", "arm64", "ubuntu", "linux", "us-east-1", "hvm", "14.04"⟩

/-- A project with retention count 2 whose filter asks for `x86_64`; its tag
map and volume slice are the ones of `sampleHeap`. -/
def sampleProject : Project :=
  { Name := "base", InstanceType := "t2.nano", Cron := "", RetentionCount := 2,
    SourceFilter := ⟨"", "x86_64", "", "", "", "", ""⟩, UserData := "bake", Account := "prod",
    EbsVolumes := some 0, Tags := some 0 }

/-- Records in which the filter of `sampleProject` matches `sourceEast` and
`sourceWest` and not `sourceArm`. -/
def sampleStorage : ConfigStorage :=
  { sources := [sourceEast, sourceArm, sourceWest]
    accounts := fun n => if n = "prod" then some sampleAccount else none
    projects := [sampleProject]
    userdatas := fun n =>
      if n = "bake" then some { Name := "bake", Bash := "#!/bin/bash\nsudo init 0\n" } else none }

/-- The engine before the first project. -/
def sampleEngine : Engine := { heap := sampleHeap, GoWait := 0, pairs := [], fatal := none }

/-- A project that names an account which is not among the records. -/
def orphanProject : Project := { sampleProject with Name := "orphan", Account := "missing" }

/-- Records whose only project names a missing account. -/
def orphanStorage : ConfigStorage := { sampleStorage with projects := [orphanProject] }

/-- A project that names a user-data record which is not among the records. -/
def noUserDataProject : Project := { sampleProject with Name := "nodata", UserData := "missing" }

/-- Records with a sound project, visited first, and a project that names a
missing user-data record. -/
def mixedStorage : ConfigStorage :=
  { sampleStorage with projects := [sampleProject, noUserDataProject] }

/-! ## `account.go`: launching an instance -/

/-- What the provider reports about one instance (`ec2.Instance`), as far as
`AutoInstance.Update` reads it. -/
structure InstanceView where
  InstanceId : String
  ImageId : String
  LaunchTime : Int
  State : String
  Tags : List (String × String)
deriving DecidableEq, Repr

/-- The method `AutoInstance.Update` on the scalar fields: id, launch time,
image id and state are overwritten from the provider's view; the region is
left as it is. -/
def AutoInstance.Update (self : AutoInstance) (view : InstanceView) : AutoInstance :=
  { self with
    Id := view.InstanceId, LaunchTime := view.LaunchTime, ImageId := view.ImageId,
    State := view.State }

/-- The method `AutoInstance.Update` on the tag map: every tag of the
provider's view is stored; tags the view does not mention stay. -/
def updateTags (tags : TagMap) (view : InstanceView) : TagMap :=
  view.Tags.foldl (fun m kv => m.insert kv.1 kv.2) tags

/-- The constant `RETRYCOUNT` of `account.go`. -/
def RETRYCOUNT : Nat := 10

/-- The tagging loop of `LaunchInstance`,
`for i := 0; i < RETRYCOUNT; i++ { err = autoInstance.TagInstance(); ... }`.
The first argument is `RETRYCOUNT - i`.  `tagInstance i` is the error of the
tagging attempt number `i` (counted from 0), `none` for `nil`.  The result is
the number of attempts made and the value of `err` after the loop. -/
def tagRetryLoop (tagInstance : Nat → Option String) :
    Nat → Nat → Option String → Nat × Option String
  | 0, i, err => (i, err)
  | remaining + 1, i, _ =>
    match tagInstance i with
    | none => (i + 1, none)
    | some e => tagRetryLoop tagInstance remaining (i + 1) (some e)

/-- What one call of `LaunchInstance` did: the number of tagging requests it
issued and what it returned (a handle, or an error and no handle). -/
structure LaunchRun where
  tagAttempts : Nat
  result : Except String AutoInstance
deriving Repr

/-- The method `Account.LaunchInstance`, from the run-instances request on.
`runInstances` is the outcome of that request, the view of the one instance
launched or an error. -/
def Account.LaunchInstance (_self : Account) (config : LaunchConfig)
    (runInstances : Except String InstanceView) (tagInstance : Nat → Option String) :
    LaunchRun :=
  match runInstances with
  | .error e => { tagAttempts := 0, result := .error e }
  | .ok view =>
    let autoInstance : AutoInstance :=
      AutoInstance.Update
        { Id := "", ImageId := "", LaunchTime := 0, State := "", Region := config.Source.Region }
        view
    let looped := tagRetryLoop tagInstance RETRYCOUNT 0 none
    match looped.2 with
    | some e => { tagAttempts := looped.1, result := .error e }
    | none => { tagAttempts := looped.1, result := .ok autoInstance }

/-- A view of a freshly launched instance. -/
def sampleView : InstanceView :=
  { InstanceId := "i-1", ImageId := "ami-1", LaunchTime := 0, State := "pending", Tags := [] }

/-- Tagging outcomes: the first three attempts fail, the fourth succeeds. -/
def tagFailsThrice : Nat → Option String :=
  fun i => if i < 3 then some "InvalidInstanceID.NotFound" else none

/-! ## `engine.go`: the shutdown listener -/

/-- What the listener `receiveSystemSignals(true)` can see happen: a
termination signal is delivered on `stopSignal`, or a goroutine
`makeBoolTrueAfterDelay` started 5 seconds ago wakes up. -/
inductive ListenerEvent where
  | signal
  | timerFires
deriving DecidableEq, Repr

/-- The state of the listener: the variable `safeAck`, the number of
`makeBoolTrueAfterDelay` goroutines still asleep, the number of signals
acknowledged ("graceful shutdown initiated"), and whether `panic(value)` has
ended the process. -/
structure Listener where
  safeAck : Bool
  sleeping : Nat
  acknowledged : Nat
  aborted : Bool
deriving DecidableEq, Repr

/-- The listener as `receiveSystemSignals(true)` starts it: `safeAck := true`. -/
def Listener.start : Listener :=
  { safeAck := true, sleeping := 0, acknowledged := 0, aborted := false }

/-- One event.  On a signal the loop body runs: with `safeAck` set the signal
is acknowledged, `safeAck` is cleared and a goroutine is started that sets it
again after 5 seconds; with `safeAck` cleared the listener panics.  When a
sleeping goroutine wakes up it sets `safeAck`.  Nothing happens after the
panic. -/
def Listener.step (s : Listener) : ListenerEvent → Listener
  | .signal =>
    if s.aborted then s
    else if s.safeAck then
      { s with safeAck := false, sleeping := s.sleeping + 1, acknowledged := s.acknowledged + 1 }
    else { s with aborted := true }
  | .timerFires =>
    if s.aborted then s
    else
      match s.sleeping with
      | 0 => s
      | n + 1 => { s with safeAck := true, sleeping := n }

/-- A sequence of events, first to last. -/
def Listener.run (s : Listener) (events : List ListenerEvent) : Listener :=
  events.foldl Listener.step s

/-! ## `instance.go`, `ami.go`: creating an image -/

/-- A request that `CreateAmi` sends to the provider. -/
inductive ImageRequest where
  | createImage (instanceId : String) (name : String)
  | createTags (resource : String) (tags : TagMap)
deriving DecidableEq

/-- The method `AutoAmi.TagImage`: one create-tags request for the image with
the tags of the handle; the error of the request is returned. -/
def AutoAmi.TagImage (_self : AutoAmi) (createTags : Option String) : Option String :=
  createTags

/-- What one call of `CreateAmi` did: the requests it sent, whether the
create-tags request for the image succeeded, and what it returned. -/
structure CreateAmiRun where
  requests : List ImageRequest
  tagged : Bool
  result : Except String AutoAmi

/-- The method `AutoInstance.CreateAmi`.  `tags` is the tag map of the
instance handle, which the image handle shares; `timeNow` is the formatted
current time; `createImage` and `createTags` are the outcomes of the two
requests.  The statement `ami.TagImage()` drops the error that `TagImage`
returns. -/
def AutoInstance.CreateAmi (self : AutoInstance) (tags : TagMap) (name timeNow : String)
    (createImage : Except String String) (createTags : Option String) : CreateAmiRun :=
  let amiName := name ++ " " ++ timeNow
  match createImage with
  | .error e =>
    { requests := [.createImage self.Id amiName], tagged := false, result := .error e }
  | .ok imageId =>
    let ami : AutoAmi :=
      { Id := imageId, Region := self.Region, Architecture := "", Name := amiName, State := "",
        Description := "", CreationDate := "" }
    let tagError := ami.TagImage createTags
    { requests := [.createImage self.Id amiName, .createTags imageId tags],
      tagged := tagError.isNone, result := .ok ami }

/-! ## `instance.go`: waiting for the stopped state -/

/-- The outcome of one describe-instances request in `IsStopped`: an error, the
view of the instance, or a response without a reservation or without an
instance, on which `resp.Reservations[0].Instances[0]` panics. -/
inductive DescribeOutcome where
  | failed (err : String)
  | found (view : InstanceView)
  | noInstance
deriving DecidableEq, Repr

/-- How a call of `WaitForStoppedState` ends: it returns its error value
(`none` for `nil`), it panics, or it is still polling when the outcomes given
are used up. -/
inductive WaitResult where
  | returned (err : Option String)
  | panicked
  | polling
deriving DecidableEq, Repr

/-- What one call of `WaitForStoppedState` did: the handle and its tag map as
the call leaves them, the number of describe-instances requests, and how the
call ended. -/
structure WaitRun where
  handle : AutoInstance
  tags : TagMap
  describeCalls : Nat
  result : WaitResult

/-- The loop of `WaitForStoppedState`, `for self.State != "stopped"`, with the
body of `IsStopped` in place: a failed request returns its error at once, a
view is stored in the handle with `Update`, and the loop tests the state
again.  The list holds the outcomes of the requests to come; `calls` counts the
requests made so far. -/
def waitForStoppedLoop :
    List DescribeOutcome → AutoInstance → TagMap → Nat → WaitRun
  | [], self, tags, calls =>
    if self.State != "stopped" then
      { handle := self, tags := tags, describeCalls := calls, result := .polling }
    else { handle := self, tags := tags, describeCalls := calls, result := .returned none }
  | outcome :: rest, self, tags, calls =>
    if self.State != "stopped" then
      match outcome with
      | .failed err =>
        { handle := self, tags := tags, describeCalls := calls + 1,
          result := .returned (some err) }
      | .noInstance =>
        { handle := self, tags := tags, describeCalls := calls + 1, result := .panicked }
      | .found view =>
        waitForStoppedLoop rest (self.Update view) (updateTags tags view) (calls + 1)
    else { handle := self, tags := tags, describeCalls := calls, result := .returned none }

/-- The method `AutoInstance.WaitForStoppedState` on a handle with the given
tag map. -/
def AutoInstance.WaitForStoppedState (self : AutoInstance) (tags : TagMap)
    (outcomes : List DescribeOutcome) : WaitRun :=
  waitForStoppedLoop outcomes self tags 0

/-- Specification side: the views of the outcomes that are views. -/
def viewsOf (outcomes : List DescribeOutcome) : List InstanceView :=
  outcomes.filterMap (fun o => match o with
    | .found view => some view
    | _ => none)

/-- Specification side: the handle after the given views have been stored in
it, one after the other. -/
def afterViews (self : AutoInstance) (views : List InstanceView) : AutoInstance :=
  views.foldl AutoInstance.Update self

/-- Specification side: the tag map after the given views have been stored. -/
def tagsAfterViews (tags : TagMap) (views : List InstanceView) : TagMap :=
  views.foldl updateTags tags

/-- The view of `sampleView` with another state. -/
def viewInState (state : String) : InstanceView := { sampleView with State := state }

/-- The event is an `Add` on the completion barrier. -/
def Event.isWaitGroupAdd : Event → Bool
  | .waitGroupAdd _ => true
  | _ => false

/-- The event is a `Done` on the completion barrier. -/
def Event.isWaitGroupDone : Event → Bool
  | .waitGroupDone => true
  | _ => false

/-- A provider on which `DescribeImages` fails inside the deferred
`DeleteOldAmi`, so that `findAmi` panics. -/
def findAmiFailsProvider : Provider :=
  { happyProvider with findAmi := fun _ _ => .error "DescribeImages: request limit exceeded" }

/-- A job with a cron expression. -/
def cronJob : AutoRefreshAmi := { sampleJob with Cron := "0 0 3 * * *" }

/-! ## `ami.go`: waiting for the available state -/

/-- What the provider reports about one image (`ec2.Image`), as far as
`AutoAmi.Update` stores it in the fields kept here. -/
structure ImageView where
  Architecture : String
  CreationDate : String
  Description : String
  ImageId : String
  Name : String
  State : String
deriving DecidableEq, Repr

/-- The method `AutoAmi.Update` on the fields kept here; `Region` is not
written. -/
def AutoAmi.Update (self : AutoAmi) (image : ImageView) : AutoAmi :=
  { self with
    Architecture := image.Architecture, CreationDate := image.CreationDate,
    Description := image.Description, Id := image.ImageId, Name := image.Name,
    State := image.State }

/-- The outcome of one describe-images request in `IsAvailable`: an error, the
view of the image, or a response without an image, on which `resp.Images[0]`
panics. -/
inductive ImageOutcome where
  | failed (err : String)
  | found (image : ImageView)
  | noImage
deriving DecidableEq, Repr

/-- What one call of `WaitForAvailableState` did: the handle as the call leaves
it, the number of describe-images requests, and how the call ended. -/
structure ImageWaitRun where
  handle : AutoAmi
  describeCalls : Nat
  result : WaitResult
deriving DecidableEq, Repr

/-- The loop of `WaitForAvailableState`, `for self.State != "available"`, with
the body of `IsAvailable` in place: a failed request returns its error, a view
is stored in the handle with `Update`, and the loop tests the state again.  The
loop has no bound on its rounds.  The list holds the outcomes of the requests
to come; when it is used up and the state is not "available", the call is still
polling. -/
def waitForAvailableLoop : List ImageOutcome → AutoAmi → Nat → ImageWaitRun
  | [], self, calls =>
    if self.State != "available" then
      { handle := self, describeCalls := calls, result := .polling }
    else { handle := self, describeCalls := calls, result := .returned none }
  | outcome :: rest, self, calls =>
    if self.State != "available" then
      match outcome with
      | .failed err =>
        { handle := self, describeCalls := calls + 1, result := .returned (some err) }
      | .noImage => { handle := self, describeCalls := calls + 1, result := .panicked }
      | .found image => waitForAvailableLoop rest (self.Update image) (calls + 1)
    else { handle := self, describeCalls := calls, result := .returned none }

/-- The method `AutoAmi.WaitForAvailableState`. -/
def AutoAmi.WaitForAvailableState (self : AutoAmi) (outcomes : List ImageOutcome) :
    ImageWaitRun :=
  waitForAvailableLoop outcomes self 0

/-- How far one run of `Refresh` has come: it has returned, with every deferred
call run, or it is inside `WaitForAvailableState`, with the deferred calls
registered so far still to run (the call registered last at the head). -/
inductive RefreshProgress where
  | returned (s : RunState)
  | waiting (s : RunState) (deferred : List Deferred)

/-- The method `AutoRefreshAmi.Refresh` with the loop of
`WaitForAvailableState` in place of the provider's answer: `images` holds the
outcomes of the describe-images requests of that loop.  While the loop polls,
no deferred call runs.  A panic inside the loop (`resp.Images[0]` on an empty
response) unwinds like the panic of `self.check`. -/
def AutoRefreshAmi.RefreshPolled (self : AutoRefreshAmi) (p : Provider)
    (images : List ImageOutcome) (waitGroup : Int) : RefreshProgress :=
  let s1 := self.enter waitGroup
  let d0 := [Deferred.recoverPanic, Deferred.waitGroupDone]
  match self.Account with
  | none => .returned (unwind p d0 (s1.raise "nil pointer dereference"))
  | some account =>
    let s2 := s1.emit (.launchInstance self.LaunchConfig.Source.AmiId)
    match p.launchInstance self.LaunchConfig with
    | .error e => .returned (unwind p d0 (s2.raise e))
    | .ok launched =>
      let s3 := s2.emit (.waitForStoppedState launched.Id)
      let waited := p.waitForStoppedState launched
      let autoInstance := waited.1
      let d1 := Deferred.terminate autoInstance :: d0
      match waited.2 with
      | some e => .returned (unwind p d1 (s3.raise e))
      | none =>
        let s4 := s3.emit (.createAmi autoInstance.Id self.Name)
        match p.createAmi autoInstance self.Name with
        | .error e => .returned (unwind p d1 (s4.raise e))
        | .ok created =>
          let s5 := s4.emit (.waitForAvailableState created.Id)
          let run := created.WaitForAvailableState images
          let d2 := Deferred.deleteOldAmi run.handle account.OwnerId self.RetentionCount :: d1
          match run.result with
          | .polling => .waiting s5 d2
          | .panicked => .returned (unwind p d2 (s5.raise "index out of range"))
          | .returned (some e) => .returned (unwind p d2 (s5.raise e))
          | .returned none => .returned (unwind p d2 s5)

/-- The view of an image that is not yet available. -/
def pendingImage : ImageView :=
  { Architecture := "x86_64", CreationDate := "2026-11-04T15:00:00.000Z", Description := "base",
    ImageId := "ami-6", Name := "base", State := "pending" }

/-- Specification side: the combinations of a project and a source that its
filter returns, project by project in the order of the walk, and within a
project in the order of `findSources`. -/
def expectedJobs (cs : ConfigStorage) (projects : List Project) : List (Project × Source) :=
  projects.flatMap (fun project =>
    (project.SourceFilter.findSources cs.sources).map (fun s => (project, s)))

/-- A recurring project whose filter asks for `arm64`; it shares the tag map
and the volume slice of `sampleHeap` with `sampleProject`. -/
def armProject : Project :=
  { sampleProject with
    Name := "base-arm", Cron := "0 0 3 * * *", SourceFilter := ⟨"", "arm64", "", "", "", "", ""⟩ }

/-- Records with two projects: the filter of the first matches `sourceEast` and
`sourceWest`, the filter of the second matches `sourceArm`. -/
def twoProjectStorage : ConfigStorage :=
  { sampleStorage with projects := [sampleProject, armProject] }

/-! # Theorems -/

/-! ## The source filter -/

theorem Source.skips_eq_false_iff (f s : Source) : f.skips s = false ↔ f.matchesFilter s := by
  unfold Source.skips Source.matchesFilter fieldMatches
  by_cases h1 : f.AmiId = "" <;> by_cases h2 : f.Architecture = "" <;>
  by_cases h3 : f.Name = "" <;> by_cases h4 : f.OS = "" <;>
  by_cases h5 : f.Region = "" <;> by_cases h6 : f.Type_ = "" <;>
  by_cases h7 : f.Version = "" <;> simp [h1, h2, h3, h4, h5, h6, h7]

theorem Source.differs_iff_not_matches (f s : Source) :
    f.differsInSetField s ↔ ¬ f.matchesFilter s := by
  unfold Source.differsInSetField Source.matchesFilter fieldMatches
  tauto

theorem Source.findSources_loop (f : Source) (sources found : List Source) :
    sources.foldl (fun found temp => if f.skips temp then found else found ++ [temp]) found
      = found ++ sources.filter (fun s => decide (f.matchesFilter s)) := by
  induction sources generalizing found with
  | nil => simp
  | cons s rest ih =>
    rw [List.foldl_cons, ih]
    by_cases h : f.skips s = true
    · have hn : ¬ f.matchesFilter s := by
        rw [← Source.skips_eq_false_iff]; simp [h]
      simp [h, hn]
    · have hm : f.matchesFilter s := by
        rw [← Source.skips_eq_false_iff]; simpa using h
      simp [h, hm]

theorem Source.findSources_eq_filter (f : Source) (sources : List Source) :
    f.findSources sources = sources.filter (fun s => decide (f.matchesFilter s)) := by
  unfold Source.findSources
  rw [Source.findSources_loop]; simp

/-- C1: `findSources` returns, in their original order, exactly the sources
that agree with the filter on every non-empty filter field; the filter with all
fields empty returns the whole list, and a source that differs from the filter
in some set field is not returned. -/
theorem findSources_conjunctive (f : Source) (sources : List Source) :
    f.findSources sources = sources.filter (fun s => decide (f.matchesFilter s)) ∧
    emptyFilter.findSources sources = sources ∧
    (∀ s, f.differsInSetField s → s ∉ f.findSources sources) ∧
    (∀ s, s ∈ sources → ¬ f.differsInSetField s → s ∈ f.findSources sources) := by
  refine ⟨Source.findSources_eq_filter f sources, ?_, ?_, ?_⟩
  · rw [Source.findSources_eq_filter]
    apply List.filter_eq_self.mpr
    intro s _
    simp [Source.matchesFilter, fieldMatches, emptyFilter]
  · intro s hd hmem
    rw [Source.findSources_eq_filter, List.mem_filter] at hmem
    exact (Source.differs_iff_not_matches f s).mp hd (by simpa using hmem.2)
  · intro s hs hd
    rw [Source.findSources_eq_filter, List.mem_filter]
    refine ⟨hs, ?_⟩
    have : f.matchesFilter s := by
      by_contra hc
      exact hd ((Source.differs_iff_not_matches f s).mpr hc)
    simpa using this

/-! ## Copying a launch descriptor -/

theorem Heap.foldl_mapSet_frame (l : List (Sigma fun _ : String => String)) (hh : Heap) (a : Nat) :
    (l.foldl (fun hh kv => hh.mapSet a kv.1 kv.2) hh).nextMap = hh.nextMap ∧
    (l.foldl (fun hh kv => hh.mapSet a kv.1 kv.2) hh).slices = hh.slices ∧
    (l.foldl (fun hh kv => hh.mapSet a kv.1 kv.2) hh).nextSlice = hh.nextSlice ∧
    ∀ b, b ≠ a → (l.foldl (fun hh kv => hh.mapSet a kv.1 kv.2) hh).maps b = hh.maps b := by
  induction l generalizing hh with
  | nil => simp
  | cons kv rest ih =>
    simp only [List.foldl_cons]
    obtain ⟨h1, h2, h3, h4⟩ := ih (hh.mapSet a kv.1 kv.2)
    refine ⟨by rw [h1]; rfl, by rw [h2]; rfl, by rw [h3]; rfl, ?_⟩
    intro b hb
    rw [h4 b hb]
    simp [Heap.mapSet, Function.update_noteq hb]

theorem Heap.foldl_mapSet_lookup (l : List (Sigma fun _ : String => String)) (hnd : l.NodupKeys)
    (hh : Heap) (a : Nat) (k : String) :
    ((l.foldl (fun hh kv => hh.mapSet a kv.1 kv.2) hh).maps a).lookup k
      = (l.dlookup k <|> (hh.maps a).lookup k) := by
  induction l generalizing hh with
  | nil => simp
  | cons kv rest ih =>
    obtain ⟨k1, v1⟩ := kv
    rw [List.nodupKeys_cons] at hnd
    simp only [List.foldl_cons]
    rw [ih hnd.2]
    by_cases hk : k = k1
    · subst hk
      have hnone : rest.dlookup k = none := List.dlookup_eq_none.mpr hnd.1
      simp [hnone, Heap.mapSet, AList.lookup_insert]
    · have hk2 : k1 ≠ k := fun h => hk h.symm
      rw [List.dlookup_cons_ne _ _ hk]
      simp [Heap.mapSet, AList.lookup_insert_ne hk]

theorem Heap.readMap_makeMap (h : Heap) (r : Option Nat) (hv : h.validMap r) :
    h.makeMap.1.readMap r = h.readMap r := by
  cases r with
  | none => rfl
  | some a =>
    have : a ≠ h.nextMap := Nat.ne_of_lt (hv a rfl)
    simp [Heap.readMap, Heap.makeMap, Function.update_noteq this]

theorem Heap.readSlice_makeSlice (h : Heap) (r : Option Nat) (hv : h.validSlice r) :
    h.makeSlice.1.readSlice r = h.readSlice r := by
  cases r with
  | none => rfl
  | some a =>
    have : a ≠ h.nextSlice := Nat.ne_of_lt (hv a rfl)
    simp [Heap.readSlice, Heap.makeSlice, Function.update_noteq this]

theorem CopyMap_spec (h : Heap) (source : Option Nat) (hv : h.validMap source) :
    (CopyMap h source).2 = h.nextMap ∧
    (CopyMap h source).1.nextMap = h.nextMap + 1 ∧
    (CopyMap h source).1.slices = h.slices ∧
    (CopyMap h source).1.nextSlice = h.nextSlice ∧
    (∀ b, b ≠ h.nextMap → (CopyMap h source).1.maps b = h.maps b) ∧
    (∀ k, ((CopyMap h source).1.maps h.nextMap).lookup k = (h.readMap source).lookup k) := by
  unfold CopyMap
  obtain ⟨h1, h2, h3, h4⟩ :=
    Heap.foldl_mapSet_frame (h.makeMap.1.readMap source).entries h.makeMap.1 h.makeMap.2
  refine ⟨rfl, ?_, ?_, ?_, ?_, ?_⟩
  · simp only [h1]; rfl
  · simp only [h2]; rfl
  · simp only [h3]; rfl
  · intro b hb
    have := h4 b hb
    simp only [this]
    simp [Heap.makeMap, Function.update_noteq hb]
  · intro k
    have := Heap.foldl_mapSet_lookup (h.makeMap.1.readMap source).entries
      (h.makeMap.1.readMap source).nodupKeys h.makeMap.1 h.makeMap.2 k
    simp only [Heap.readMap_makeMap h source hv] at this ⊢
    simp only [Heap.makeMap] at this ⊢
    rw [this]
    simp [AList.lookup]

theorem Heap.foldl_sliceAppend (l : List EbsVolume) (hh : Heap) (a : Nat) :
    (l.foldl (fun hh ebs => hh.sliceAppend a ebs.Copy) hh).maps = hh.maps ∧
    (l.foldl (fun hh ebs => hh.sliceAppend a ebs.Copy) hh).nextMap = hh.nextMap ∧
    (l.foldl (fun hh ebs => hh.sliceAppend a ebs.Copy) hh).nextSlice = hh.nextSlice ∧
    (l.foldl (fun hh ebs => hh.sliceAppend a ebs.Copy) hh).slices a = hh.slices a ++ l ∧
    ∀ b, b ≠ a → (l.foldl (fun hh ebs => hh.sliceAppend a ebs.Copy) hh).slices b = hh.slices b := by
  induction l generalizing hh with
  | nil => simp
  | cons v rest ih =>
    simp only [List.foldl_cons]
    obtain ⟨h1, h2, h3, h4, h5⟩ := ih (hh.sliceAppend a v.Copy)
    refine ⟨by rw [h1]; rfl, by rw [h2]; rfl, by rw [h3]; rfl, ?_, ?_⟩
    · rw [h4]; simp [Heap.sliceAppend, EbsVolume.Copy]
    · intro b hb
      rw [h5 b hb]
      simp [Heap.sliceAppend, Function.update_noteq hb]

theorem LaunchConfig.Copy_spec (h : Heap) (L : LaunchConfig)
    (hT : h.validMap L.Tags) (hE : h.validSlice L.Ebs) :
    (L.Copy h).2 = { UserData := L.UserData, Source := L.Source, InstanceType := L.InstanceType,
                     Tags := some h.nextMap, Ebs := some h.nextSlice } ∧
    (L.Copy h).1.nextMap = h.nextMap + 1 ∧
    (L.Copy h).1.nextSlice = h.nextSlice + 1 ∧
    (∀ b, b ≠ h.nextMap → (L.Copy h).1.maps b = h.maps b) ∧
    (∀ b, b ≠ h.nextSlice → (L.Copy h).1.slices b = h.slices b) ∧
    (∀ k, ((L.Copy h).1.maps h.nextMap).lookup k = (h.readMap L.Tags).lookup k) ∧
    (L.Copy h).1.slices h.nextSlice = h.readSlice L.Ebs := by
  obtain ⟨c1, c2, c3, c4, c5, c6⟩ := CopyMap_spec h L.Tags hT
  have hE1 : (CopyMap h L.Tags).1.validSlice L.Ebs := by
    intro a ha; rw [c4]; exact hE a ha
  have hread : (CopyMap h L.Tags).1.makeSlice.1.readSlice L.Ebs = h.readSlice L.Ebs := by
    rw [Heap.readSlice_makeSlice _ _ hE1]
    cases hL : L.Ebs with
    | none => rfl
    | some a => simp [Heap.readSlice, c3]
  obtain ⟨f1, f2, f3, f4, f5⟩ :=
    Heap.foldl_sliceAppend ((CopyMap h L.Tags).1.makeSlice.1.readSlice L.Ebs)
      (CopyMap h L.Tags).1.makeSlice.1 (CopyMap h L.Tags).1.makeSlice.2
  have hm2 : (CopyMap h L.Tags).1.makeSlice.2 = h.nextSlice := by
    simp [Heap.makeSlice, c4]
  unfold LaunchConfig.Copy
  refine ⟨?_, ?_, ?_, ?_, ?_, ?_, ?_⟩
  · simp [c1, hm2, Source.Copy]
  · simp only [f2]; simp [Heap.makeSlice, c2]
  · simp only [f3]; simp [Heap.makeSlice, c4]
  · intro b hb
    simp only [f1]
    simpa [Heap.makeSlice] using c5 b hb
  · intro b hb
    have hb2 : b ≠ (CopyMap h L.Tags).1.makeSlice.2 := by rw [hm2]; exact hb
    simp only [f5 b hb2]
    have hb3 : b ≠ (CopyMap h L.Tags).1.nextSlice := by rw [c4]; exact hb
    simp [Heap.makeSlice, Function.update_noteq hb3, c3]
  · intro k
    simp only [f1]
    simpa [Heap.makeSlice] using c6 k
  · rw [← hm2, f4, hread]
    simp [Heap.makeSlice]

theorem Heap.mutateAll_frame (ms : List Mutation) (h : Heap) (t e : Nat) :
    (h.mutateAll t e ms).nextMap = h.nextMap ∧
    (h.mutateAll t e ms).nextSlice = h.nextSlice ∧
    (∀ b, b ≠ t → (h.mutateAll t e ms).maps b = h.maps b) ∧
    (∀ b, b ≠ e → (h.mutateAll t e ms).slices b = h.slices b) := by
  unfold Heap.mutateAll
  induction ms generalizing h with
  | nil => simp
  | cons m rest ih =>
    simp only [List.foldl_cons]
    obtain ⟨h1, h2, h3, h4⟩ := ih (h.mutate t e m)
    refine ⟨?_, ?_, ?_, ?_⟩
    · rw [h1]; cases m <;> rfl
    · rw [h2]; cases m <;> rfl
    · intro b hb
      rw [h3 b hb]
      cases m <;> simp [Heap.mutate, Heap.mapSet, Heap.mapDelete, Heap.sliceAppend, Heap.sliceSet,
        Function.update_noteq hb]
    · intro b hb
      rw [h4 b hb]
      cases m <;> simp [Heap.mutate, Heap.mapSet, Heap.mapDelete, Heap.sliceAppend, Heap.sliceSet,
        Function.update_noteq hb]

theorem sampleConfig_valid :
    sampleHeap.validMap sampleConfig.Tags ∧ sampleHeap.validSlice sampleConfig.Ebs := by
  constructor
  · intro a ha
    simp only [sampleConfig, Option.some.injEq] at ha
    subst ha; decide
  · intro a ha
    simp only [sampleConfig, Option.some.injEq] at ha
    subst ha; decide

/-- C2: a copy of a launch descriptor has the same user data, source, instance
type, tag key/value pairs and volumes as the original, and its tag map and
volume slice are new objects: no sequence of tag insertions, changes and
deletions or volume changes made through the copy alters the tag map or the
volume list of the original. -/
theorem LaunchConfig_Copy_is_deep (h : Heap) (L : LaunchConfig)
    (hT : h.validMap L.Tags) (hE : h.validSlice L.Ebs) :
    (L.Copy h).2.UserData = L.UserData ∧ (L.Copy h).2.Source = L.Source ∧
    (L.Copy h).2.InstanceType = L.InstanceType ∧
    (∀ k, ((L.Copy h).1.readMap (L.Copy h).2.Tags).lookup k = (h.readMap L.Tags).lookup k) ∧
    (L.Copy h).1.readSlice (L.Copy h).2.Ebs = h.readSlice L.Ebs ∧
    ∃ t e, (L.Copy h).2.Tags = some t ∧ (L.Copy h).2.Ebs = some e ∧
      ∀ ms : List Mutation,
        ((L.Copy h).1.mutateAll t e ms).readMap L.Tags = h.readMap L.Tags ∧
        ((L.Copy h).1.mutateAll t e ms).readSlice L.Ebs = h.readSlice L.Ebs := by
  obtain ⟨c1, _, _, c4, c5, c6, c7⟩ := LaunchConfig.Copy_spec h L hT hE
  refine ⟨by rw [c1], by rw [c1], by rw [c1], ?_, ?_, h.nextMap, h.nextSlice,
    by rw [c1], by rw [c1], ?_⟩
  · intro k; rw [c1]; exact c6 k
  · rw [c1]; exact c7
  · intro ms
    obtain ⟨_, _, m3, m4⟩ := Heap.mutateAll_frame ms (L.Copy h).1 h.nextMap h.nextSlice
    constructor
    · cases hL : L.Tags with
      | none => rfl
      | some a =>
        have ha : a ≠ h.nextMap := Nat.ne_of_lt (hT a hL)
        simp only [Heap.readMap]
        rw [m3 a ha, c4 a ha]
    · cases hL : L.Ebs with
      | none => rfl
      | some a =>
        have ha : a ≠ h.nextSlice := Nat.ne_of_lt (hE a hL)
        simp only [Heap.readSlice]
        rw [m4 a ha, c5 a ha]

theorem LaunchConfig_Copy_is_deep_witness :
    (sampleHeap.validMap sampleConfig.Tags ∧ sampleHeap.validSlice sampleConfig.Ebs) ∧
    (sampleConfig.Copy sampleHeap).2.UserData = sampleConfig.UserData ∧
    (∀ k, ((sampleConfig.Copy sampleHeap).1.readMap (sampleConfig.Copy sampleHeap).2.Tags).lookup k
        = (sampleHeap.readMap sampleConfig.Tags).lookup k) ∧
    (sampleConfig.Copy sampleHeap).1.readSlice (sampleConfig.Copy sampleHeap).2.Ebs
        = sampleHeap.readSlice sampleConfig.Ebs :=
  ⟨sampleConfig_valid,
   (LaunchConfig_Copy_is_deep sampleHeap sampleConfig sampleConfig_valid.1 sampleConfig_valid.2).1,
   (LaunchConfig_Copy_is_deep sampleHeap sampleConfig sampleConfig_valid.1
      sampleConfig_valid.2).2.2.2.1,
   (LaunchConfig_Copy_is_deep sampleHeap sampleConfig sampleConfig_valid.1
      sampleConfig_valid.2).2.2.2.2.1⟩

/-! ## Retirement of old images -/

theorem intOfUint_of_lt (u : Nat) (h : u < 2 ^ 63) : intOfUint u = (u : Int) := by
  unfold intOfUint; rw [if_pos h]

theorem uintSucc_of_lt (u : Nat) (h : u + 1 < 2 ^ 64) : uintSucc u = u + 1 :=
  Nat.mod_eq_of_lt h

theorem countP_drop_mono {α : Type} (p : α → Bool) (l : List α) (i n : Nat) (h : i ≤ n) :
    (l.drop n).countP p ≤ (l.drop i).countP p := by
  have hd : l.drop n = (l.drop i).drop (n - i) := by
    rw [List.drop_drop]; congr 1; omega
  rw [hd]
  exact List.Sublist.countP_le _ (List.drop_sublist _ _)

theorem drop_countP_step (images : List AutoAmi) (n : Nat) (ami : AutoAmi)
    (h : images[n]? = some ami) (p : AutoAmi → Bool) :
    (images.drop n).countP p = (if p ami then 1 else 0) + (images.drop (n + 1)).countP p := by
  have hn : n < images.length := by
    by_contra hc
    rw [List.getElem?_eq_none (by omega)] at h
    exact Option.noConfusion h
  have hget : images[n] = ami := by
    rw [List.getElem?_eq_getElem hn] at h
    exact Option.some.inj h
  rw [List.drop_eq_getElem_cons hn, hget, List.countP_cons]
  omega

theorem isRetiredPosition_false_of_lt (images : List AutoAmi) (k n i : Nat) (hi : i ≤ n)
    (hlt : n < k + (images.drop (n + 1)).countP (fun a => a.State != "available")) :
    isRetiredPosition images k i = false := by
  have hm := countP_drop_mono (fun a : AutoAmi => a.State != "available") images (i + 1) (n + 1)
    (by omega)
  unfold isRetiredPosition nonAvailableAfter
  have : ¬ (k + (images.drop (i + 1)).countP (fun a => a.State != "available") ≤ i) := by omega
  simp [this]

theorem deleteOldAmiLoop_spec (images : List AutoAmi) (apiFails : Nat → Bool) (k : Nat)
    (hN : images.length < 2 ^ 63) :
    ∀ (n rc : Nat) (acc : Retirement), n ≤ images.length → rc < 2 ^ 63 →
      rc = k + (images.drop n).countP (fun a => a.State != "available") →
      (deleteOldAmiLoop images apiFails n rc acc).deletedImages
        = acc.deletedImages ++
          (((List.range n).reverse).filter (isRetiredPosition images k)).filterMap
            (fun i => images[i]?) ∧
      (deleteOldAmiLoop images apiFails n rc acc).deregistered
        = acc.deregistered ++
          ((((List.range n).reverse).filter (isRetiredPosition images k)).filterMap
            (fun i => images[i]?)).map (fun a => a.Id) ∧
      (deleteOldAmiLoop images apiFails n rc acc).panicked = acc.panicked := by
  intro n
  induction n with
  | zero =>
    intro rc acc _ hrc _
    have hneg : ¬ ((-1 : Int) ≥ (rc : Int)) := by omega
    simp [deleteOldAmiLoop, intOfUint_of_lt rc hrc, hneg]
  | succ n ih =>
    intro rc acc hn hrc hinv
    have hlt : n < images.length := hn
    have hget : images[n]? = some images[n] := List.getElem?_eq_getElem hlt
    have hstep := drop_countP_step images n images[n] hget (fun a => a.State != "available")
    have hrange : (List.range (n + 1)).reverse = n :: (List.range n).reverse := by
      simp [List.range_succ]
    rw [hrange]
    unfold deleteOldAmiLoop
    rw [intOfUint_of_lt rc hrc]
    by_cases hge : (n : Int) ≥ (rc : Int)
    · have hge2 : rc ≤ n := by omega
      simp only [if_pos hge, hget]
      by_cases hav : images[n].State = "available"
      · have hcnt : rc = k + (images.drop n).countP (fun a => a.State != "available") := by
          rw [hstep, hinv]; simp [hav]
        have hpos : isRetiredPosition images k n = true := by
          unfold isRetiredPosition nonAvailableAfter
          rw [hget]
          have : k + (images.drop (n + 1)).countP (fun a => a.State != "available") ≤ n := by omega
          simp [hav, this]
        simp only [hav, bne_self_eq_false, Bool.false_eq_true, if_false]
        obtain ⟨i1, i2, i3⟩ := ih rc
          { acc with
            deregistered := acc.deregistered ++ [images[n].Id]
            failed := if apiFails n then acc.failed ++ [images[n].Id] else acc.failed
            deletedImages := acc.deletedImages ++ [images[n]] } (by omega) hrc hcnt
        rw [i1, i2, i3]
        simp [List.filter_cons, hpos, hget]
      · have hne : (images[n].State != "available") = true := by simpa using hav
        have hcnt : rc + 1 = k + (images.drop n).countP (fun a => a.State != "available") := by
          rw [hstep, hinv]; simp [hne]; omega
        have hpos : isRetiredPosition images k n = false := by
          unfold isRetiredPosition
          rw [hget]
          simp [hav]
        simp only [if_pos hne]
        rw [uintSucc_of_lt rc (by omega)]
        obtain ⟨i1, i2, i3⟩ := ih (rc + 1) acc (by omega) (by omega) hcnt
        rw [i1, i2, i3]
        simp [List.filter_cons, hpos]
    · have hlt2 : n < k + (images.drop (n + 1)).countP (fun a => a.State != "available") := by
        omega
      have hnil : (n :: (List.range n).reverse).filter (isRetiredPosition images k) = [] := by
        rw [List.filter_eq_nil_iff]
        intro i hi
        have hin : i ≤ n := by
          rcases List.mem_cons.mp hi with h | h
          · omega
          · have := List.mem_range.mp (List.mem_reverse.mp h); omega
        simp [isRetiredPosition_false_of_lt images k n i hin hlt2]
      rw [if_neg hge, hnil]
      simp

theorem DeleteOldAmi_small_retention (images : List AutoAmi) (k : Nat) (apiFails : Nat → Bool)
    (hk : k < 2 ^ 63) (hN : images.length < 2 ^ 63) :
    (DeleteOldAmi images k apiFails).deletedImages = expectedRetired images k ∧
    (DeleteOldAmi images k apiFails).deregistered
      = (expectedRetired images k).map (fun a => a.Id) ∧
    (DeleteOldAmi images k apiFails).panicked = false := by
  have h := deleteOldAmiLoop_spec images apiFails k hN images.length k
    { deregistered := [], failed := [], deletedImages := [], panicked := false }
    (Nat.le_refl _) hk (by simp)
  unfold DeleteOldAmi expectedRetired
  simpa using h

theorem deleteOldAmiLoop_all_available (images : List AutoAmi) (apiFails : Nat → Bool)
    (hall : ∀ a ∈ images, a.State = "available") :
    ∀ (n rc : Nat) (acc : Retirement), n ≤ images.length → rc < 2 ^ 63 →
      (deleteOldAmiLoop images apiFails n rc acc).deletedImages
        = acc.deletedImages ++ ((images.take n).drop rc).reverse ∧
      (deleteOldAmiLoop images apiFails n rc acc).deregistered
        = acc.deregistered ++ (((images.take n).drop rc).reverse).map (fun a => a.Id) ∧
      (deleteOldAmiLoop images apiFails n rc acc).panicked = acc.panicked := by
  intro n
  induction n with
  | zero =>
    intro rc acc _ hrc
    have hneg : ¬ ((-1 : Int) ≥ (rc : Int)) := by omega
    simp [deleteOldAmiLoop, intOfUint_of_lt rc hrc, hneg]
  | succ n ih =>
    intro rc acc hn hrc
    have hlt : n < images.length := hn
    have hget : images[n]? = some images[n] := List.getElem?_eq_getElem hlt
    have hav : images[n].State = "available" := hall _ (List.getElem_mem hlt)
    have htake : images.take (n + 1) = images.take n ++ [images[n]] := by
      rw [List.take_succ, hget]; rfl
    unfold deleteOldAmiLoop
    rw [intOfUint_of_lt rc hrc]
    by_cases hge : (n : Int) ≥ (rc : Int)
    · have hge2 : rc ≤ n := by omega
      simp only [if_pos hge, hget, hav, bne_self_eq_false, Bool.false_eq_true, if_false]
      obtain ⟨i1, i2, i3⟩ := ih rc
        { acc with
          deregistered := acc.deregistered ++ [images[n].Id]
          failed := if apiFails n then acc.failed ++ [images[n].Id] else acc.failed
          deletedImages := acc.deletedImages ++ [images[n]] } (by omega) hrc
      have hdrop : (images.take (n + 1)).drop rc = (images.take n).drop rc ++ [images[n]] := by
        rw [htake, List.drop_append_of_le_length]
        rw [List.length_take]; omega
      rw [i1, i2, i3, hdrop]
      simp
    · have hnil : (images.take (n + 1)).drop rc = [] := by
        apply List.drop_eq_nil_of_le
        rw [List.length_take]; omega
      rw [if_neg hge, hnil]
      simp

theorem DeleteOldAmi_all_available (images : List AutoAmi) (k : Nat) (apiFails : Nat → Bool)
    (hall : ∀ a ∈ images, a.State = "available") (hk : k < 2 ^ 63) :
    (DeleteOldAmi images k apiFails).deletedImages = (images.drop k).reverse ∧
    (DeleteOldAmi images k apiFails).deregistered
      = ((images.drop k).reverse).map (fun a => a.Id) ∧
    (DeleteOldAmi images k apiFails).deletedImages.length = images.length - k ∧
    (DeleteOldAmi images k apiFails).panicked = false := by
  have h := deleteOldAmiLoop_all_available images apiFails hall images.length k
    { deregistered := [], failed := [], deletedImages := [], panicked := false }
    (Nat.le_refl _) hk
  unfold DeleteOldAmi
  obtain ⟨h1, h2, h3⟩ := h
  rw [h1, h2, h3]
  simp

theorem deleteOldAmiLoop_length_le (images : List AutoAmi) (apiFails : Nat → Bool) (k : Nat)
    (hN : images.length < 2 ^ 63) :
    ∀ (n rc : Nat) (acc : Retirement), n ≤ images.length → rc < 2 ^ 63 → k ≤ rc →
      (deleteOldAmiLoop images apiFails n rc acc).deletedImages.length
        ≤ acc.deletedImages.length
          + ((images.take n).drop k).countP (fun a => a.State == "available") ∧
      ((∀ a ∈ acc.deletedImages, a.State = "available") →
        ∀ a ∈ (deleteOldAmiLoop images apiFails n rc acc).deletedImages, a.State = "available") := by
  intro n
  induction n with
  | zero =>
    intro rc acc _ hrc _
    have hneg : ¬ ((-1 : Int) ≥ (rc : Int)) := by omega
    simp [deleteOldAmiLoop, intOfUint_of_lt rc hrc, hneg]
  | succ n ih =>
    intro rc acc hn hrc hk
    have hlt : n < images.length := hn
    have hget : images[n]? = some images[n] := List.getElem?_eq_getElem hlt
    have htake : images.take (n + 1) = images.take n ++ [images[n]] := by
      rw [List.take_succ, hget]; rfl
    unfold deleteOldAmiLoop
    rw [intOfUint_of_lt rc hrc]
    by_cases hge : (n : Int) ≥ (rc : Int)
    · have hge2 : rc ≤ n := by omega
      have hdrop : (images.take (n + 1)).drop k = (images.take n).drop k ++ [images[n]] := by
        rw [htake, List.drop_append_of_le_length]
        rw [List.length_take]; omega
      simp only [if_pos hge, hget]
      by_cases hav : images[n].State = "available"
      · simp only [hav, bne_self_eq_false, Bool.false_eq_true, if_false]
        obtain ⟨i1, i2⟩ := ih rc
          { acc with
            deregistered := acc.deregistered ++ [images[n].Id]
            failed := if apiFails n then acc.failed ++ [images[n].Id] else acc.failed
            deletedImages := acc.deletedImages ++ [images[n]] } (by omega) hrc hk
        constructor
        · rw [hdrop, List.countP_append]
          simp only [List.length_append, List.length_singleton] at i1
          simp [hav]
          omega
        · intro hacc
          apply i2
          intro a ha
          rcases List.mem_append.mp ha with h | h
          · exact hacc a h
          · simp only [List.mem_singleton] at h
            rw [h]; exact hav
      · have hne : (images[n].State != "available") = true := by simpa using hav
        simp only [if_pos hne]
        rw [uintSucc_of_lt rc (by omega)]
        obtain ⟨i1, i2⟩ := ih (rc + 1) acc (by omega) (by omega) (by omega)
        refine ⟨?_, i2⟩
        rw [hdrop, List.countP_append]
        omega
    · rw [if_neg hge]
      exact ⟨by omega, fun hacc => hacc⟩

theorem DeleteOldAmi_retained_bound (images : List AutoAmi) (k : Nat) (apiFails : Nat → Bool)
    (hk : k < 2 ^ 63) (hN : images.length < 2 ^ 63) :
    (DeleteOldAmi images k apiFails).deletedImages.length
      ≤ (images.drop k).countP (fun a => a.State == "available") ∧
    (∀ a ∈ (DeleteOldAmi images k apiFails).deletedImages, a.State = "available") := by
  have h := deleteOldAmiLoop_length_le images apiFails k hN images.length k
    { deregistered := [], failed := [], deletedImages := [], panicked := false }
    (Nat.le_refl _) hk (Nat.le_refl _)
  unfold DeleteOldAmi
  obtain ⟨h1, h2⟩ := h
  refine ⟨by simpa using h1, h2 (by simp)⟩

theorem countP_available_add (l : List AutoAmi) :
    l.countP (fun a => a.State == "available") + l.countP (fun a => a.State != "available")
      = l.length := by
  induction l with
  | nil => rfl
  | cons a rest ih =>
    by_cases h : a.State = "available"
    · simp [List.countP_cons, h]; omega
    · simp [List.countP_cons, h]; omega

/-- C3: evaluated at one "available" image and `retentionCount = 2 ^ 63`, which
is not below the number of images: `int(retentionCount)` is negative, so the
guard of the loop holds at `i = 0`, the only image is deregistered and put in
`deletedImages`, and the guard still holds at `i = -1`, where indexing
`amiFound[-1]` panics. -/
theorem DeleteOldAmi_retention_2pow63_one_image :
    (DeleteOldAmi [imageWith "ami-1" "available"] (2 ^ 63) (fun _ => false)).deregistered
      = ["ami-1"] ∧
    (DeleteOldAmi [imageWith "ami-1" "available"] (2 ^ 63) (fun _ => false)).deletedImages
      = [imageWith "ami-1" "available"] ∧
    (DeleteOldAmi [imageWith "ami-1" "available"] (2 ^ 63) (fun _ => false)).panicked = true := by
  decide

/-- C4: evaluated at the five images of the scenario and
`retentionCount = 2 ^ 64 - 1`: `int(retentionCount)` is `-1`, the two oldest
images are retired, the pending one makes `retentionCount++` wrap to `0`, and
the two newest images are retired as well; the call returns all four
"available" images, where the positions of the specification are none. -/
theorem DeleteOldAmi_retention_max_uint_five_images :
    (DeleteOldAmi fiveImages (2 ^ 64 - 1) (fun _ => false)).deletedImages.map (fun a => a.Id)
      = ["ami-1", "ami-2", "ami-4", "ami-5"] ∧
    (DeleteOldAmi fiveImages (2 ^ 64 - 1) (fun _ => false)).panicked = false ∧
    expectedRetired fiveImages (2 ^ 64 - 1) = [] := by
  decide

theorem DeleteOldAmi_scenario_five_images (apiFails : Nat → Bool) :
    (DeleteOldAmi fiveImages 2 apiFails).deletedImages
      = [imageWith "ami-1" "available", imageWith "ami-2" "available"] ∧
    (DeleteOldAmi fiveImages 2 apiFails).deletedImages.length = 2 ∧
    (DeleteOldAmi fiveImages 2 apiFails).deregistered = ["ami-1", "ami-2"] := by
  obtain ⟨h1, h2, _⟩ := DeleteOldAmi_small_retention fiveImages 2 apiFails (by norm_num)
    (by decide)
  have he : expectedRetired fiveImages 2
      = [imageWith "ami-1" "available", imageWith "ami-2" "available"] := by decide
  rw [h1, h2, he]
  exact ⟨rfl, rfl, rfl⟩

/-- C5, as stated, fails: with the newest of three images still pending and
`retentionCount = 1`, both "available" images are retired, so none is retained
although `min 1 2 = 1`. -/
theorem DeleteOldAmi_pending_newest_retains_none :
    (DeleteOldAmi pendingNewest 1 (fun _ => false)).deregistered = ["ami-1", "ami-2"] ∧
    retainedAvailable pendingNewest (DeleteOldAmi pendingNewest 1 (fun _ => false)) = 0 ∧
    ¬ (min 1 (pendingNewest.countP (fun a => a.State == "available"))
        ≤ retainedAvailable pendingNewest (DeleteOldAmi pendingNewest 1 (fun _ => false))) := by
  decide

/-- C5, amended: for `retentionCount = k < 2 ^ 63`, `DeleteOldAmi` returns, no
image that is not "available" is retired, at most as many images are retired
as there are "available" images beyond the `k` newest positions, and the
number of "available" images that are not retired is at least
`min k (number of available images)` less the number of non-available images
among the `k` newest positions. -/
theorem DeleteOldAmi_retained_available (images : List AutoAmi) (k : Nat)
    (apiFails : Nat → Bool) (hk : k < 2 ^ 63) (hN : images.length < 2 ^ 63) :
    (DeleteOldAmi images k apiFails).panicked = false ∧
    (∀ a ∈ (DeleteOldAmi images k apiFails).deletedImages, a.State = "available") ∧
    (DeleteOldAmi images k apiFails).deletedImages.length
      ≤ (images.drop k).countP (fun a => a.State == "available") ∧
    min k (images.countP (fun a => a.State == "available"))
      ≤ retainedAvailable images (DeleteOldAmi images k apiFails)
        + (images.take k).countP (fun a => a.State != "available") := by
  obtain ⟨h1, h2⟩ := DeleteOldAmi_retained_bound images k apiFails hk hN
  refine ⟨(DeleteOldAmi_small_retention images k apiFails hk hN).2.2, h2, h1, ?_⟩
  unfold retainedAvailable
  have hsplit : images.countP (fun a => a.State == "available")
      = (images.take k).countP (fun a => a.State == "available")
        + (images.drop k).countP (fun a => a.State == "available") := by
    rw [← List.countP_append, List.take_append_drop]
  have htop := countP_available_add (images.take k)
  have hlen : (images.take k).length = min k images.length := List.length_take _ _
  have hle : images.countP (fun a => a.State == "available") ≤ images.length :=
    List.countP_le_length _
  omega

theorem DeleteOldAmi_retained_available_witness :
    (1 < 2 ^ 63 ∧ pendingNewest.length < 2 ^ 63) ∧
    (DeleteOldAmi pendingNewest 1 (fun _ => true)).panicked = false ∧
    min 1 (pendingNewest.countP (fun a => a.State == "available"))
      ≤ retainedAvailable pendingNewest (DeleteOldAmi pendingNewest 1 (fun _ => true))
        + (pendingNewest.take 1).countP (fun a => a.State != "available") :=
  ⟨⟨by norm_num, by decide⟩,
   (DeleteOldAmi_retained_available pendingNewest 1 (fun _ => true) (by norm_num) (by decide)).1,
   (DeleteOldAmi_retained_available pendingNewest 1 (fun _ => true) (by norm_num)
      (by decide)).2.2.2⟩

/-! ## The refresh job -/

theorem AutoRefreshAmi.enter_spec (self : AutoRefreshAmi) (wg : Int) :
    (self.enter wg).panicking = none ∧
    (self.enter wg).ConfigErrors = self.ConfigErrors ∧
    (self.enter wg).waitGroup = (if self.Cron = "" then wg else wg + 1) ∧
    (self.enter wg).trace = (if self.Cron = "" then [] else [Event.waitGroupAdd 1]) := by
  unfold AutoRefreshAmi.enter
  by_cases h : self.Cron = "" <;> simp [h, RunState.emit]

theorem AutoRefreshAmi.enter_waitGroup_pos (self : AutoRefreshAmi) (wg : Int) (hwg : 0 ≤ wg)
    (hone : self.Cron = "" → 0 < wg) : 0 < (self.enter wg).waitGroup := by
  rw [(self.enter_spec wg).2.2.1]
  by_cases h : self.Cron = ""
  · simp [h, hone h]
  · simp [h]; omega

theorem unwind_base_panicking (p : Provider) (s : RunState) (v : String)
    (hp : s.panicking = some v) (hwg : 0 < s.waitGroup) :
    unwind p [Deferred.recoverPanic, Deferred.waitGroupDone] s
      = { trace := s.trace ++ [Event.recovered, Event.waitGroupDone],
          waitGroup := s.waitGroup - 1, ConfigErrors := s.ConfigErrors + 1, panicking := none } := by
  have hn : ¬ (s.waitGroup - 1 < 0) := by omega
  simp [unwind, runDeferred, hp, RunState.emit, hn]

theorem unwind_base_normal (p : Provider) (s : RunState)
    (hp : s.panicking = none) (hwg : 0 < s.waitGroup) :
    unwind p [Deferred.recoverPanic, Deferred.waitGroupDone] s
      = { trace := s.trace ++ [Event.waitGroupDone],
          waitGroup := s.waitGroup - 1, ConfigErrors := s.ConfigErrors, panicking := none } := by
  have hn : ¬ (s.waitGroup - 1 < 0) := by omega
  simp [unwind, runDeferred, hp, RunState.emit, hn]

theorem runDeferred_deleteOldAmi (p : Provider) (autoAmi : AutoAmi) (owner : String) (k : Nat)
    (s : RunState) :
    runDeferred p (Deferred.deleteOldAmi autoAmi owner k) s
      = { trace := s.trace ++ Event.deleteOldAmi owner k :: retirementEvents p autoAmi owner k,
          waitGroup := s.waitGroup, ConfigErrors := s.ConfigErrors,
          panicking := (retirementPanic p autoAmi owner k <|> s.panicking) } := by
  unfold runDeferred retirementEvents retirementPanic
  cases hf : p.findAmi autoAmi owner with
  | error e => simp [RunState.emit, RunState.raise, hf]
  | ok amiFound =>
    by_cases hp : (DeleteOldAmi amiFound k p.deregisterFails).panicked = true
    · simp [RunState.emit, RunState.raise, hp, hf]
    · simp [RunState.emit, RunState.raise, hp, hf]

theorem Refresh_on_launch_error (self : AutoRefreshAmi) (p : Provider) (wg : Int)
    (account : Account) (e : String) (hA : self.Account = some account)
    (hL : p.launchInstance self.LaunchConfig = .error e)
    (hwg : 0 ≤ wg) (hone : self.Cron = "" → 0 < wg) :
    self.Refresh p wg
      = { trace := (self.enter wg).trace ++
            [Event.launchInstance self.LaunchConfig.Source.AmiId, Event.recovered,
             Event.waitGroupDone],
          waitGroup := (self.enter wg).waitGroup - 1,
          ConfigErrors := self.ConfigErrors + 1, panicking := none } := by
  have hpos := self.enter_waitGroup_pos wg hwg hone
  unfold AutoRefreshAmi.Refresh
  simp only [hA, hL]
  rw [unwind_base_panicking p _ e (by simp [RunState.raise]) (by simpa [RunState.raise, RunState.emit] using hpos)]
  simp [RunState.raise, RunState.emit, (self.enter_spec wg).2.1]

theorem unwind_base (p : Provider) (s : RunState) (hwg : 0 < s.waitGroup) :
    unwind p [Deferred.recoverPanic, Deferred.waitGroupDone] s
      = { trace := s.trace ++ (if s.panicking.isSome then [Event.recovered] else [])
            ++ [Event.waitGroupDone],
          waitGroup := s.waitGroup - 1,
          ConfigErrors := s.ConfigErrors + (if s.panicking.isSome then 1 else 0),
          panicking := none } := by
  cases hp : s.panicking with
  | none => rw [unwind_base_normal p s hp hwg]; simp
  | some v => rw [unwind_base_panicking p s v hp hwg]; simp

theorem unwind_terminate (p : Provider) (autoInstance : AutoInstance) (s : RunState)
    (hwg : 0 < s.waitGroup) :
    unwind p [Deferred.terminate autoInstance, Deferred.recoverPanic, Deferred.waitGroupDone] s
      = { trace := s.trace ++ [Event.terminate autoInstance.Id]
            ++ (if s.panicking.isSome then [Event.recovered] else []) ++ [Event.waitGroupDone],
          waitGroup := s.waitGroup - 1,
          ConfigErrors := s.ConfigErrors + (if s.panicking.isSome then 1 else 0),
          panicking := none } := by
  have h : unwind p [Deferred.terminate autoInstance, Deferred.recoverPanic, Deferred.waitGroupDone] s
      = unwind p [Deferred.recoverPanic, Deferred.waitGroupDone]
          (s.emit (Event.terminate autoInstance.Id)) := rfl
  rw [h, unwind_base p _ (by simpa [RunState.emit] using hwg)]
  simp [RunState.emit]

theorem unwind_deleteOldAmi (p : Provider) (autoAmi : AutoAmi) (owner : String) (k : Nat)
    (autoInstance : AutoInstance) (s : RunState) (hwg : 0 < s.waitGroup) :
    unwind p [Deferred.deleteOldAmi autoAmi owner k, Deferred.terminate autoInstance,
        Deferred.recoverPanic, Deferred.waitGroupDone] s
      = { trace := s.trace ++ Event.deleteOldAmi owner k :: retirementEvents p autoAmi owner k
            ++ [Event.terminate autoInstance.Id]
            ++ (if (retirementPanic p autoAmi owner k <|> s.panicking).isSome
                then [Event.recovered] else [])
            ++ [Event.waitGroupDone],
          waitGroup := s.waitGroup - 1,
          ConfigErrors := s.ConfigErrors
            + (if (retirementPanic p autoAmi owner k <|> s.panicking).isSome then 1 else 0),
          panicking := none } := by
  have h : unwind p [Deferred.deleteOldAmi autoAmi owner k, Deferred.terminate autoInstance,
        Deferred.recoverPanic, Deferred.waitGroupDone] s
      = unwind p [Deferred.terminate autoInstance, Deferred.recoverPanic, Deferred.waitGroupDone]
          (runDeferred p (Deferred.deleteOldAmi autoAmi owner k) s) := rfl
  rw [h, runDeferred_deleteOldAmi, unwind_terminate p _ _ (by simpa using hwg)]

theorem Refresh_on_wait_stopped_error (self : AutoRefreshAmi) (p : Provider) (wg : Int)
    (account : Account) (launched : AutoInstance) (e : String) (hA : self.Account = some account)
    (hL : p.launchInstance self.LaunchConfig = .ok launched)
    (hW : (p.waitForStoppedState launched).2 = some e)
    (hwg : 0 ≤ wg) (hone : self.Cron = "" → 0 < wg) :
    self.Refresh p wg
      = { trace := (self.enter wg).trace ++
            [Event.launchInstance self.LaunchConfig.Source.AmiId,
             Event.waitForStoppedState launched.Id,
             Event.terminate (p.waitForStoppedState launched).1.Id,
             Event.recovered, Event.waitGroupDone],
          waitGroup := (self.enter wg).waitGroup - 1,
          ConfigErrors := self.ConfigErrors + 1, panicking := none } := by
  have hpos := self.enter_waitGroup_pos wg hwg hone
  unfold AutoRefreshAmi.Refresh
  simp only [hA, hL, hW]
  rw [unwind_terminate p _ _ (by simpa [RunState.raise, RunState.emit] using hpos)]
  simp [RunState.raise, RunState.emit, (self.enter_spec wg).2.1]

theorem Refresh_on_create_error (self : AutoRefreshAmi) (p : Provider) (wg : Int)
    (account : Account) (launched : AutoInstance) (e : String) (hA : self.Account = some account)
    (hL : p.launchInstance self.LaunchConfig = .ok launched)
    (hW : (p.waitForStoppedState launched).2 = none)
    (hC : p.createAmi (p.waitForStoppedState launched).1 self.Name = .error e)
    (hwg : 0 ≤ wg) (hone : self.Cron = "" → 0 < wg) :
    self.Refresh p wg
      = { trace := (self.enter wg).trace ++
            [Event.launchInstance self.LaunchConfig.Source.AmiId,
             Event.waitForStoppedState launched.Id,
             Event.createAmi (p.waitForStoppedState launched).1.Id self.Name,
             Event.terminate (p.waitForStoppedState launched).1.Id,
             Event.recovered, Event.waitGroupDone],
          waitGroup := (self.enter wg).waitGroup - 1,
          ConfigErrors := self.ConfigErrors + 1, panicking := none } := by
  have hpos := self.enter_waitGroup_pos wg hwg hone
  unfold AutoRefreshAmi.Refresh
  simp only [hA, hL, hW, hC]
  rw [unwind_terminate p _ _ (by simpa [RunState.raise, RunState.emit] using hpos)]
  simp [RunState.raise, RunState.emit, (self.enter_spec wg).2.1]

theorem Refresh_on_wait_available_error (self : AutoRefreshAmi) (p : Provider) (wg : Int)
    (account : Account) (launched : AutoInstance) (created : AutoAmi) (e : String)
    (hA : self.Account = some account)
    (hL : p.launchInstance self.LaunchConfig = .ok launched)
    (hW : (p.waitForStoppedState launched).2 = none)
    (hC : p.createAmi (p.waitForStoppedState launched).1 self.Name = .ok created)
    (hV : (p.waitForAvailableState created).2 = some e)
    (hwg : 0 ≤ wg) (hone : self.Cron = "" → 0 < wg) :
    self.Refresh p wg
      = { trace := (self.enter wg).trace ++
            [Event.launchInstance self.LaunchConfig.Source.AmiId,
             Event.waitForStoppedState launched.Id,
             Event.createAmi (p.waitForStoppedState launched).1.Id self.Name,
             Event.waitForAvailableState created.Id,
             Event.deleteOldAmi account.OwnerId self.RetentionCount]
            ++ retirementEvents p (p.waitForAvailableState created).1 account.OwnerId
                self.RetentionCount
            ++ [Event.terminate (p.waitForStoppedState launched).1.Id,
                Event.recovered, Event.waitGroupDone],
          waitGroup := (self.enter wg).waitGroup - 1,
          ConfigErrors := self.ConfigErrors + 1, panicking := none } := by
  have hpos := self.enter_waitGroup_pos wg hwg hone
  unfold AutoRefreshAmi.Refresh
  simp only [hA, hL, hW, hC, hV]
  rw [unwind_deleteOldAmi p _ _ _ _ _ (by simpa [RunState.raise, RunState.emit] using hpos)]
  have hsome : (retirementPanic p (p.waitForAvailableState created).1 account.OwnerId
      self.RetentionCount <|> some e).isSome = true := by
    cases retirementPanic p (p.waitForAvailableState created).1 account.OwnerId
      self.RetentionCount <;> rfl
  simp [RunState.raise, RunState.emit, (self.enter_spec wg).2.1, hsome]

theorem Refresh_on_success (self : AutoRefreshAmi) (p : Provider) (wg : Int)
    (account : Account) (launched : AutoInstance) (created : AutoAmi)
    (hA : self.Account = some account)
    (hL : p.launchInstance self.LaunchConfig = .ok launched)
    (hW : (p.waitForStoppedState launched).2 = none)
    (hC : p.createAmi (p.waitForStoppedState launched).1 self.Name = .ok created)
    (hV : (p.waitForAvailableState created).2 = none)
    (hwg : 0 ≤ wg) (hone : self.Cron = "" → 0 < wg) :
    self.Refresh p wg
      = { trace := (self.enter wg).trace ++
            [Event.launchInstance self.LaunchConfig.Source.AmiId,
             Event.waitForStoppedState launched.Id,
             Event.createAmi (p.waitForStoppedState launched).1.Id self.Name,
             Event.waitForAvailableState created.Id,
             Event.deleteOldAmi account.OwnerId self.RetentionCount]
            ++ retirementEvents p (p.waitForAvailableState created).1 account.OwnerId
                self.RetentionCount
            ++ [Event.terminate (p.waitForStoppedState launched).1.Id]
            ++ (if (retirementPanic p (p.waitForAvailableState created).1 account.OwnerId
                  self.RetentionCount).isSome then [Event.recovered] else [])
            ++ [Event.waitGroupDone],
          waitGroup := (self.enter wg).waitGroup - 1,
          ConfigErrors := self.ConfigErrors
            + (if (retirementPanic p (p.waitForAvailableState created).1 account.OwnerId
                  self.RetentionCount).isSome then 1 else 0),
          panicking := none } := by
  have hpos := self.enter_waitGroup_pos wg hwg hone
  unfold AutoRefreshAmi.Refresh
  simp only [hA, hL, hW, hC, hV]
  rw [unwind_deleteOldAmi p _ _ _ _ _ (by simpa [RunState.raise, RunState.emit] using hpos)]
  simp [RunState.raise, RunState.emit, (self.enter_spec wg).2.1, (self.enter_spec wg).1]

theorem retirementEvents_isDeregister (p : Provider) (autoAmi : AutoAmi) (owner : String)
    (k : Nat) : ∀ ev ∈ retirementEvents p autoAmi owner k, ev.isDeregister = true := by
  intro ev hev
  unfold retirementEvents at hev
  cases hf : p.findAmi autoAmi owner with
  | error e => simp [hf] at hev
  | ok amiFound =>
    simp only [hf, List.mem_map] at hev
    obtain ⟨id, _, rfl⟩ := hev
    rfl

theorem countP_zero_of_isDeregister (l : List Event) (q : Event → Bool)
    (hl : ∀ ev ∈ l, ev.isDeregister = true) (hq : ∀ ev, ev.isDeregister = true → q ev = false) :
    l.countP q = 0 := by
  rw [List.countP_eq_zero]
  intro ev hev
  simp [hq ev (hl ev hev)]

theorem countP_enter_trace (self : AutoRefreshAmi) (wg : Int) (q : Event → Bool)
    (hq : q (Event.waitGroupAdd 1) = false) : (self.enter wg).trace.countP q = 0 := by
  rw [(self.enter_spec wg).2.2.2]
  by_cases h : self.Cron = "" <;> simp [h, hq]

theorem isDeregister_not_isTerminate : ∀ ev : Event, ev.isDeregister = true → ev.isTerminate = false := by
  intro ev h; cases ev <;> simp_all [Event.isDeregister, Event.isTerminate]

theorem isDeregister_not_isDeleteOldAmi :
    ∀ ev : Event, ev.isDeregister = true → ev.isDeleteOldAmi = false := by
  intro ev h; cases ev <;> simp_all [Event.isDeregister, Event.isDeleteOldAmi]

theorem isDeregister_not_isWaitForStopped :
    ∀ ev : Event, ev.isDeregister = true → ev.isWaitForStopped = false := by
  intro ev h; cases ev <;> simp_all [Event.isDeregister, Event.isWaitForStopped]

theorem isDeregister_not_isCreateAmi :
    ∀ ev : Event, ev.isDeregister = true → ev.isCreateAmi = false := by
  intro ev h; cases ev <;> simp_all [Event.isDeregister, Event.isCreateAmi]

theorem isDeregister_not_isWaitForAvailable :
    ∀ ev : Event, ev.isDeregister = true → ev.isWaitForAvailable = false := by
  intro ev h; cases ev <;> simp_all [Event.isDeregister, Event.isWaitForAvailable]

/-- C6: when `LaunchInstance` returns an error, `Refresh` issues no wait for
the stopped state, no image creation, no wait for the available state, no
terminate request, no call of `DeleteOldAmi` and no deregistration; the panic
raised by `check` is recovered by `recoverPanic`, so the run ends without a
panic in flight, with `ConfigErrors` raised by one.  The barrier counter is
assumed non-negative, and positive for a job without a cron expression, as
`StartEngine` leaves it. -/
theorem Refresh_launch_error_no_further_calls (self : AutoRefreshAmi) (p : Provider) (wg : Int)
    (account : Account) (e : String) (hA : self.Account = some account)
    (hL : p.launchInstance self.LaunchConfig = .error e)
    (hwg : 0 ≤ wg) (hone : self.Cron = "" → 0 < wg) :
    (self.Refresh p wg).trace
      = (self.enter wg).trace ++ [Event.launchInstance self.LaunchConfig.Source.AmiId,
          Event.recovered, Event.waitGroupDone] ∧
    (∀ ev ∈ (self.Refresh p wg).trace,
      ev.isWaitForStopped = false ∧ ev.isCreateAmi = false ∧ ev.isWaitForAvailable = false ∧
      ev.isTerminate = false ∧ ev.isDeleteOldAmi = false ∧ ev.isDeregister = false) ∧
    (self.Refresh p wg).panicking = none ∧
    (self.Refresh p wg).ConfigErrors = self.ConfigErrors + 1 := by
  rw [Refresh_on_launch_error self p wg account e hA hL hwg hone]
  refine ⟨rfl, ?_, rfl, rfl⟩
  intro ev hev
  simp only [List.mem_append, List.mem_cons, List.mem_singleton, List.not_mem_nil, or_false] at hev
  rcases hev with h | h | h | h
  · rw [(self.enter_spec wg).2.2.2] at h
    by_cases hc : self.Cron = ""
    · simp [hc] at h
    · simp only [hc, if_false, List.mem_singleton] at h
      subst h
      exact ⟨rfl, rfl, rfl, rfl, rfl, rfl⟩
  · subst h; exact ⟨rfl, rfl, rfl, rfl, rfl, rfl⟩
  · subst h; exact ⟨rfl, rfl, rfl, rfl, rfl, rfl⟩
  · subst h; exact ⟨rfl, rfl, rfl, rfl, rfl, rfl⟩

theorem Refresh_launch_error_no_further_calls_witness :
    (sampleJob.Refresh launchFailsProvider 2).trace
      = [Event.launchInstance "ami-1", Event.recovered, Event.waitGroupDone] ∧
    (sampleJob.Refresh launchFailsProvider 2).panicking = none :=
  ⟨(Refresh_launch_error_no_further_calls sampleJob launchFailsProvider 2 sampleAccount
      "RunInstances: request limit exceeded" rfl rfl (by decide) (fun _ => by decide)).1,
   (Refresh_launch_error_no_further_calls sampleJob launchFailsProvider 2 sampleAccount
      "RunInstances: request limit exceeded" rfl rfl (by decide) (fun _ => by decide)).2.2.1⟩

/-- C7: when launch, wait for the stopped state and image creation succeed and
`WaitForAvailableState` returns an error, `Refresh` still issues exactly one
terminate request, for the launched instance, and still calls `DeleteOldAmi`
exactly once, with the account's owner id and the job's retention count; the
retirement runs before the terminate request, and the panic is recovered. -/
theorem Refresh_wait_available_error_cleanups (self : AutoRefreshAmi) (p : Provider) (wg : Int)
    (account : Account) (launched : AutoInstance) (created : AutoAmi) (e : String)
    (hA : self.Account = some account)
    (hL : p.launchInstance self.LaunchConfig = .ok launched)
    (hW : (p.waitForStoppedState launched).2 = none)
    (hC : p.createAmi (p.waitForStoppedState launched).1 self.Name = .ok created)
    (hV : (p.waitForAvailableState created).2 = some e)
    (hwg : 0 ≤ wg) (hone : self.Cron = "" → 0 < wg) :
    (self.Refresh p wg).trace.filter Event.isTerminate
      = [Event.terminate (p.waitForStoppedState launched).1.Id] ∧
    (self.Refresh p wg).trace.filter Event.isDeleteOldAmi
      = [Event.deleteOldAmi account.OwnerId self.RetentionCount] ∧
    (self.Refresh p wg).trace
      = (self.enter wg).trace ++
          [Event.launchInstance self.LaunchConfig.Source.AmiId,
           Event.waitForStoppedState launched.Id,
           Event.createAmi (p.waitForStoppedState launched).1.Id self.Name,
           Event.waitForAvailableState created.Id,
           Event.deleteOldAmi account.OwnerId self.RetentionCount]
          ++ retirementEvents p (p.waitForAvailableState created).1 account.OwnerId
              self.RetentionCount
          ++ [Event.terminate (p.waitForStoppedState launched).1.Id,
              Event.recovered, Event.waitGroupDone] ∧
    (self.Refresh p wg).panicking = none := by
  rw [Refresh_on_wait_available_error self p wg account launched created e hA hL hW hC hV hwg hone]
  have hr := retirementEvents_isDeregister p (p.waitForAvailableState created).1 account.OwnerId
    self.RetentionCount
  have hr1 : (retirementEvents p (p.waitForAvailableState created).1 account.OwnerId
      self.RetentionCount).filter Event.isTerminate = [] := by
    rw [List.filter_eq_nil_iff]
    intro ev hev
    simp [isDeregister_not_isTerminate ev (hr ev hev)]
  have hr2 : (retirementEvents p (p.waitForAvailableState created).1 account.OwnerId
      self.RetentionCount).filter Event.isDeleteOldAmi = [] := by
    rw [List.filter_eq_nil_iff]
    intro ev hev
    simp [isDeregister_not_isDeleteOldAmi ev (hr ev hev)]
  have he1 : (self.enter wg).trace.filter Event.isTerminate = [] := by
    rw [(self.enter_spec wg).2.2.2]
    by_cases h : self.Cron = "" <;> simp [h, Event.isTerminate]
  have he2 : (self.enter wg).trace.filter Event.isDeleteOldAmi = [] := by
    rw [(self.enter_spec wg).2.2.2]
    by_cases h : self.Cron = "" <;> simp [h, Event.isDeleteOldAmi]
  refine ⟨?_, ?_, rfl, rfl⟩
  · simp [List.filter_append, List.filter_cons, hr1, he1, Event.isTerminate]
  · simp [List.filter_append, List.filter_cons, hr2, he2, Event.isDeleteOldAmi]

theorem Refresh_wait_available_error_cleanups_witness :
    (sampleJob.Refresh waitAvailableFailsProvider 2).trace.filter Event.isTerminate
      = [Event.terminate "i-1"] ∧
    (sampleJob.Refresh waitAvailableFailsProvider 2).trace.filter Event.isDeleteOldAmi
      = [Event.deleteOldAmi "123456789012" 2] :=
  ⟨(Refresh_wait_available_error_cleanups sampleJob waitAvailableFailsProvider 2 sampleAccount
      sampleInstance (imageWith "ami-6" "pending") "DescribeImages: request limit exceeded"
      rfl rfl rfl rfl rfl (by decide) (fun _ => by decide)).1,
   (Refresh_wait_available_error_cleanups sampleJob waitAvailableFailsProvider 2 sampleAccount
      sampleInstance (imageWith "ami-6" "pending") "DescribeImages: request limit exceeded"
      rfl rfl rfl rfl rfl (by decide) (fun _ => by decide)).2.1⟩

/-- C8, as stated, fails: when the launch fails, neither the terminate request
nor `DeleteOldAmi` is issued, and when the image creation fails, the instance
is terminated but `DeleteOldAmi` is not called. -/
theorem Refresh_failure_before_registration_skips_cleanup :
    (sampleJob.Refresh launchFailsProvider 2).trace.countP Event.isTerminate = 0 ∧
    (sampleJob.Refresh launchFailsProvider 2).trace.countP Event.isDeleteOldAmi = 0 ∧
    (sampleJob.Refresh createFailsProvider 2).trace.countP Event.isTerminate = 1 ∧
    (sampleJob.Refresh createFailsProvider 2).trace.countP Event.isDeleteOldAmi = 0 := by
  decide

/-- C8, amended: a failure of the launch, of the wait for the stopped state, of
the image creation or of the wait for the available state aborts the remaining
forward steps and is recovered inside the job, and the cleanups registered
before the failing step run: the instance is terminated exactly once when the
launch succeeded and not at all when it failed, and `DeleteOldAmi` is called
exactly once when the image creation succeeded and not at all when the launch,
the wait for the stopped state or the image creation failed. -/
theorem Refresh_cleanups_follow_registration (self : AutoRefreshAmi) (p : Provider) (wg : Int)
    (account : Account) (hA : self.Account = some account)
    (hwg : 0 ≤ wg) (hone : self.Cron = "" → 0 < wg) :
    (∀ e, p.launchInstance self.LaunchConfig = .error e →
      (self.Refresh p wg).panicking = none ∧
      (self.Refresh p wg).trace.countP Event.isWaitForStopped = 0 ∧
      (self.Refresh p wg).trace.countP Event.isCreateAmi = 0 ∧
      (self.Refresh p wg).trace.countP Event.isWaitForAvailable = 0 ∧
      (self.Refresh p wg).trace.countP Event.isTerminate = 0 ∧
      (self.Refresh p wg).trace.countP Event.isDeleteOldAmi = 0) ∧
    (∀ launched, p.launchInstance self.LaunchConfig = .ok launched →
      (self.Refresh p wg).panicking = none ∧
      (self.Refresh p wg).trace.countP Event.isTerminate = 1 ∧
      (∀ e, (p.waitForStoppedState launched).2 = some e →
        (self.Refresh p wg).trace.countP Event.isCreateAmi = 0 ∧
        (self.Refresh p wg).trace.countP Event.isWaitForAvailable = 0 ∧
        (self.Refresh p wg).trace.countP Event.isDeleteOldAmi = 0) ∧
      ((p.waitForStoppedState launched).2 = none →
        (∀ e, p.createAmi (p.waitForStoppedState launched).1 self.Name = .error e →
          (self.Refresh p wg).trace.countP Event.isWaitForAvailable = 0 ∧
          (self.Refresh p wg).trace.countP Event.isDeleteOldAmi = 0) ∧
        (∀ created, p.createAmi (p.waitForStoppedState launched).1 self.Name = .ok created →
          (self.Refresh p wg).trace.countP Event.isDeleteOldAmi = 1))) := by
  have en1 := countP_enter_trace self wg Event.isWaitForStopped rfl
  have en2 := countP_enter_trace self wg Event.isCreateAmi rfl
  have en3 := countP_enter_trace self wg Event.isWaitForAvailable rfl
  have en4 := countP_enter_trace self wg Event.isTerminate rfl
  have en5 := countP_enter_trace self wg Event.isDeleteOldAmi rfl
  constructor
  · intro e hL
    rw [Refresh_on_launch_error self p wg account e hA hL hwg hone]
    simp [List.countP_append, List.countP_cons, en1, en2, en3, en4, en5, Event.isWaitForStopped,
      Event.isCreateAmi, Event.isWaitForAvailable, Event.isTerminate, Event.isDeleteOldAmi]
  · intro launched hL
    cases hW : (p.waitForStoppedState launched).2 with
    | some e =>
      rw [Refresh_on_wait_stopped_error self p wg account launched e hA hL hW hwg hone]
      simp [List.countP_append, List.countP_cons, en2, en3, en4, en5,
        Event.isCreateAmi, Event.isWaitForAvailable, Event.isTerminate, Event.isDeleteOldAmi]
    | none =>
      cases hC : p.createAmi (p.waitForStoppedState launched).1 self.Name with
      | error e =>
        rw [Refresh_on_create_error self p wg account launched e hA hL hW hC hwg hone]
        simp [List.countP_append, List.countP_cons, en3, en4, en5,
          Event.isWaitForAvailable, Event.isTerminate, Event.isDeleteOldAmi]
      | ok created =>
        have hr := retirementEvents_isDeregister p (p.waitForAvailableState created).1
          account.OwnerId self.RetentionCount
        have r4 := countP_zero_of_isDeregister _ Event.isTerminate hr isDeregister_not_isTerminate
        have r5 := countP_zero_of_isDeregister _ Event.isDeleteOldAmi hr
          isDeregister_not_isDeleteOldAmi
        cases hV : (p.waitForAvailableState created).2 with
        | some e =>
          rw [Refresh_on_wait_available_error self p wg account launched created e hA hL hW hC hV
            hwg hone]
          simp [List.countP_append, List.countP_cons, en4, en5, r4, r5,
            Event.isTerminate, Event.isDeleteOldAmi]
        | none =>
          rw [Refresh_on_success self p wg account launched created hA hL hW hC hV hwg hone]
          by_cases hp : (retirementPanic p (p.waitForAvailableState created).1 account.OwnerId
              self.RetentionCount).isSome = true
          · simp [List.countP_append, List.countP_cons, en4, en5, r4, r5, hp,
              Event.isTerminate, Event.isDeleteOldAmi]
          · simp [List.countP_append, List.countP_cons, en4, en5, r4, r5, hp,
              Event.isTerminate, Event.isDeleteOldAmi]

theorem Refresh_cleanups_follow_registration_witness :
    ((sampleJob.Refresh launchFailsProvider 2).panicking = none ∧
      (sampleJob.Refresh launchFailsProvider 2).trace.countP Event.isWaitForStopped = 0 ∧
      (sampleJob.Refresh launchFailsProvider 2).trace.countP Event.isCreateAmi = 0 ∧
      (sampleJob.Refresh launchFailsProvider 2).trace.countP Event.isWaitForAvailable = 0 ∧
      (sampleJob.Refresh launchFailsProvider 2).trace.countP Event.isTerminate = 0 ∧
      (sampleJob.Refresh launchFailsProvider 2).trace.countP Event.isDeleteOldAmi = 0) ∧
    ((sampleJob.Refresh createFailsProvider 2).panicking = none ∧
      (sampleJob.Refresh createFailsProvider 2).trace.countP Event.isTerminate = 1) ∧
    ((sampleJob.Refresh createFailsProvider 2).trace.countP Event.isWaitForAvailable = 0 ∧
      (sampleJob.Refresh createFailsProvider 2).trace.countP Event.isDeleteOldAmi = 0) ∧
    (sampleJob.Refresh waitAvailableFailsProvider 2).trace.countP Event.isTerminate = 1 ∧
    (sampleJob.Refresh waitAvailableFailsProvider 2).trace.countP Event.isDeleteOldAmi = 1 :=
  ⟨(Refresh_cleanups_follow_registration sampleJob launchFailsProvider 2 sampleAccount rfl
      (by decide) (fun _ => by decide)).1 "RunInstances: request limit exceeded" rfl,
   ⟨((Refresh_cleanups_follow_registration sampleJob createFailsProvider 2 sampleAccount rfl
      (by decide) (fun _ => by decide)).2 sampleInstance rfl).1,
    ((Refresh_cleanups_follow_registration sampleJob createFailsProvider 2 sampleAccount rfl
      (by decide) (fun _ => by decide)).2 sampleInstance rfl).2.1⟩,
   (((Refresh_cleanups_follow_registration sampleJob createFailsProvider 2 sampleAccount rfl
      (by decide) (fun _ => by decide)).2 sampleInstance rfl).2.2.2 rfl).1
      "CreateImage: request limit exceeded" rfl,
   ((Refresh_cleanups_follow_registration sampleJob waitAvailableFailsProvider 2 sampleAccount
      rfl (by decide) (fun _ => by decide)).2 sampleInstance rfl).2.1,
   (((Refresh_cleanups_follow_registration sampleJob waitAvailableFailsProvider 2 sampleAccount
      rfl (by decide) (fun _ => by decide)).2 sampleInstance rfl).2.2.2 rfl).2
      (imageWith "ami-6" "pending") rfl⟩

/-! ## The clean-up job -/

theorem timeSince_gt_max_age (now t : Int) :
    timeSince now t > INSTANCE_MAX_AGE ↔ now - t > 120 * 60 * 1000000000 := by
  unfold timeSince INSTANCE_MAX_AGE
  have h63 : (2 : Int) ^ 63 = 9223372036854775808 := by norm_num
  rw [h63]
  split
  · constructor <;> intro <;> omega
  · split
    · constructor <;> intro <;> omega
    · constructor <;> intro <;> omega

theorem cleanUpLoop_spec (clock : Nat → Int) :
    ∀ (l : List AutoInstance) (i : Nat) (s : RunState),
      cleanUpLoop clock l i s
        = { s with
            trace := (s.trace ++ List.map (fun x => Event.terminate x.2.Id)
              ((l.enumFrom i).filter (fun x => agedAndStopped clock x.1 x.2))) } := by
  intro l
  induction l with
  | nil => intro i s; simp [cleanUpLoop]
  | cons a rest ih =>
    intro i s
    have hcond : (decide (timeSince (clock i) a.LaunchTime > INSTANCE_MAX_AGE)
        && a.State == "stopped") = agedAndStopped clock i a := by
      unfold agedAndStopped
      congr 1
      exact decide_eq_decide.mpr (timeSince_gt_max_age (clock i) a.LaunchTime)
    unfold cleanUpLoop
    simp only [hcond]
    by_cases hq : agedAndStopped clock i a = true
    · rw [if_pos hq, ih]
      simp [List.enumFrom_cons, List.filter_cons, hq, RunState.emit]
    · rw [if_neg hq, ih]
      simp [List.enumFrom_cons, List.filter_cons, hq]

theorem unwind_base_filter_isTerminate (p : Provider) (s : RunState) :
    (unwind p [Deferred.recoverPanic, Deferred.waitGroupDone] s).trace.filter Event.isTerminate
      = s.trace.filter Event.isTerminate := by
  cases hp : s.panicking with
  | none =>
    by_cases hn : s.waitGroup - 1 < 0 <;>
      simp [unwind, runDeferred, hp, RunState.emit, hn, List.filter_append, Event.isTerminate]
  | some v =>
    by_cases hn : s.waitGroup - 1 < 0 <;>
      simp [unwind, runDeferred, hp, RunState.emit, hn, List.filter_append, Event.isTerminate]

/-- C9: for the instances that `FindInstances` returns and any readings of the
clock, the terminate requests of `CleanUp` are, in order, one for each instance
whose age at its iteration (now minus launch time) is strictly greater than 120
minutes and whose state is "stopped", and there is none for any other instance;
in particular no request is issued when no instance is "stopped", whatever the
ages. -/
theorem CleanUp_terminates_aged_stopped (self : AutoRefreshAmi) (p : Provider)
    (clock : Nat → Int) (wg : Int) (account : Account) (instances : List AutoInstance)
    (hA : self.Account = some account)
    (hF : p.findInstances self.LaunchConfig = .ok instances) :
    (self.CleanUp p clock wg).trace.filter Event.isTerminate
      = (expectedTerminations clock instances).map (fun inst => Event.terminate inst.Id) ∧
    (self.CleanUp p clock wg).trace.countP Event.isTerminate
      = (instances.enum.filter (fun x => agedAndStopped clock x.1 x.2)).length ∧
    ((∀ inst ∈ instances, inst.State ≠ "stopped") →
      (self.CleanUp p clock wg).trace.countP Event.isTerminate = 0) := by
  have hmain : (self.CleanUp p clock wg).trace.filter Event.isTerminate
      = (expectedTerminations clock instances).map (fun inst => Event.terminate inst.Id) := by
    unfold AutoRefreshAmi.CleanUp
    simp only [hA, hF]
    rw [unwind_base_filter_isTerminate, cleanUpLoop_spec]
    have he : (self.enter wg).trace.filter Event.isTerminate = [] := by
      rw [(self.enter_spec wg).2.2.2]
      by_cases h : self.Cron = "" <;> simp [h, Event.isTerminate]
    have hall : ∀ l : List (Nat × AutoInstance),
        (l.map (fun x => Event.terminate x.2.Id)).filter Event.isTerminate
          = l.map (fun x => Event.terminate x.2.Id) := by
      intro l
      rw [List.filter_eq_self]
      intro ev hev
      obtain ⟨x, _, rfl⟩ := List.mem_map.mp hev
      rfl
    simp only [RunState.emit, List.filter_append, he, hall]
    simp [expectedTerminations, List.enum, Event.isTerminate]
  have hcount : (self.CleanUp p clock wg).trace.countP Event.isTerminate
      = (instances.enum.filter (fun x => agedAndStopped clock x.1 x.2)).length := by
    rw [List.countP_eq_length_filter, hmain]
    simp [expectedTerminations]
  refine ⟨hmain, hcount, ?_⟩
  intro hrun
  rw [hcount, List.length_eq_zero, List.filter_eq_nil_iff]
  intro x hx
  have hmem : x.2 ∈ instances := List.snd_mem_of_mem_enum hx
  have hs := hrun x.2 hmem
  simp [agedAndStopped, hs]

theorem CleanUp_terminates_aged_stopped_witness :
    (sampleJob.CleanUp cleanUpProvider threeHours 2).trace.filter Event.isTerminate
      = (expectedTerminations threeHours threeInstances).map (fun inst => Event.terminate inst.Id) ∧
    (expectedTerminations threeHours threeInstances).map (fun inst => inst.Id)
      = ["i-old-stopped"] :=
  ⟨(CleanUp_terminates_aged_stopped sampleJob cleanUpProvider threeHours 2 sampleAccount
      threeInstances rfl rfl).1, by decide⟩

/-! ## The engine -/

theorem startSource_spec (job : AutoRefreshAmi) (e : Engine) (s : Source)
    (hT : e.heap.validMap job.LaunchConfig.Tags) (hE : e.heap.validSlice job.LaunchConfig.Ebs) :
    (startSource job e s).pairs
      = e.pairs ++ [pairFor job e.heap.nextMap e.heap.nextSlice s] ∧
    (startSource job e s).fatal = e.fatal ∧
    (startSource job e s).heap.nextMap = e.heap.nextMap + 1 ∧
    (startSource job e s).heap.nextSlice = e.heap.nextSlice + 1 ∧
    (∀ b, b ≠ e.heap.nextMap → (startSource job e s).heap.maps b = e.heap.maps b) ∧
    (∀ b, b ≠ e.heap.nextSlice → (startSource job e s).heap.slices b = e.heap.slices b) ∧
    (∀ k, ((startSource job e s).heap.maps e.heap.nextMap).lookup k
      = (e.heap.readMap job.LaunchConfig.Tags).lookup k) ∧
    (startSource job e s).heap.slices e.heap.nextSlice = e.heap.readSlice job.LaunchConfig.Ebs := by
  obtain ⟨c1, c2, c3, c4, c5, c6, c7⟩ := LaunchConfig.Copy_spec e.heap job.LaunchConfig hT hE
  unfold startSource AutoRefreshAmi.Copy
  by_cases hc : job.Cron = ""
  · simp only [hc, beq_self_eq_true, if_true]
    refine ⟨?_, trivial, c2, c3, c4, c5, c6, c7⟩
    simp [pairFor, c1, hc, Source.Copy]
  · have hb : (job.Cron == "") = false := by simpa using hc
    simp only [hb, Bool.false_eq_true, if_false]
    refine ⟨?_, trivial, c2, c3, c4, c5, c6, c7⟩
    simp [pairFor, c1, hc, Source.Copy]

theorem startSources_spec (job : AutoRefreshAmi) (srcs : List Source) :
    ∀ e : Engine, e.heap.validMap job.LaunchConfig.Tags →
      e.heap.validSlice job.LaunchConfig.Ebs →
      (srcs.foldl (startSource job) e).pairs
        = e.pairs ++ expectedPairs job e.heap.nextMap e.heap.nextSlice srcs ∧
      (srcs.foldl (startSource job) e).fatal = e.fatal ∧
      (srcs.foldl (startSource job) e).heap.nextMap = e.heap.nextMap + srcs.length ∧
      (srcs.foldl (startSource job) e).heap.nextSlice = e.heap.nextSlice + srcs.length ∧
      (∀ b, b < e.heap.nextMap → (srcs.foldl (startSource job) e).heap.maps b = e.heap.maps b) ∧
      (∀ b, b < e.heap.nextSlice →
        (srcs.foldl (startSource job) e).heap.slices b = e.heap.slices b) ∧
      (∀ i, i < srcs.length →
        (∀ k, ((srcs.foldl (startSource job) e).heap.maps (e.heap.nextMap + i)).lookup k
          = (e.heap.readMap job.LaunchConfig.Tags).lookup k) ∧
        (srcs.foldl (startSource job) e).heap.slices (e.heap.nextSlice + i)
          = e.heap.readSlice job.LaunchConfig.Ebs) := by
  induction srcs with
  | nil =>
    intro e _ _
    simp [expectedPairs]
  | cons s rest ih =>
    intro e hT hE
    obtain ⟨p1, p2, p3, p4, p5, p6, p7, p8⟩ := startSource_spec job e s hT hE
    have hT1 : (startSource job e s).heap.validMap job.LaunchConfig.Tags := by
      intro a ha; rw [p3]; exact Nat.lt_succ_of_lt (hT a ha)
    have hE1 : (startSource job e s).heap.validSlice job.LaunchConfig.Ebs := by
      intro a ha; rw [p4]; exact Nat.lt_succ_of_lt (hE a ha)
    have hreadT : (startSource job e s).heap.readMap job.LaunchConfig.Tags
        = e.heap.readMap job.LaunchConfig.Tags := by
      cases hL : job.LaunchConfig.Tags with
      | none => rfl
      | some a => exact p5 a (Nat.ne_of_lt (hT a hL))
    have hreadE : (startSource job e s).heap.readSlice job.LaunchConfig.Ebs
        = e.heap.readSlice job.LaunchConfig.Ebs := by
      cases hL : job.LaunchConfig.Ebs with
      | none => rfl
      | some a => exact p6 a (Nat.ne_of_lt (hE a hL))
    obtain ⟨q1, q2, q3, q4, q5, q6, q7⟩ := ih (startSource job e s) hT1 hE1
    simp only [List.foldl_cons]
    refine ⟨?_, ?_, ?_, ?_, ?_, ?_, ?_⟩
    · rw [q1, p1, p3, p4]; simp [expectedPairs]
    · rw [q2, p2]
    · rw [q3, p3, List.length_cons]; omega
    · rw [q4, p4, List.length_cons]; omega
    · intro b hb
      rw [q5 b (by rw [p3]; omega), p5 b (Nat.ne_of_lt hb)]
    · intro b hb
      rw [q6 b (by rw [p4]; omega), p6 b (Nat.ne_of_lt hb)]
    · intro i hi
      cases i with
      | zero =>
        constructor
        · intro k
          rw [Nat.add_zero, q5 _ (by rw [p3]; omega)]
          exact p7 k
        · rw [Nat.add_zero, q6 _ (by rw [p4]; omega)]
          exact p8
      | succ i =>
        have hi2 : i < rest.length := by
          rw [List.length_cons] at hi; omega
        obtain ⟨r1, r2⟩ := q7 i hi2
        rw [p3, hreadT] at r1
        rw [p4, hreadE] at r2
        have e1 : e.heap.nextMap + (i + 1) = e.heap.nextMap + 1 + i := by omega
        have e2 : e.heap.nextSlice + (i + 1) = e.heap.nextSlice + 1 + i := by omega
        rw [e1, e2]
        exact ⟨r1, r2⟩

theorem expectedPairs_getElem? (job : AutoRefreshAmi) (srcs : List Source) :
    ∀ (t v i : Nat), (expectedPairs job t v srcs)[i]?
      = (srcs[i]?).map (pairFor job (t + i) (v + i)) := by
  induction srcs with
  | nil => intro t v i; simp [expectedPairs]
  | cons s rest ih =>
    intro t v i
    cases i with
    | zero => simp [expectedPairs]
    | succ i =>
      simp only [expectedPairs, List.getElem?_cons_succ]
      rw [ih (t + 1) (v + 1) i]
      have e1 : t + 1 + i = t + (i + 1) := by omega
      have e2 : v + 1 + i = v + (i + 1) := by omega
      rw [e1, e2]

theorem expectedPairs_sources (job : AutoRefreshAmi) (srcs : List Source) :
    ∀ (t v : Nat), (expectedPairs job t v srcs).map (fun pr => pr.job.LaunchConfig.Source)
      = srcs := by
  induction srcs with
  | nil => intro t v; rfl
  | cons s rest ih =>
    intro t v
    simp [expectedPairs, ih, pairFor]

theorem expectedPairs_length (job : AutoRefreshAmi) (srcs : List Source) (t v : Nat) :
    (expectedPairs job t v srcs).length = srcs.length := by
  rw [← List.length_map (expectedPairs job t v srcs) (fun pr => pr.job.LaunchConfig.Source),
    expectedPairs_sources]

theorem startProject_eq_fold (cs : ConfigStorage) (e : Engine) (project : Project)
    (userdata : UserData) (hF : e.fatal = none)
    (hU : cs.userdatas project.UserData = some userdata) :
    startProject cs e project
      = (project.SourceFilter.findSources cs.sources).foldl
          (startSource (projectJob cs project userdata)) e := by
  unfold startProject
  simp only [hF, hU]

theorem expectedJobs_cons (cs : ConfigStorage) (project : Project) (rest : List Project) :
    expectedJobs cs (project :: rest)
      = (project.SourceFilter.findSources cs.sources).map (fun s => (project, s))
          ++ expectedJobs cs rest := by
  simp [expectedJobs, List.flatMap_cons]

theorem expectedJobs_mem (cs : ConfigStorage) (projects : List Project) (project : Project)
    (s : Source) (h : (project, s) ∈ expectedJobs cs projects) :
    project ∈ projects ∧ s ∈ project.SourceFilter.findSources cs.sources := by
  simp only [expectedJobs, List.mem_flatMap, List.mem_map, Prod.mk.injEq] at h
  obtain ⟨q, hq, s0, hs0, rfl, rfl⟩ := h
  exact ⟨hq, hs0⟩

theorem startProjects_spec (cs : ConfigStorage) :
    ∀ (projects : List Project) (e : Engine), e.fatal = none →
      (∀ project ∈ projects, ∃ userdata, cs.userdatas project.UserData = some userdata) →
      (∀ project ∈ projects,
        e.heap.validMap project.Tags ∧ e.heap.validSlice project.EbsVolumes) →
      (projects.foldl (startProject cs) e).fatal = none ∧
      (projects.foldl (startProject cs) e).heap.nextMap
        = e.heap.nextMap + (expectedJobs cs projects).length ∧
      (projects.foldl (startProject cs) e).heap.nextSlice
        = e.heap.nextSlice + (expectedJobs cs projects).length ∧
      (∀ b, b < e.heap.nextMap →
        (projects.foldl (startProject cs) e).heap.maps b = e.heap.maps b) ∧
      (∀ b, b < e.heap.nextSlice →
        (projects.foldl (startProject cs) e).heap.slices b = e.heap.slices b) ∧
      ∃ new : List JobPair,
        (projects.foldl (startProject cs) e).pairs = e.pairs ++ new ∧
        new.length = (expectedJobs cs projects).length ∧
        new.map (fun pr => pr.job.LaunchConfig.Source)
          = projects.flatMap (fun project => project.SourceFilter.findSources cs.sources) ∧
        ∀ (k : Nat) (project : Project) (s : Source),
          (expectedJobs cs projects)[k]? = some (project, s) →
          ∃ userdata, cs.userdatas project.UserData = some userdata ∧
            new[k]? = some (pairFor (projectJob cs project userdata) (e.heap.nextMap + k)
              (e.heap.nextSlice + k) s) ∧
            (∀ key, ((projects.foldl (startProject cs) e).heap.maps (e.heap.nextMap + k)).lookup key
              = (e.heap.readMap project.Tags).lookup key) ∧
            (projects.foldl (startProject cs) e).heap.slices (e.heap.nextSlice + k)
              = e.heap.readSlice project.EbsVolumes := by
  intro projects
  induction projects with
  | nil =>
    intro e hF _ _
    refine ⟨hF, by simp [expectedJobs], by simp [expectedJobs], fun _ _ => rfl, fun _ _ => rfl,
      [], by simp, by simp [expectedJobs], by simp, ?_⟩
    intro k project s hk
    simp [expectedJobs] at hk
  | cons project rest ih =>
    intro e hF hU hV
    obtain ⟨ud, hud⟩ := hU project (List.mem_cons_self _ _)
    obtain ⟨hT, hE⟩ := hV project (List.mem_cons_self _ _)
    have hstep := startProject_eq_fold cs e project ud hF hud
    obtain ⟨q1, q2, q3, q4, q5, q6, q7⟩ := startSources_spec (projectJob cs project ud)
      (project.SourceFilter.findSources cs.sources) e hT hE
    rw [← hstep] at q1 q2 q3 q4 q5 q6 q7
    have hpT : (projectJob cs project ud).LaunchConfig.Tags = project.Tags := rfl
    have hpE : (projectJob cs project ud).LaunchConfig.Ebs = project.EbsVolumes := rfl
    rw [hpT, hpE] at q7
    have hF1 : (startProject cs e project).fatal = none := by rw [q2, hF]
    have hV1 : ∀ pr ∈ rest, (startProject cs e project).heap.validMap pr.Tags ∧
        (startProject cs e project).heap.validSlice pr.EbsVolumes := by
      intro pr hpr
      obtain ⟨a, b⟩ := hV pr (List.mem_cons_of_mem _ hpr)
      constructor
      · intro x hx; rw [q3]; have := a x hx; omega
      · intro x hx; rw [q4]; have := b x hx; omega
    obtain ⟨r1, r2, r3, r4, r5, new2, r6, r7, r8, r9⟩ := ih (startProject cs e project) hF1
      (fun pr hpr => hU pr (List.mem_cons_of_mem _ hpr)) hV1
    have hlen : (expectedJobs cs (project :: rest)).length
        = (project.SourceFilter.findSources cs.sources).length
          + (expectedJobs cs rest).length := by
      rw [expectedJobs_cons, List.length_append, List.length_map]
    simp only [List.foldl_cons]
    refine ⟨r1, ?_, ?_, ?_, ?_,
      expectedPairs (projectJob cs project ud) e.heap.nextMap e.heap.nextSlice
        (project.SourceFilter.findSources cs.sources) ++ new2, ?_, ?_, ?_, ?_⟩
    · rw [r2, q3, hlen]; omega
    · rw [r3, q4, hlen]; omega
    · intro b hb
      rw [r4 b (by rw [q3]; omega), q5 b hb]
    · intro b hb
      rw [r5 b (by rw [q4]; omega), q6 b hb]
    · rw [r6, q1, List.append_assoc]
    · rw [List.length_append, expectedPairs_length, r7, hlen]
    · rw [List.map_append, expectedPairs_sources, r8, List.flatMap_cons]
    · intro k project2 s hk
      rw [expectedJobs_cons] at hk
      by_cases hlt : k < (project.SourceFilter.findSources cs.sources).length
      · rw [List.getElem?_append_left (by rw [List.length_map]; exact hlt),
          List.getElem?_map] at hk
        cases hs : (project.SourceFilter.findSources cs.sources)[k]? with
        | none => rw [hs] at hk; exact Option.noConfusion hk
        | some s0 =>
          rw [hs] at hk
          simp only [Option.map_some', Option.some.injEq, Prod.mk.injEq] at hk
          obtain ⟨hp, hs0⟩ := hk
          subst hp; subst hs0
          refine ⟨ud, hud, ?_, ?_, ?_⟩
          · rw [List.getElem?_append_left (by rw [expectedPairs_length]; exact hlt),
              expectedPairs_getElem?, hs]
            rfl
          · intro key
            rw [r4 _ (by rw [q3]; omega)]
            exact (q7 k hlt).1 key
          · rw [r5 _ (by rw [q4]; omega)]
            exact (q7 k hlt).2
      · have hge : (project.SourceFilter.findSources cs.sources).length ≤ k := by omega
        rw [List.getElem?_append_right (by rw [List.length_map]; exact hge),
          List.length_map] at hk
        obtain ⟨ud2, hud2, g1, g2, g3⟩ :=
          r9 (k - (project.SourceFilter.findSources cs.sources).length) project2 s hk
        have hmem : project2 ∈ rest :=
          (expectedJobs_mem cs rest project2 s (List.mem_iff_getElem?.mpr ⟨_, hk⟩)).1
        obtain ⟨hT2, hE2⟩ := hV project2 (List.mem_cons_of_mem _ hmem)
        have hreadT : (startProject cs e project).heap.readMap project2.Tags
            = e.heap.readMap project2.Tags := by
          cases hL : project2.Tags with
          | none => rfl
          | some a => exact q5 a (hT2 a hL)
        have hreadE : (startProject cs e project).heap.readSlice project2.EbsVolumes
            = e.heap.readSlice project2.EbsVolumes := by
          cases hL : project2.EbsVolumes with
          | none => rfl
          | some a => exact q6 a (hE2 a hL)
        have e1 : (startProject cs e project).heap.nextMap
            + (k - (project.SourceFilter.findSources cs.sources).length)
            = e.heap.nextMap + k := by rw [q3]; omega
        have e2 : (startProject cs e project).heap.nextSlice
            + (k - (project.SourceFilter.findSources cs.sources).length)
            = e.heap.nextSlice + k := by rw [q4]; omega
        rw [e1, e2] at g1
        rw [e1, hreadT] at g2
        rw [e2, hreadE] at g3
        refine ⟨ud2, hud2, ?_, g2, g3⟩
        rw [List.getElem?_append_right (by rw [expectedPairs_length]; exact hge),
          expectedPairs_length]
        exact g1

/-- One round of the walk: for a project whose user-data record exists, the
body of the outer loop of `StartEngine` dispatches
exactly one job pair per source that the project's filter returns, in that
order, and none for any other source.  The descriptor of each pair has that
source, the project's user data, instance type, retention count and account,
the same tag key/value pairs and the same volumes as the project, and a tag
map and a volume slice of its own: no sequence of changes made through one
pair's descriptor alters the project's tag map or volume list or those of
another pair. -/
theorem startProject_one_pair_per_source (cs : ConfigStorage) (e : Engine) (project : Project)
    (userdata : UserData) (hF : e.fatal = none)
    (hU : cs.userdatas project.UserData = some userdata)
    (hT : e.heap.validMap project.Tags) (hE : e.heap.validSlice project.EbsVolumes) :
    ∃ new : List JobPair,
      (startProject cs e project).pairs = e.pairs ++ new ∧
      (startProject cs e project).fatal = none ∧
      new.length = (project.SourceFilter.findSources cs.sources).length ∧
      new.map (fun pr => pr.job.LaunchConfig.Source)
        = project.SourceFilter.findSources cs.sources ∧
      (∀ pr ∈ new,
        pr.job.LaunchConfig.UserData = userdata.Bash ∧
        pr.job.LaunchConfig.InstanceType = project.InstanceType ∧
        pr.job.RetentionCount = project.RetentionCount ∧
        pr.job.Account = cs.accounts project.Account ∧
        (∀ k, ((startProject cs e project).heap.readMap pr.job.LaunchConfig.Tags).lookup k
          = (e.heap.readMap project.Tags).lookup k) ∧
        (startProject cs e project).heap.readSlice pr.job.LaunchConfig.Ebs
          = e.heap.readSlice project.EbsVolumes) ∧
      (startProject cs e project).heap.readMap project.Tags = e.heap.readMap project.Tags ∧
      (startProject cs e project).heap.readSlice project.EbsVolumes
        = e.heap.readSlice project.EbsVolumes ∧
      (∀ (i : Nat) (pi : JobPair), new[i]? = some pi →
        ∃ t v, pi.job.LaunchConfig.Tags = some t ∧ pi.job.LaunchConfig.Ebs = some v ∧
          ∀ ms : List Mutation,
            ((startProject cs e project).heap.mutateAll t v ms).readMap project.Tags
              = e.heap.readMap project.Tags ∧
            ((startProject cs e project).heap.mutateAll t v ms).readSlice project.EbsVolumes
              = e.heap.readSlice project.EbsVolumes ∧
            ∀ (j : Nat) (pj : JobPair), new[j]? = some pj → j ≠ i →
              ((startProject cs e project).heap.mutateAll t v ms).readMap pj.job.LaunchConfig.Tags
                = (startProject cs e project).heap.readMap pj.job.LaunchConfig.Tags ∧
              ((startProject cs e project).heap.mutateAll t v ms).readSlice
                  pj.job.LaunchConfig.Ebs
                = (startProject cs e project).heap.readSlice pj.job.LaunchConfig.Ebs) := by
  rw [startProject_eq_fold cs e project userdata hF hU]
  obtain ⟨q1, q2, _, _, q5, q6, q7⟩ :=
    startSources_spec (projectJob cs project userdata)
      (project.SourceFilter.findSources cs.sources) e hT hE
  have hpT : (projectJob cs project userdata).LaunchConfig.Tags = project.Tags := rfl
  have hpE : (projectJob cs project userdata).LaunchConfig.Ebs = project.EbsVolumes := rfl
  rw [hpT, hpE] at q7
  have hkeepT : ((project.SourceFilter.findSources cs.sources).foldl
      (startSource (projectJob cs project userdata)) e).heap.readMap project.Tags
        = e.heap.readMap project.Tags := by
    cases hL : project.Tags with
    | none => rfl
    | some a => exact q5 a (hT a hL)
  have hkeepE : ((project.SourceFilter.findSources cs.sources).foldl
      (startSource (projectJob cs project userdata)) e).heap.readSlice project.EbsVolumes
        = e.heap.readSlice project.EbsVolumes := by
    cases hL : project.EbsVolumes with
    | none => rfl
    | some a => exact q6 a (hE a hL)
  have hget : ∀ i pr, (expectedPairs (projectJob cs project userdata) e.heap.nextMap
      e.heap.nextSlice (project.SourceFilter.findSources cs.sources))[i]? = some pr →
      i < (project.SourceFilter.findSources cs.sources).length ∧
      ∃ s, pr = pairFor (projectJob cs project userdata) (e.heap.nextMap + i)
        (e.heap.nextSlice + i) s := by
    intro i pr hi
    rw [expectedPairs_getElem?] at hi
    cases hs : (project.SourceFilter.findSources cs.sources)[i]? with
    | none => rw [hs] at hi; exact Option.noConfusion hi
    | some s =>
      rw [hs] at hi
      refine ⟨?_, s, (Option.some.inj hi).symm⟩
      by_contra hc
      rw [List.getElem?_eq_none (by omega)] at hs
      exact Option.noConfusion hs
  refine ⟨expectedPairs (projectJob cs project userdata) e.heap.nextMap e.heap.nextSlice
    (project.SourceFilter.findSources cs.sources), q1, by rw [q2, hF],
    expectedPairs_length _ _ _ _, expectedPairs_sources _ _ _ _, ?_, hkeepT, hkeepE, ?_⟩
  · intro pr hpr
    obtain ⟨i, hi⟩ := List.mem_iff_getElem?.mp hpr
    obtain ⟨hlt, s, rfl⟩ := hget i pr hi
    obtain ⟨r1, r2⟩ := q7 i hlt
    exact ⟨rfl, rfl, rfl, rfl, r1, r2⟩
  · intro i pi hi
    obtain ⟨_, s, rfl⟩ := hget i pi hi
    refine ⟨e.heap.nextMap + i, e.heap.nextSlice + i, rfl, rfl, ?_⟩
    intro ms
    obtain ⟨_, _, m3, m4⟩ := Heap.mutateAll_frame ms
      ((project.SourceFilter.findSources cs.sources).foldl
        (startSource (projectJob cs project userdata)) e).heap
      (e.heap.nextMap + i) (e.heap.nextSlice + i)
    refine ⟨?_, ?_, ?_⟩
    · rw [← hkeepT]
      cases hL : project.Tags with
      | none => rfl
      | some a =>
        have := hT a hL
        exact m3 a (by omega)
    · rw [← hkeepE]
      cases hL : project.EbsVolumes with
      | none => rfl
      | some a =>
        have := hE a hL
        exact m4 a (by omega)
    · intro j pj hj hji
      obtain ⟨_, s2, rfl⟩ := hget j pj hj
      exact ⟨m3 _ (by omega), m4 _ (by omega)⟩

theorem sampleProject_valid :
    sampleEngine.heap.validMap sampleProject.Tags ∧
    sampleEngine.heap.validSlice sampleProject.EbsVolumes := by
  constructor
  · intro a ha
    simp only [sampleProject, Option.some.injEq] at ha
    subst ha; decide
  · intro a ha
    simp only [sampleProject, Option.some.injEq] at ha
    subst ha; decide

theorem twoProjectStorage_valid :
    (∀ project ∈ twoProjectStorage.projects,
      ∃ userdata, twoProjectStorage.userdatas project.UserData = some userdata) ∧
    (∀ project ∈ twoProjectStorage.projects,
      sampleHeap.validMap project.Tags ∧ sampleHeap.validSlice project.EbsVolumes) := by
  have hv : sampleHeap.validMap (some 0) ∧ sampleHeap.validSlice (some 0) := by
    constructor
    · intro a ha
      simp only [Option.some.injEq] at ha
      subst ha; decide
    · intro a ha
      simp only [Option.some.injEq] at ha
      subst ha; decide
  constructor
  · intro project hp
    simp only [twoProjectStorage, List.mem_cons, List.mem_singleton, List.not_mem_nil,
      or_false] at hp
    rcases hp with rfl | rfl <;> exact ⟨_, rfl⟩
  · intro project hp
    simp only [twoProjectStorage, List.mem_cons, List.mem_singleton, List.not_mem_nil,
      or_false] at hp
    rcases hp with rfl | rfl <;> exact hv

theorem sampleStorage_valid :
    (∀ project ∈ sampleStorage.projects,
      ∃ userdata, sampleStorage.userdatas project.UserData = some userdata) ∧
    (∀ project ∈ sampleStorage.projects,
      sampleHeap.validMap project.Tags ∧ sampleHeap.validSlice project.EbsVolumes) := by
  constructor
  · intro project hp
    simp only [sampleStorage, List.mem_singleton] at hp
    subst hp
    exact ⟨_, rfl⟩
  · intro project hp
    simp only [sampleStorage, List.mem_singleton] at hp
    subst hp
    exact sampleProject_valid

/-- C10: when the user-data record of every project exists, `StartEngine`
walks all projects and dispatches exactly one job pair per combination of a
project and a source that the project's filter returns, in the order of the
walk, and no other pair.  The descriptor of each pair has that source, its
project's user data, instance type, retention count, account, cron expression
and name, the same tag key/value pairs and the same volumes as its project, and
a tag map and a volume slice of its own: no sequence of changes made through one
pair's descriptor alters the tag map or volume list of any project or of any
other pair. -/
theorem StartEngine_one_pair_per_source (cs : ConfigStorage) (h : Heap)
    (hU : ∀ project ∈ cs.projects, ∃ userdata, cs.userdatas project.UserData = some userdata)
    (hV : ∀ project ∈ cs.projects,
      h.validMap project.Tags ∧ h.validSlice project.EbsVolumes) :
    (StartEngine cs h).fatal = none ∧
    (StartEngine cs h).pairs.length = (expectedJobs cs cs.projects).length ∧
    (StartEngine cs h).pairs.map (fun pr => pr.job.LaunchConfig.Source)
      = cs.projects.flatMap (fun project => project.SourceFilter.findSources cs.sources) ∧
    (∀ (k : Nat) (project : Project) (s : Source),
      (expectedJobs cs cs.projects)[k]? = some (project, s) →
      ∃ pr, (StartEngine cs h).pairs[k]? = some pr ∧ pr.job.LaunchConfig.Source = s ∧
        pr.job.Name = project.Name) ∧
    (∀ (k : Nat) (pr : JobPair), (StartEngine cs h).pairs[k]? = some pr →
      ∃ (project : Project) (s : Source) (userdata : UserData),
        (expectedJobs cs cs.projects)[k]? = some (project, s) ∧
        project ∈ cs.projects ∧
        s ∈ project.SourceFilter.findSources cs.sources ∧
        cs.userdatas project.UserData = some userdata ∧
        pr.job.LaunchConfig.Source = s ∧
        pr.job.LaunchConfig.UserData = userdata.Bash ∧
        pr.job.LaunchConfig.InstanceType = project.InstanceType ∧
        pr.job.RetentionCount = project.RetentionCount ∧
        pr.job.Account = cs.accounts project.Account ∧
        pr.job.Cron = project.Cron ∧
        pr.job.Name = project.Name ∧
        pr.recurring = (project.Cron != "") ∧
        pr.job.LaunchConfig.Tags = some (h.nextMap + k) ∧
        pr.job.LaunchConfig.Ebs = some (h.nextSlice + k) ∧
        (∀ key, ((StartEngine cs h).heap.readMap pr.job.LaunchConfig.Tags).lookup key
          = (h.readMap project.Tags).lookup key) ∧
        (StartEngine cs h).heap.readSlice pr.job.LaunchConfig.Ebs
          = h.readSlice project.EbsVolumes) ∧
    (∀ project ∈ cs.projects,
      (StartEngine cs h).heap.readMap project.Tags = h.readMap project.Tags ∧
      (StartEngine cs h).heap.readSlice project.EbsVolumes = h.readSlice project.EbsVolumes) ∧
    (∀ (i : Nat) (pi : JobPair), (StartEngine cs h).pairs[i]? = some pi →
      ∃ t v, pi.job.LaunchConfig.Tags = some t ∧ pi.job.LaunchConfig.Ebs = some v ∧
        ∀ ms : List Mutation,
          (∀ project ∈ cs.projects,
            ((StartEngine cs h).heap.mutateAll t v ms).readMap project.Tags
              = h.readMap project.Tags ∧
            ((StartEngine cs h).heap.mutateAll t v ms).readSlice project.EbsVolumes
              = h.readSlice project.EbsVolumes) ∧
          ∀ (j : Nat) (pj : JobPair), (StartEngine cs h).pairs[j]? = some pj → j ≠ i →
            ((StartEngine cs h).heap.mutateAll t v ms).readMap pj.job.LaunchConfig.Tags
              = (StartEngine cs h).heap.readMap pj.job.LaunchConfig.Tags ∧
            ((StartEngine cs h).heap.mutateAll t v ms).readSlice pj.job.LaunchConfig.Ebs
              = (StartEngine cs h).heap.readSlice pj.job.LaunchConfig.Ebs) := by
  obtain ⟨r1, _, _, r4, r5, new, r6, r7, r8, r9⟩ := startProjects_spec cs cs.projects
    { heap := h, GoWait := 0, pairs := [], fatal := none } rfl hU hV
  have hfold : cs.projects.foldl (startProject cs)
      { heap := h, GoWait := 0, pairs := [], fatal := none } = StartEngine cs h := rfl
  rw [hfold] at r1 r4 r5 r6 r9
  simp only [List.nil_append] at r6
  rw [← r6] at r7 r8 r9
  have hkeepT : ∀ project ∈ cs.projects,
      (StartEngine cs h).heap.readMap project.Tags = h.readMap project.Tags := by
    intro project hp
    cases hL : project.Tags with
    | none => rfl
    | some a => exact r4 a ((hV project hp).1 a hL)
  have hkeepE : ∀ project ∈ cs.projects,
      (StartEngine cs h).heap.readSlice project.EbsVolumes = h.readSlice project.EbsVolumes := by
    intro project hp
    cases hL : project.EbsVolumes with
    | none => rfl
    | some a => exact r5 a ((hV project hp).2 a hL)
  have hget : ∀ (k : Nat) (pr : JobPair), (StartEngine cs h).pairs[k]? = some pr →
      ∃ (project : Project) (s : Source) (userdata : UserData),
        (expectedJobs cs cs.projects)[k]? = some (project, s) ∧
        project ∈ cs.projects ∧
        s ∈ project.SourceFilter.findSources cs.sources ∧
        cs.userdatas project.UserData = some userdata ∧
        pr = pairFor (projectJob cs project userdata) (h.nextMap + k) (h.nextSlice + k) s ∧
        (∀ key, ((StartEngine cs h).heap.maps (h.nextMap + k)).lookup key
          = (h.readMap project.Tags).lookup key) ∧
        (StartEngine cs h).heap.slices (h.nextSlice + k) = h.readSlice project.EbsVolumes := by
    intro k pr hk
    have hlt : k < (expectedJobs cs cs.projects).length := by
      rw [← r7]
      by_contra hc
      rw [List.getElem?_eq_none (by omega)] at hk
      exact Option.noConfusion hk
    have hjob := List.getElem?_eq_getElem hlt
    obtain ⟨ud, hud, g1, g2, g3⟩ := r9 k _ _ hjob
    obtain ⟨m1, m2⟩ := expectedJobs_mem cs cs.projects _ _
      (List.mem_iff_getElem?.mpr ⟨k, hjob⟩)
    rw [hk] at g1
    exact ⟨_, _, ud, hjob, m1, m2, hud, Option.some.inj g1, g2, g3⟩
  refine ⟨r1, r7, r8, ?_, ?_, fun project hp => ⟨hkeepT project hp, hkeepE project hp⟩, ?_⟩
  · intro k project s hk
    obtain ⟨ud, _, g1, _, _⟩ := r9 k project s hk
    exact ⟨_, g1, rfl, rfl⟩
  · intro k pr hk
    obtain ⟨project, s, ud, h1, h2, h3, h4, rfl, h6, h7⟩ := hget k pr hk
    exact ⟨project, s, ud, h1, h2, h3, h4, rfl, rfl, rfl, rfl, rfl, rfl, rfl, rfl, rfl, rfl,
      h6, h7⟩
  · intro i pi hi
    obtain ⟨_, _, _, _, _, _, _, rfl, _, _⟩ := hget i pi hi
    refine ⟨h.nextMap + i, h.nextSlice + i, rfl, rfl, ?_⟩
    intro ms
    obtain ⟨_, _, m3, m4⟩ := Heap.mutateAll_frame ms (StartEngine cs h).heap
      (h.nextMap + i) (h.nextSlice + i)
    constructor
    · intro project hp
      constructor
      · rw [← hkeepT project hp]
        cases hL : project.Tags with
        | none => rfl
        | some a =>
          have := (hV project hp).1 a hL
          exact m3 a (by omega)
      · rw [← hkeepE project hp]
        cases hL : project.EbsVolumes with
        | none => rfl
        | some a =>
          have := (hV project hp).2 a hL
          exact m4 a (by omega)
    · intro j pj hj hji
      obtain ⟨_, _, _, _, _, _, _, rfl, _, _⟩ := hget j pj hj
      exact ⟨m3 _ (by omega), m4 _ (by omega)⟩

theorem StartEngine_one_pair_per_source_witness :
    ((StartEngine sampleStorage sampleHeap).pairs.length = 2 ∧
      (StartEngine sampleStorage sampleHeap).pairs.map (fun pr => pr.job.LaunchConfig.Source)
        = [sourceEast, sourceWest]) ∧
    ((StartEngine twoProjectStorage sampleHeap).fatal = none ∧
      (StartEngine twoProjectStorage sampleHeap).pairs.length = 3 ∧
      (StartEngine twoProjectStorage sampleHeap).pairs.map
          (fun pr => pr.job.LaunchConfig.Source)
        = [sourceEast, sourceWest, sourceArm] ∧
      ∃ pr, (StartEngine twoProjectStorage sampleHeap).pairs[2]? = some pr ∧
        pr.job.LaunchConfig.Source = sourceArm ∧ pr.job.Name = "base-arm") := by
  have h1 := StartEngine_one_pair_per_source sampleStorage sampleHeap
    sampleStorage_valid.1 sampleStorage_valid.2
  have h2 := StartEngine_one_pair_per_source twoProjectStorage sampleHeap
    twoProjectStorage_valid.1 twoProjectStorage_valid.2
  have e1 : expectedJobs sampleStorage sampleStorage.projects
      = [(sampleProject, sourceEast), (sampleProject, sourceWest)] := by decide
  have e2 : expectedJobs twoProjectStorage twoProjectStorage.projects
      = [(sampleProject, sourceEast), (sampleProject, sourceWest), (armProject, sourceArm)] := by
    decide
  have f1 : sampleStorage.projects.flatMap
      (fun project => project.SourceFilter.findSources sampleStorage.sources)
      = [sourceEast, sourceWest] := by decide
  have f2 : twoProjectStorage.projects.flatMap
      (fun project => project.SourceFilter.findSources twoProjectStorage.sources)
      = [sourceEast, sourceWest, sourceArm] := by decide
  refine ⟨⟨?_, ?_⟩, h2.1, ?_, ?_, ?_⟩
  · rw [h1.2.1, e1]; rfl
  · rw [h1.2.2.1, f1]
  · rw [h2.2.1, e2]; rfl
  · rw [h2.2.2.1, f2]
  · exact h2.2.2.2.1 2 armProject sourceArm (by rw [e2]; rfl)

/-! ## Launching an instance -/

theorem tagRetryLoop_spec (tagInstance : Nat → Option String) :
    ∀ (remaining i : Nat) (err : Option String), 0 < remaining →
      i < (tagRetryLoop tagInstance remaining i err).1 ∧
      (tagRetryLoop tagInstance remaining i err).1 ≤ i + remaining ∧
      (∀ j, i ≤ j → j + 1 < (tagRetryLoop tagInstance remaining i err).1 →
        tagInstance j ≠ none) ∧
      tagInstance ((tagRetryLoop tagInstance remaining i err).1 - 1)
        = (tagRetryLoop tagInstance remaining i err).2 ∧
      ((tagRetryLoop tagInstance remaining i err).2 ≠ none →
        (tagRetryLoop tagInstance remaining i err).1 = i + remaining) := by
  intro remaining
  induction remaining with
  | zero => intro i err h; omega
  | succ r ih =>
    intro i err _
    unfold tagRetryLoop
    cases ht : tagInstance i with
    | none =>
      refine ⟨by simp, by simp, ?_, by simp [ht], by simp⟩
      intro j hj hlt
      simp at hlt
      omega
    | some e =>
      simp only
      cases r with
      | zero =>
        simp only [tagRetryLoop]
        refine ⟨by omega, by omega, ?_, by simp [ht], by simp⟩
        intro j hj hlt
        omega
      | succ r2 =>
        obtain ⟨h1, h2, h3, h4, h5⟩ := ih (i + 1) (some e) (by omega)
        refine ⟨by omega, by omega, ?_, h4, ?_⟩
        · intro j hj hlt
          by_cases hji : j = i
          · subst hji; rw [ht]; simp
          · exact h3 j (by omega) hlt
        · intro hne
          have := h5 hne
          omega

theorem tagRetryLoop_all_fail_iff (tagInstance : Nat → Option String) :
    (tagRetryLoop tagInstance RETRYCOUNT 0 none).2 ≠ none ↔
      ∀ i, i < 10 → tagInstance i ≠ none := by
  obtain ⟨h1, h2, h3, h4, h5⟩ := tagRetryLoop_spec tagInstance RETRYCOUNT 0 none (by decide)
  have hR : RETRYCOUNT = 10 := rfl
  rw [hR] at h1 h2 h3 h4 h5 ⊢
  constructor
  · intro hne i hi
    have hn := h5 hne
    by_cases hlast : i = 9
    · subst hlast
      rw [hn] at h4
      simpa [h4] using hne
    · exact h3 i (by omega) (by omega)
  · intro hall
    rw [← h4]
    exact hall _ (by omega)

/-- C11: when the run-instances request succeeds, `LaunchInstance` issues at
least one and at most 10 tagging requests, every request but the last one
issued has failed (so none follows a successful one), it returns the handle
without error exactly when one of the first 10 attempts succeeds, and it
returns an error and no handle exactly when all 10 attempts fail, in which case
10 requests were issued. -/
theorem LaunchInstance_tagging_retry (self : Account) (config : LaunchConfig)
    (view : InstanceView) (tagInstance : Nat → Option String) :
    1 ≤ (self.LaunchInstance config (.ok view) tagInstance).tagAttempts ∧
    (self.LaunchInstance config (.ok view) tagInstance).tagAttempts ≤ 10 ∧
    (∀ j, j + 1 < (self.LaunchInstance config (.ok view) tagInstance).tagAttempts →
      tagInstance j ≠ none) ∧
    ((∃ i, i < 10 ∧ tagInstance i = none) ↔
      (self.LaunchInstance config (.ok view) tagInstance).result
        = .ok { Id := view.InstanceId, ImageId := view.ImageId, LaunchTime := view.LaunchTime,
                State := view.State, Region := config.Source.Region } ∧
      tagInstance ((self.LaunchInstance config (.ok view) tagInstance).tagAttempts - 1) = none) ∧
    ((∀ i, i < 10 → tagInstance i ≠ none) ↔
      (∃ e, (self.LaunchInstance config (.ok view) tagInstance).result = .error e) ∧
      (self.LaunchInstance config (.ok view) tagInstance).tagAttempts = 10) := by
  obtain ⟨h1, h2, h3, h4, h5⟩ := tagRetryLoop_spec tagInstance RETRYCOUNT 0 none (by decide)
  have hiff := tagRetryLoop_all_fail_iff tagInstance
  have hR : RETRYCOUNT = 10 := rfl
  rw [hR] at h1 h2 h3 h4 h5 hiff
  unfold Account.LaunchInstance
  simp only [hR]
  cases hl : (tagRetryLoop tagInstance 10 0 none).2 with
  | none =>
    rw [hl] at h4
    have hnot : ¬ ∀ i, i < 10 → tagInstance i ≠ none := by
      intro hall
      exact (hiff.mpr hall) hl
    refine ⟨by simpa using h1, by simpa using h2, ?_, ?_, ?_⟩
    · intro j hj
      exact h3 j (Nat.zero_le j) hj
    · constructor
      · intro _
        exact ⟨by simp [AutoInstance.Update], h4⟩
      · intro _
        exact ⟨_, by omega, h4⟩
    · constructor
      · intro hall; exact absurd hall hnot
      · rintro ⟨⟨e, he⟩, _⟩
        simp at he
  | some e =>
    have hne : (tagRetryLoop tagInstance 10 0 none).2 ≠ none := by rw [hl]; simp
    have hall := hiff.mp hne
    have hten := h5 hne
    refine ⟨by simpa using h1, by simpa using h2, ?_, ?_, ?_⟩
    · intro j hj
      exact h3 j (Nat.zero_le j) hj
    · constructor
      · rintro ⟨i, hi, hnone⟩
        exact absurd hnone (hall i hi)
      · rintro ⟨hok, _⟩
        simp at hok
    · constructor
      · intro _
        exact ⟨⟨e, rfl⟩, by simpa using hten⟩
      · intro _
        exact hall

theorem LaunchInstance_tagging_retry_fourth_attempt :
    (sampleAccount.LaunchInstance sampleConfig (.ok sampleView) tagFailsThrice).tagAttempts = 4 ∧
    (sampleAccount.LaunchInstance sampleConfig (.ok sampleView) (fun _ => some "denied")).tagAttempts
      = 10 := by
  decide

/-! ## The shutdown listener -/

/-- C12, as stated, fails: a second signal that arrives before the 5 seconds
are over aborts the process, and a signal that arrives after they are over is
acknowledged again and does not abort. -/
theorem Listener_repeated_signal_in_window_aborts :
    (Listener.start.run [.signal, .signal]).aborted = true ∧
    (Listener.start.run [.signal, .timerFires, .signal]).aborted = false ∧
    (Listener.start.run [.signal, .timerFires, .signal]).acknowledged = 2 := by
  decide

/-- C12, amended: after the listener has acknowledged a termination signal, a
further termination signal that arrives before the 5-second delay has elapsed
aborts the process, and one that arrives after the delay has elapsed is
acknowledged like the first (it does not abort, and it starts a new 5-second
delay, within which a further signal aborts). -/
theorem Listener_abort_only_within_delay (s : Listener) (hlive : s.aborted = false)
    (hsafe : s.safeAck = true) :
    (s.step .signal).aborted = false ∧
    (s.step .signal).acknowledged = s.acknowledged + 1 ∧
    ((s.step .signal).step .signal).aborted = true ∧
    ((s.step .signal).run [.timerFires, .signal]).aborted = false ∧
    ((s.step .signal).run [.timerFires, .signal]).acknowledged = s.acknowledged + 2 ∧
    ((s.step .signal).run [.timerFires, .signal, .signal]).aborted = true := by
  cases s with
  | mk safeAck sleeping acknowledged aborted =>
    simp only at hlive hsafe
    subst hlive hsafe
    simp [Listener.step, Listener.run]

theorem Listener_abort_only_within_delay_witness :
    (Listener.start.step .signal).aborted = false ∧
    ((Listener.start.step .signal).step .signal).aborted = true ∧
    ((Listener.start.step .signal).run [.timerFires, .signal]).aborted = false :=
  ⟨(Listener_abort_only_within_delay Listener.start rfl rfl).1,
   (Listener_abort_only_within_delay Listener.start rfl rfl).2.2.1,
   (Listener_abort_only_within_delay Listener.start rfl rfl).2.2.2.1⟩

/-! ## Unresolved references -/

/-- C13: evaluated at records whose only project names a missing account, and
at records in which a sound project is visited before one that names a missing
user-data record.  In the first case `StartEngine` does not fail: it adds 2 to
the barrier for each of the two matching sources and dispatches both job pairs
with a `nil` account, and the missing account only shows inside a `Refresh`
run, as a panic that the job recovers.  In the second case `StartEngine` ends
in a nil dereference, after the two job pairs of the first project have been
dispatched. -/
theorem StartEngine_unresolved_references :
    (StartEngine orphanStorage sampleHeap).fatal = none ∧
    (StartEngine orphanStorage sampleHeap).GoWait = 4 ∧
    (StartEngine orphanStorage sampleHeap).pairs.map (fun pr => (pr.job.Account, pr.recurring))
      = [(none, false), (none, false)] ∧
    (StartEngine mixedStorage sampleHeap).fatal = some "nil pointer dereference" ∧
    (StartEngine mixedStorage sampleHeap).pairs.length = 2 := by
  decide

theorem Refresh_nil_account (self : AutoRefreshAmi) (p : Provider) (wg : Int)
    (hA : self.Account = none) (hwg : 0 ≤ wg) (hone : self.Cron = "" → 0 < wg) :
    self.Refresh p wg
      = { trace := (self.enter wg).trace ++ [Event.recovered, Event.waitGroupDone],
          waitGroup := (self.enter wg).waitGroup - 1,
          ConfigErrors := self.ConfigErrors + 1, panicking := none } := by
  have hpos := self.enter_waitGroup_pos wg hwg hone
  unfold AutoRefreshAmi.Refresh
  simp only [hA]
  rw [unwind_base_panicking p _ "nil pointer dereference" (by simp [RunState.raise])
    (by simpa [RunState.raise] using hpos)]
  simp [RunState.raise, (self.enter_spec wg).2.1]

/-! ## Creating an image -/

theorem CreateAmi_result_ignores_tagging (self : AutoInstance) (tags : TagMap)
    (name timeNow imageId : String) (createTags : Option String) :
    (self.CreateAmi tags name timeNow (.ok imageId) createTags).result
      = .ok { Id := imageId, Region := self.Region, Architecture := "",
              Name := name ++ " " ++ timeNow, State := "", Description := "",
              CreationDate := "" } ∧
    (self.CreateAmi tags name timeNow (.ok imageId) createTags).tagged = createTags.isNone := by
  exact ⟨rfl, rfl⟩

/-- C14: evaluated at a run in which the create-image request succeeds and the
create-tags request for the new image fails: `CreateAmi` returns the image
handle without error, one create-tags request was sent, and it did not
succeed. -/
theorem CreateAmi_returns_untagged_image :
    (sampleInstance.CreateAmi sampleTags "base" "04 Nov 26 15h00m00s UTC" (.ok "ami-6")
        (some "RequestLimitExceeded")).result
      = .ok { Id := "ami-6", Region := "us-east-1", Architecture := "",
              Name := "base 04 Nov 26 15h00m00s UTC", State := "", Description := "",
              CreationDate := "" } ∧
    (sampleInstance.CreateAmi sampleTags "base" "04 Nov 26 15h00m00s UTC" (.ok "ami-6")
        (some "RequestLimitExceeded")).tagged = false ∧
    (sampleInstance.CreateAmi sampleTags "base" "04 Nov 26 15h00m00s UTC" (.ok "ami-6")
        (some "RequestLimitExceeded")).requests
      = [.createImage "i-1" "base 04 Nov 26 15h00m00s UTC", .createTags "ami-6" sampleTags] := by
  refine ⟨?_, rfl, ?_⟩
  · simp [AutoInstance.CreateAmi, sampleInstance]
  · simp [AutoInstance.CreateAmi, sampleInstance]

/-! ## Order of the provider calls in one refresh run -/

/-- C15, as stated, fails: in a run in which every step succeeds, the
terminate request is the last provider call; it comes after the wait for the
available state and after the call of `DeleteOldAmi` with its deregistrations,
not before them. -/
theorem Refresh_terminate_is_last_provider_call :
    (sampleJob.Refresh happyProvider 2).trace
      = [Event.launchInstance "ami-1", Event.waitForStoppedState "i-1",
         Event.createAmi "i-1" "base", Event.waitForAvailableState "ami-6",
         Event.deleteOldAmi "123456789012" 2, Event.deregisterImage "ami-1",
         Event.deregisterImage "ami-2", Event.terminate "i-1", Event.waitGroupDone] ∧
    (sampleJob.Refresh happyProvider 2).trace.indexOf (Event.waitForAvailableState "ami-6")
      < (sampleJob.Refresh happyProvider 2).trace.indexOf (Event.terminate "i-1") ∧
    (sampleJob.Refresh happyProvider 2).trace.indexOf (Event.deleteOldAmi "123456789012" 2)
      < (sampleJob.Refresh happyProvider 2).trace.indexOf (Event.terminate "i-1") := by
  decide

theorem waitForAvailableLoop_stall (view : ImageView) (hv : view.State ≠ "available") :
    ∀ (n : Nat) (self : AutoAmi) (calls : Nat), self.State ≠ "available" →
      (waitForAvailableLoop (List.replicate n (.found view)) self calls).result = .polling ∧
      (waitForAvailableLoop (List.replicate n (.found view)) self calls).describeCalls
        = calls + n := by
  intro n
  induction n with
  | zero =>
    intro self calls hs
    simp [waitForAvailableLoop, hs]
  | succ n ih =>
    intro self calls hs
    have hu : (self.Update view).State ≠ "available" := hv
    have := ih (self.Update view) (calls + 1) hu
    simp only [List.replicate_succ, waitForAvailableLoop, bne_iff_ne, ne_eq, hs,
      not_false_eq_true, if_true]
    refine ⟨this.1, ?_⟩
    rw [this.2]; omega

theorem unwind_deleteOldAmi_order (p : Provider) (autoAmi : AutoAmi) (owner : String) (k : Nat)
    (autoInstance : AutoInstance) (s : RunState) (hwg : 0 < s.waitGroup) :
    ∃ tail : List Event,
      (unwind p [Deferred.deleteOldAmi autoAmi owner k, Deferred.terminate autoInstance,
          Deferred.recoverPanic, Deferred.waitGroupDone] s).trace
        = s.trace ++ [Event.deleteOldAmi owner k] ++ retirementEvents p autoAmi owner k
            ++ [Event.terminate autoInstance.Id] ++ tail ∧
      (∀ ev ∈ tail, ev = Event.recovered ∨ ev = Event.waitGroupDone) ∧
      (unwind p [Deferred.deleteOldAmi autoAmi owner k, Deferred.terminate autoInstance,
          Deferred.recoverPanic, Deferred.waitGroupDone] s).panicking = none := by
  rw [unwind_deleteOldAmi p autoAmi owner k autoInstance s hwg]
  refine ⟨(if (retirementPanic p autoAmi owner k <|> s.panicking).isSome
      then [Event.recovered] else []) ++ [Event.waitGroupDone], by simp, ?_, rfl⟩
  intro ev hev
  by_cases hp : (retirementPanic p autoAmi owner k <|> s.panicking).isSome = true
  · simp only [hp, if_true, List.mem_append, List.mem_singleton] at hev
    exact hev
  · simp only [hp, List.mem_append, List.mem_singleton, List.not_mem_nil, false_or] at hev
    exact Or.inr (by simpa using hev)

theorem RefreshPolled_ended (self : AutoRefreshAmi) (p : Provider) (wg : Int)
    (account : Account) (launched : AutoInstance) (created : AutoAmi) (images : List ImageOutcome)
    (hA : self.Account = some account)
    (hL : p.launchInstance self.LaunchConfig = .ok launched)
    (hW : (p.waitForStoppedState launched).2 = none)
    (hC : p.createAmi (p.waitForStoppedState launched).1 self.Name = .ok created)
    (hR : (created.WaitForAvailableState images).result ≠ .polling) :
    ∃ s : RunState,
      s.trace = (self.enter wg).trace ++
        [Event.launchInstance self.LaunchConfig.Source.AmiId,
         Event.waitForStoppedState launched.Id,
         Event.createAmi (p.waitForStoppedState launched).1.Id self.Name,
         Event.waitForAvailableState created.Id] ∧
      s.waitGroup = (self.enter wg).waitGroup ∧
      self.RefreshPolled p images wg
        = .returned (unwind p
            [Deferred.deleteOldAmi (created.WaitForAvailableState images).handle account.OwnerId
               self.RetentionCount,
             Deferred.terminate (p.waitForStoppedState launched).1,
             Deferred.recoverPanic, Deferred.waitGroupDone] s) := by
  unfold AutoRefreshAmi.RefreshPolled
  simp only [hA, hL, hW, hC]
  cases hres : (created.WaitForAvailableState images).result with
  | polling => exact absurd hres hR
  | panicked => exact ⟨_, by simp [RunState.raise, RunState.emit], by simp [RunState.raise, RunState.emit], rfl⟩
  | returned err =>
    cases err with
    | none => exact ⟨_, by simp [RunState.emit], by simp [RunState.emit], rfl⟩
    | some e => exact ⟨_, by simp [RunState.raise, RunState.emit], by simp [RunState.raise, RunState.emit], rfl⟩

/-- C15, amended: in every `Refresh` run in which the image creation succeeds,
no terminate request is issued before `WaitForAvailableState` ends.  That loop
has no bound: while it polls, the run has issued launch, wait for the stopped
state, create image and wait for the available state, and the calls of
`DeleteOldAmi` and `Terminate` are registered and not run.  Once the wait ends
(without error, with an error, or with a panic), `DeleteOldAmi` runs with its
deregistrations and then the terminate request, which is issued once; only the
recovery of a panic and the barrier's `Done` follow it. -/
theorem Refresh_call_order (self : AutoRefreshAmi) (p : Provider) (wg : Int)
    (account : Account) (launched : AutoInstance) (created : AutoAmi)
    (hA : self.Account = some account)
    (hL : p.launchInstance self.LaunchConfig = .ok launched)
    (hW : (p.waitForStoppedState launched).2 = none)
    (hC : p.createAmi (p.waitForStoppedState launched).1 self.Name = .ok created)
    (hwg : 0 ≤ wg) (hone : self.Cron = "" → 0 < wg) :
    (∃ tail : List Event,
      (self.Refresh p wg).trace
        = (self.enter wg).trace ++
            [Event.launchInstance self.LaunchConfig.Source.AmiId,
             Event.waitForStoppedState launched.Id,
             Event.createAmi (p.waitForStoppedState launched).1.Id self.Name,
             Event.waitForAvailableState created.Id,
             Event.deleteOldAmi account.OwnerId self.RetentionCount]
            ++ retirementEvents p (p.waitForAvailableState created).1 account.OwnerId
                self.RetentionCount
            ++ [Event.terminate (p.waitForStoppedState launched).1.Id]
            ++ tail ∧
      (∀ ev ∈ tail, ev = Event.recovered ∨ ev = Event.waitGroupDone) ∧
      (∀ ev ∈ retirementEvents p (p.waitForAvailableState created).1 account.OwnerId
          self.RetentionCount, ev.isDeregister = true) ∧
      (self.Refresh p wg).trace.countP Event.isTerminate = 1) ∧
    (∀ (images : List ImageOutcome) (err : Option String),
      (created.WaitForAvailableState images).result = .returned err →
      p.waitForAvailableState created = ((created.WaitForAvailableState images).handle, err) →
      self.RefreshPolled p images wg = .returned (self.Refresh p wg)) ∧
    (∀ images : List ImageOutcome,
      (created.WaitForAvailableState images).result = .polling →
      ∃ s : RunState,
        self.RefreshPolled p images wg
          = .waiting s
              [Deferred.deleteOldAmi (created.WaitForAvailableState images).handle
                 account.OwnerId self.RetentionCount,
               Deferred.terminate (p.waitForStoppedState launched).1,
               Deferred.recoverPanic, Deferred.waitGroupDone] ∧
        s.trace = (self.enter wg).trace ++
          [Event.launchInstance self.LaunchConfig.Source.AmiId,
           Event.waitForStoppedState launched.Id,
           Event.createAmi (p.waitForStoppedState launched).1.Id self.Name,
           Event.waitForAvailableState created.Id] ∧
        s.panicking = none ∧
        s.trace.countP Event.isTerminate = 0 ∧
        s.trace.countP Event.isDeleteOldAmi = 0) ∧
    (∀ images : List ImageOutcome,
      (created.WaitForAvailableState images).result ≠ .polling →
      ∃ (s : RunState) (tail : List Event),
        self.RefreshPolled p images wg = .returned s ∧
        s.trace = (self.enter wg).trace ++
            [Event.launchInstance self.LaunchConfig.Source.AmiId,
             Event.waitForStoppedState launched.Id,
             Event.createAmi (p.waitForStoppedState launched).1.Id self.Name,
             Event.waitForAvailableState created.Id,
             Event.deleteOldAmi account.OwnerId self.RetentionCount]
            ++ retirementEvents p (created.WaitForAvailableState images).handle account.OwnerId
                self.RetentionCount
            ++ [Event.terminate (p.waitForStoppedState launched).1.Id]
            ++ tail ∧
        (∀ ev ∈ tail, ev = Event.recovered ∨ ev = Event.waitGroupDone) ∧
        s.trace.countP Event.isTerminate = 1 ∧
        s.panicking = none) ∧
    (∀ (view : ImageView) (n : Nat),
      created.State ≠ "available" → view.State ≠ "available" →
      (created.WaitForAvailableState (List.replicate n (.found view))).result = .polling ∧
      (created.WaitForAvailableState (List.replicate n (.found view))).describeCalls = n) := by
  have en4 := countP_enter_trace self wg Event.isTerminate rfl
  have en5 := countP_enter_trace self wg Event.isDeleteOldAmi rfl
  have hpos := self.enter_waitGroup_pos wg hwg hone
  refine ⟨?_, ?_, ?_, ?_, ?_⟩
  · have hr := retirementEvents_isDeregister p (p.waitForAvailableState created).1
      account.OwnerId self.RetentionCount
    have r4 := countP_zero_of_isDeregister _ Event.isTerminate hr isDeregister_not_isTerminate
    cases hV : (p.waitForAvailableState created).2 with
    | some e =>
      rw [Refresh_on_wait_available_error self p wg account launched created e hA hL hW hC hV
        hwg hone]
      refine ⟨[Event.recovered, Event.waitGroupDone], by simp, ?_, hr, ?_⟩
      · intro ev hev
        simp only [List.mem_cons, List.mem_singleton, List.not_mem_nil, or_false] at hev
        exact hev
      · simp [List.countP_append, List.countP_cons, en4, r4, Event.isTerminate]
    | none =>
      rw [Refresh_on_success self p wg account launched created hA hL hW hC hV hwg hone]
      by_cases hp : (retirementPanic p (p.waitForAvailableState created).1 account.OwnerId
          self.RetentionCount).isSome = true
      · refine ⟨[Event.recovered, Event.waitGroupDone], by simp [hp], ?_, hr, ?_⟩
        · intro ev hev
          simp only [List.mem_cons, List.mem_singleton, List.not_mem_nil, or_false] at hev
          exact hev
        · simp [List.countP_append, List.countP_cons, en4, r4, hp, Event.isTerminate]
      · refine ⟨[Event.waitGroupDone], by simp [hp], ?_, hr, ?_⟩
        · intro ev hev
          simp only [List.mem_singleton] at hev
          exact Or.inr hev
        · simp [List.countP_append, List.countP_cons, en4, r4, hp, Event.isTerminate]
  · intro images err hres hP
    unfold AutoRefreshAmi.RefreshPolled AutoRefreshAmi.Refresh
    simp only [hA, hL, hW, hC, hres, hP]
    cases err <;> rfl
  · intro images hres
    refine ⟨((((self.enter wg).emit (.launchInstance self.LaunchConfig.Source.AmiId)).emit
      (.waitForStoppedState launched.Id)).emit
      (.createAmi (p.waitForStoppedState launched).1.Id self.Name)).emit
      (.waitForAvailableState created.Id), ?_, ?_, ?_, ?_, ?_⟩
    · unfold AutoRefreshAmi.RefreshPolled
      simp only [hA, hL, hW, hC, hres]
    · simp [RunState.emit]
    · simp [RunState.emit, (self.enter_spec wg).1]
    · simp [RunState.emit, List.countP_append, List.countP_cons, en4, Event.isTerminate]
    · simp [RunState.emit, List.countP_append, List.countP_cons, en5, Event.isDeleteOldAmi]
  · intro images hres
    obtain ⟨s, hst, hsw, hrun⟩ :=
      RefreshPolled_ended self p wg account launched created images hA hL hW hC hres
    obtain ⟨tail, htr, htail, hpan⟩ := unwind_deleteOldAmi_order p
      (created.WaitForAvailableState images).handle account.OwnerId self.RetentionCount
      (p.waitForStoppedState launched).1 s (by rw [hsw]; exact hpos)
    have hr := retirementEvents_isDeregister p (created.WaitForAvailableState images).handle
      account.OwnerId self.RetentionCount
    have r4 := countP_zero_of_isDeregister _ Event.isTerminate hr isDeregister_not_isTerminate
    have t4 : tail.countP Event.isTerminate = 0 := by
      rw [List.countP_eq_zero]
      intro ev hev
      rcases htail ev hev with h | h <;> simp [h, Event.isTerminate]
    refine ⟨_, tail, hrun, ?_, htail, ?_, hpan⟩
    · rw [htr, hst]; simp
    · rw [htr, hst]
      simp [List.countP_append, List.countP_cons, en4, r4, t4, Event.isTerminate]
  · intro view n hc hv
    have := waitForAvailableLoop_stall view hv n created 0 hc
    simpa [AutoAmi.WaitForAvailableState] using this

theorem Refresh_call_order_witness :
    (∃ s : RunState,
      sampleJob.RefreshPolled happyProvider [.found pendingImage, .found pendingImage] 2
        = .waiting s
            [Deferred.deleteOldAmi
               ((imageWith "ami-6" "pending").WaitForAvailableState
                 [.found pendingImage, .found pendingImage]).handle "123456789012" 2,
             Deferred.terminate (happyProvider.waitForStoppedState sampleInstance).1,
             Deferred.recoverPanic, Deferred.waitGroupDone] ∧
      s.trace = (sampleJob.enter 2).trace ++
        [Event.launchInstance "ami-1", Event.waitForStoppedState "i-1",
         Event.createAmi "i-1" "base", Event.waitForAvailableState "ami-6"] ∧
      s.panicking = none ∧
      s.trace.countP Event.isTerminate = 0 ∧
      s.trace.countP Event.isDeleteOldAmi = 0) ∧
    (∃ (s : RunState) (tail : List Event),
      sampleJob.RefreshPolled happyProvider
          [.found pendingImage, .failed "DescribeImages: request limit exceeded"] 2
        = .returned s ∧
      s.trace = (sampleJob.enter 2).trace ++
          [Event.launchInstance "ami-1", Event.waitForStoppedState "i-1",
           Event.createAmi "i-1" "base", Event.waitForAvailableState "ami-6",
           Event.deleteOldAmi "123456789012" 2]
          ++ retirementEvents happyProvider
              ((imageWith "ami-6" "pending").WaitForAvailableState
                [.found pendingImage, .failed "DescribeImages: request limit exceeded"]).handle
              "123456789012" 2
          ++ [Event.terminate "i-1"]
          ++ tail ∧
      (∀ ev ∈ tail, ev = Event.recovered ∨ ev = Event.waitGroupDone) ∧
      s.trace.countP Event.isTerminate = 1 ∧
      s.panicking = none) ∧
    ((imageWith "ami-6" "pending").WaitForAvailableState
        (List.replicate 1000 (.found pendingImage))).result = .polling := by
  have h := Refresh_call_order sampleJob happyProvider 2 sampleAccount sampleInstance
    (imageWith "ami-6" "pending") rfl rfl rfl rfl (by decide) (fun _ => by decide)
  exact ⟨h.2.2.1 [.found pendingImage, .found pendingImage] (by decide),
    h.2.2.2.1 [.found pendingImage, .failed "DescribeImages: request limit exceeded"]
      (by decide),
    (h.2.2.2.2 pendingImage 1000 (by decide) (by decide)).1⟩

/-! ## Waiting for the stopped state -/

theorem waitForStoppedLoop_spec :
    ∀ (outcomes : List DescribeOutcome) (self : AutoInstance) (tags : TagMap) (calls : Nat),
      ∃ n, n ≤ outcomes.length ∧
        (∀ j, j < n → ∃ view, outcomes[j]? = some (.found view) ∧
          (afterViews self (viewsOf (outcomes.take j))).State ≠ "stopped") ∧
        (waitForStoppedLoop outcomes self tags calls).handle
          = afterViews self (viewsOf (outcomes.take n)) ∧
        (waitForStoppedLoop outcomes self tags calls).tags
          = tagsAfterViews tags (viewsOf (outcomes.take n)) ∧
        ((waitForStoppedLoop outcomes self tags calls).result = .returned none ∧
            (waitForStoppedLoop outcomes self tags calls).describeCalls = calls + n ∧
            (waitForStoppedLoop outcomes self tags calls).handle.State = "stopped" ∨
         (∃ err, (waitForStoppedLoop outcomes self tags calls).result = .returned (some err) ∧
            (waitForStoppedLoop outcomes self tags calls).describeCalls = calls + n + 1 ∧
            outcomes[n]? = some (.failed err) ∧
            (waitForStoppedLoop outcomes self tags calls).handle.State ≠ "stopped") ∨
         ((waitForStoppedLoop outcomes self tags calls).result = .panicked ∧
            (waitForStoppedLoop outcomes self tags calls).describeCalls = calls + n + 1 ∧
            outcomes[n]? = some .noInstance ∧
            (waitForStoppedLoop outcomes self tags calls).handle.State ≠ "stopped") ∨
         ((waitForStoppedLoop outcomes self tags calls).result = .polling ∧
            (waitForStoppedLoop outcomes self tags calls).describeCalls = calls + n ∧
            n = outcomes.length ∧
            (waitForStoppedLoop outcomes self tags calls).handle.State ≠ "stopped")) := by
  intro outcomes
  induction outcomes with
  | nil =>
    intro self tags calls
    refine ⟨0, Nat.le_refl _, by intro j hj; omega, ?_, ?_, ?_⟩
    · unfold waitForStoppedLoop; split <;> rfl
    · unfold waitForStoppedLoop; split <;> rfl
    · by_cases hs : self.State = "stopped"
      · left; simp [waitForStoppedLoop, hs]
      · right; right; right; simp [waitForStoppedLoop, hs]
  | cons o rest ih =>
    intro self tags calls
    by_cases hs : self.State = "stopped"
    · refine ⟨0, Nat.zero_le _, by intro j hj; omega, ?_, ?_, ?_⟩
      · simp [waitForStoppedLoop, hs, afterViews, viewsOf]
      · simp [waitForStoppedLoop, hs, tagsAfterViews, viewsOf]
      · left; simp [waitForStoppedLoop, hs]
    · have hne : (self.State != "stopped") = true := by simpa using hs
      cases o with
      | failed err =>
        refine ⟨0, Nat.zero_le _, by intro j hj; omega, ?_, ?_, ?_⟩
        · simp [waitForStoppedLoop, hs, afterViews, viewsOf]
        · simp [waitForStoppedLoop, hs, tagsAfterViews, viewsOf]
        · right; left; exact ⟨err, by simp [waitForStoppedLoop, hs]⟩
      | noInstance =>
        refine ⟨0, Nat.zero_le _, by intro j hj; omega, ?_, ?_, ?_⟩
        · simp [waitForStoppedLoop, hs, afterViews, viewsOf]
        · simp [waitForStoppedLoop, hs, tagsAfterViews, viewsOf]
        · right; right; left; simp [waitForStoppedLoop, hs]
      | found view =>
        obtain ⟨n, hn, hpre, hh, ht, hres⟩ := ih (self.Update view) (updateTags tags view)
          (calls + 1)
        have hloop : waitForStoppedLoop (DescribeOutcome.found view :: rest) self tags calls
            = waitForStoppedLoop rest (self.Update view) (updateTags tags view) (calls + 1) := by
          simp [waitForStoppedLoop, hs]
        have htake : ∀ m, viewsOf ((DescribeOutcome.found view :: rest).take (m + 1))
            = view :: viewsOf (rest.take m) := by
          intro m; simp [viewsOf]
        rw [hloop]
        refine ⟨n + 1, by simp only [List.length_cons]; omega, ?_, ?_, ?_, ?_⟩
        · intro j hj
          cases j with
          | zero => exact ⟨view, by simp, by simpa [afterViews, viewsOf] using hs⟩
          | succ j =>
            obtain ⟨v, hv, hst⟩ := hpre j (by omega)
            refine ⟨v, by simpa using hv, ?_⟩
            rw [htake j]
            simpa [afterViews] using hst
        · rw [hh, htake n]; simp [afterViews]
        · rw [ht, htake n]; simp [tagsAfterViews]
        · rcases hres with ⟨h1, h2, h3⟩ | ⟨err, h1, h2, h3, h4⟩ | ⟨h1, h2, h3, h4⟩ |
            ⟨h1, h2, h3, h4⟩
          · left; exact ⟨h1, by omega, h3⟩
          · right; left; exact ⟨err, h1, by omega, by simpa using h3, h4⟩
          · right; right; left; exact ⟨h1, by omega, by simpa using h3, h4⟩
          · right; right; right
            exact ⟨h1, by omega, by simp only [List.length_cons]; omega, h4⟩

theorem afterViews_take_succ (outcomes : List DescribeOutcome) (self : AutoInstance) (j : Nat)
    (view : InstanceView) (h : outcomes[j]? = some (.found view)) :
    afterViews self (viewsOf (outcomes.take (j + 1)))
      = (afterViews self (viewsOf (outcomes.take j))).Update view := by
  rw [List.take_succ, h]
  simp [viewsOf, afterViews, List.filterMap_append, List.foldl_append]

theorem WaitForStoppedState_progress (self : AutoInstance) (tags : TagMap)
    (outcomes : List DescribeOutcome) (n : Nat) (view : InstanceView)
    (hself : self.State ≠ "stopped")
    (hpre : ∀ j, j < n → ∃ v, outcomes[j]? = some (.found v) ∧ v.State ≠ "stopped")
    (hn : outcomes[n]? = some (.found view)) (hstop : view.State = "stopped") :
    (self.WaitForStoppedState tags outcomes).result = .returned none ∧
    (self.WaitForStoppedState tags outcomes).describeCalls = n + 1 := by
  obtain ⟨m, hm, hfound, hh, _, hres⟩ := waitForStoppedLoop_spec outcomes self tags 0
  have hlen : n < outcomes.length := by
    by_contra hc
    rw [List.getElem?_eq_none (by omega)] at hn
    exact Option.noConfusion hn
  have hstate : ∀ j, j ≤ n → (afterViews self (viewsOf (outcomes.take j))).State ≠ "stopped" := by
    intro j hj
    cases j with
    | zero => simpa [afterViews, viewsOf] using hself
    | succ j =>
      obtain ⟨v, hv, hvs⟩ := hpre j (by omega)
      rw [afterViews_take_succ outcomes self j v hv]
      simpa [AutoInstance.Update] using hvs
  have hafter : (afterViews self (viewsOf (outcomes.take (n + 1)))).State = "stopped" := by
    rw [afterViews_take_succ outcomes self n view hn]
    simpa [AutoInstance.Update] using hstop
  have hfoundAt : ∀ j, j ≤ n → ∃ v, outcomes[j]? = some (.found v) := by
    intro j hj
    by_cases hjn : j = n
    · subst hjn; exact ⟨view, hn⟩
    · obtain ⟨v, hv, _⟩ := hpre j (by omega)
      exact ⟨v, hv⟩
  have hm1 : m = n + 1 := by
    by_contra hne
    by_cases hle : m ≤ n
    · rcases hres with ⟨_, _, h3⟩ | ⟨err, _, _, h3⟩ | ⟨_, _, h3⟩ | ⟨_, _, h3, _⟩
      · rw [hh] at h3
        exact hstate m hle h3
      · obtain ⟨v, hv⟩ := hfoundAt m hle
        rw [hv] at h3
        simp at h3
      · obtain ⟨v, hv⟩ := hfoundAt m hle
        rw [hv] at h3
        simp at h3
      · omega
    · obtain ⟨_, _, hns⟩ := hfound (n + 1) (by omega)
      exact hns hafter
  subst hm1
  unfold AutoInstance.WaitForStoppedState
  rcases hres with ⟨h1, h2, _⟩ | ⟨err, _, _, _, h4⟩ | ⟨_, _, _, h4⟩ | ⟨_, _, _, h4⟩
  · exact ⟨h1, by omega⟩
  · rw [hh] at h4
    exact absurd hafter h4
  · rw [hh] at h4
    exact absurd hafter h4
  · rw [hh] at h4
    exact absurd hafter h4

theorem WaitForStoppedState_failure (self : AutoInstance) (tags : TagMap)
    (outcomes : List DescribeOutcome) (n : Nat) (err : String)
    (hself : self.State ≠ "stopped")
    (hpre : ∀ j, j < n → ∃ v, outcomes[j]? = some (.found v) ∧ v.State ≠ "stopped")
    (hn : outcomes[n]? = some (.failed err)) :
    (self.WaitForStoppedState tags outcomes).result = .returned (some err) ∧
    (self.WaitForStoppedState tags outcomes).describeCalls = n + 1 ∧
    (self.WaitForStoppedState tags outcomes).handle
      = afterViews self (viewsOf (outcomes.take n)) ∧
    (self.WaitForStoppedState tags outcomes).tags
      = tagsAfterViews tags (viewsOf (outcomes.take n)) := by
  obtain ⟨m, hm, hfound, hh, ht, hres⟩ := waitForStoppedLoop_spec outcomes self tags 0
  have hlen : n < outcomes.length := by
    by_contra hc
    rw [List.getElem?_eq_none (by omega)] at hn
    exact Option.noConfusion hn
  have hstate : ∀ j, j ≤ n → (afterViews self (viewsOf (outcomes.take j))).State ≠ "stopped" := by
    intro j hj
    cases j with
    | zero => simpa [afterViews, viewsOf] using hself
    | succ j =>
      obtain ⟨v, hv, hvs⟩ := hpre j (by omega)
      rw [afterViews_take_succ outcomes self j v hv]
      simpa [AutoInstance.Update] using hvs
  have hmn : m = n := by
    by_contra hne
    by_cases hlt : m < n
    · obtain ⟨v, hv, _⟩ := hpre m hlt
      rcases hres with ⟨_, _, h3⟩ | ⟨e2, _, _, h3, _⟩ | ⟨_, _, h3, _⟩ | ⟨_, _, h3, _⟩
      · rw [hh] at h3
        exact hstate m (by omega) h3
      · rw [hv] at h3
        simp at h3
      · rw [hv] at h3
        simp at h3
      · omega
    · obtain ⟨v, hv, _⟩ := hfound n (by omega)
      rw [hn] at hv
      simp at hv
  subst hmn
  unfold AutoInstance.WaitForStoppedState
  rcases hres with ⟨_, _, h3⟩ | ⟨e2, h1, h2, h3, _⟩ | ⟨_, _, h3, _⟩ | ⟨_, _, h3, _⟩
  · rw [hh] at h3
    exact absurd h3 (hstate m (Nat.le_refl _))
  · rw [hn] at h3
    have hee : err = e2 := by simpa using h3
    subst hee
    exact ⟨h1, by omega, hh, ht⟩
  · rw [hn] at h3
    simp at h3
  · omega

/-- C16: for every sequence of describe-instances outcomes,
`WaitForStoppedState` returns without error only with the handle's state
"stopped"; that state is the one on entry, in which case no describe request
is made and the handle is untouched, or the one of the last view read.  When a
describe request fails (the handle was not "stopped" on entry and no view
before was "stopped", so the request is made), the call returns that error at
once: the failed request is the last one made, whatever outcomes would follow,
and the handle and its tags are as the views before it left them.  Conversely
an error return is the error of the last request made.  A handle that is not
"stopped" on entry and whose first `n` views are not "stopped" makes the call
return without error after exactly `n + 1` requests when the next view is
"stopped". -/
theorem WaitForStoppedState_spec (self : AutoInstance) (tags : TagMap)
    (outcomes : List DescribeOutcome) :
    ((self.WaitForStoppedState tags outcomes).result = .returned none →
      (self.WaitForStoppedState tags outcomes).handle.State = "stopped" ∧
      ((self.WaitForStoppedState tags outcomes).describeCalls = 0 ∧
          (self.WaitForStoppedState tags outcomes).handle = self ∧ self.State = "stopped" ∨
        ∃ view, outcomes[(self.WaitForStoppedState tags outcomes).describeCalls - 1]?
            = some (.found view) ∧
          0 < (self.WaitForStoppedState tags outcomes).describeCalls ∧
          (self.WaitForStoppedState tags outcomes).handle.State = view.State)) ∧
    (self.State = "stopped" →
      (self.WaitForStoppedState tags outcomes).result = .returned none ∧
      (self.WaitForStoppedState tags outcomes).describeCalls = 0 ∧
      (self.WaitForStoppedState tags outcomes).handle = self) ∧
    (∀ n err, self.State ≠ "stopped" →
      (∀ j, j < n → ∃ v, outcomes[j]? = some (.found v) ∧ v.State ≠ "stopped") →
      outcomes[n]? = some (.failed err) →
      (self.WaitForStoppedState tags outcomes).result = .returned (some err) ∧
      (self.WaitForStoppedState tags outcomes).describeCalls = n + 1 ∧
      (self.WaitForStoppedState tags outcomes).handle
        = afterViews self (viewsOf (outcomes.take n)) ∧
      (self.WaitForStoppedState tags outcomes).tags
        = tagsAfterViews tags (viewsOf (outcomes.take n))) ∧
    (∀ err, (self.WaitForStoppedState tags outcomes).result = .returned (some err) →
      ∃ n, (self.WaitForStoppedState tags outcomes).describeCalls = n + 1 ∧
        outcomes[n]? = some (.failed err) ∧
        (∀ j, j < n → ∃ view, outcomes[j]? = some (.found view)) ∧
        (self.WaitForStoppedState tags outcomes).handle
          = afterViews self (viewsOf (outcomes.take n)) ∧
        (self.WaitForStoppedState tags outcomes).tags
          = tagsAfterViews tags (viewsOf (outcomes.take n))) ∧
    (∀ n view, self.State ≠ "stopped" →
      (∀ j, j < n → ∃ v, outcomes[j]? = some (.found v) ∧ v.State ≠ "stopped") →
      outcomes[n]? = some (.found view) → view.State = "stopped" →
      (self.WaitForStoppedState tags outcomes).result = .returned none ∧
      (self.WaitForStoppedState tags outcomes).describeCalls = n + 1) := by
  obtain ⟨m, _, hfound, hh, ht, hres⟩ := waitForStoppedLoop_spec outcomes self tags 0
  refine ⟨?_, ?_, ?_, ?_, ?_⟩
  · intro hret
    unfold AutoInstance.WaitForStoppedState at hret ⊢
    rcases hres with ⟨_, h2, h3⟩ | ⟨err, h1, _⟩ | ⟨h1, _⟩ | ⟨h1, _⟩
    · refine ⟨h3, ?_⟩
      cases m with
      | zero =>
        left
        have hself : (waitForStoppedLoop outcomes self tags 0).handle = self := by
          rw [hh]; simp [afterViews, viewsOf]
        refine ⟨by omega, hself, ?_⟩
        rw [← hself]; exact h3
      | succ k =>
        right
        obtain ⟨view, hv, _⟩ := hfound k (by omega)
        refine ⟨view, ?_, by omega, ?_⟩
        · rw [h2]
          have : 0 + (k + 1) - 1 = k := by omega
          rw [this]; exact hv
        · rw [hh, afterViews_take_succ outcomes self k view hv]
          simp [AutoInstance.Update]
    · rw [h1] at hret; simp at hret
    · rw [h1] at hret; simp at hret
    · rw [h1] at hret; simp at hret
  · intro hs
    unfold AutoInstance.WaitForStoppedState
    cases outcomes with
    | nil => simp [waitForStoppedLoop, hs]
    | cons o rest => simp [waitForStoppedLoop, hs]
  · intro n err hself hpre hn
    exact WaitForStoppedState_failure self tags outcomes n err hself hpre hn
  · intro err herr
    unfold AutoInstance.WaitForStoppedState at herr ⊢
    rcases hres with ⟨h1, _⟩ | ⟨err2, h1, h2, h3, _⟩ | ⟨h1, _⟩ | ⟨h1, _⟩
    · rw [h1] at herr; simp at herr
    · rw [h1] at herr
      have hee : err2 = err := by simpa using herr
      subst hee
      refine ⟨m, by omega, h3, ?_, hh, ht⟩
      intro j hj
      obtain ⟨view, hv, _⟩ := hfound j hj
      exact ⟨view, hv⟩
    · rw [h1] at herr; simp at herr
    · rw [h1] at herr; simp at herr
  · intro n view hself hpre hn hstop
    exact WaitForStoppedState_progress self tags outcomes n view hself hpre hn hstop

theorem WaitForStoppedState_spec_witness :
    ((sampleInstance.WaitForStoppedState sampleTags
        [.found (viewInState "running"), .failed "RequestLimitExceeded",
         .found (viewInState "stopped")]).result = .returned (some "RequestLimitExceeded") ∧
      (sampleInstance.WaitForStoppedState sampleTags
        [.found (viewInState "running"), .failed "RequestLimitExceeded",
         .found (viewInState "stopped")]).describeCalls = 2 ∧
      (sampleInstance.WaitForStoppedState sampleTags
        [.found (viewInState "running"), .failed "RequestLimitExceeded",
         .found (viewInState "stopped")]).handle
        = afterViews sampleInstance [viewInState "running"]) ∧
    ((sampleInstance.WaitForStoppedState sampleTags [.failed "AuthFailure"]).result
        = .returned (some "AuthFailure") ∧
      (sampleInstance.WaitForStoppedState sampleTags [.failed "AuthFailure"]).describeCalls = 1 ∧
      (sampleInstance.WaitForStoppedState sampleTags [.failed "AuthFailure"]).handle
        = sampleInstance) ∧
    (sampleInstance.WaitForStoppedState sampleTags
        [.found (viewInState "running"), .found (viewInState "stopping"),
         .found (viewInState "stopped"), .failed "unused"]).result = .returned none ∧
    (sampleInstance.WaitForStoppedState sampleTags
        [.found (viewInState "running"), .found (viewInState "stopping"),
         .found (viewInState "stopped"), .failed "unused"]).describeCalls = 3 :=
  ⟨⟨((WaitForStoppedState_spec sampleInstance sampleTags
        [.found (viewInState "running"), .failed "RequestLimitExceeded",
         .found (viewInState "stopped")]).2.2.1 1 "RequestLimitExceeded" (by decide)
        (by
          intro j hj
          match j, hj with
          | 0, _ => exact ⟨viewInState "running", rfl, by decide⟩)
        rfl).1,
     ((WaitForStoppedState_spec sampleInstance sampleTags
        [.found (viewInState "running"), .failed "RequestLimitExceeded",
         .found (viewInState "stopped")]).2.2.1 1 "RequestLimitExceeded" (by decide)
        (by
          intro j hj
          match j, hj with
          | 0, _ => exact ⟨viewInState "running", rfl, by decide⟩)
        rfl).2.1,
     ((WaitForStoppedState_spec sampleInstance sampleTags
        [.found (viewInState "running"), .failed "RequestLimitExceeded",
         .found (viewInState "stopped")]).2.2.1 1 "RequestLimitExceeded" (by decide)
        (by
          intro j hj
          match j, hj with
          | 0, _ => exact ⟨viewInState "running", rfl, by decide⟩)
        rfl).2.2.1⟩,
   ⟨((WaitForStoppedState_spec sampleInstance sampleTags [.failed "AuthFailure"]).2.2.1 0
        "AuthFailure" (by decide) (by intro j hj; omega) rfl).1,
    ((WaitForStoppedState_spec sampleInstance sampleTags [.failed "AuthFailure"]).2.2.1 0
        "AuthFailure" (by decide) (by intro j hj; omega) rfl).2.1,
    ((WaitForStoppedState_spec sampleInstance sampleTags [.failed "AuthFailure"]).2.2.1 0
        "AuthFailure" (by decide) (by intro j hj; omega) rfl).2.2.1⟩,
   ((WaitForStoppedState_spec sampleInstance sampleTags
      [.found (viewInState "running"), .found (viewInState "stopping"),
       .found (viewInState "stopped"), .failed "unused"]).2.2.2.2 2 (viewInState "stopped")
      (by decide)
      (by
        intro j hj
        match j, hj with
        | 0, _ => exact ⟨viewInState "running", rfl, by decide⟩
        | 1, _ => exact ⟨viewInState "stopping", rfl, by decide⟩)
      rfl rfl).1,
   ((WaitForStoppedState_spec sampleInstance sampleTags
      [.found (viewInState "running"), .found (viewInState "stopping"),
       .found (viewInState "stopped"), .failed "unused"]).2.2.2.2 2 (viewInState "stopped")
      (by decide)
      (by
        intro j hj
        match j, hj with
        | 0, _ => exact ⟨viewInState "running", rfl, by decide⟩
        | 1, _ => exact ⟨viewInState "stopping", rfl, by decide⟩)
      rfl rfl).2⟩

theorem WaitForStoppedState_error_stops_polling :
    (sampleInstance.WaitForStoppedState sampleTags
        [.found (viewInState "running"), .failed "RequestLimitExceeded",
         .found (viewInState "stopped")]).result = .returned (some "RequestLimitExceeded") ∧
    (sampleInstance.WaitForStoppedState sampleTags
        [.found (viewInState "running"), .failed "RequestLimitExceeded",
         .found (viewInState "stopped")]).describeCalls = 2 ∧
    (sampleInstance.WaitForStoppedState sampleTags
        [.found (viewInState "running"), .failed "RequestLimitExceeded",
         .found (viewInState "stopped")]).handle.State = "running" := by
  decide

/-! ## The completion barrier -/

theorem isDeregister_not_isWaitGroupDone :
    ∀ ev : Event, ev.isDeregister = true → ev.isWaitGroupDone = false := by
  intro ev h; cases ev <;> simp_all [Event.isDeregister, Event.isWaitGroupDone]

theorem isDeregister_not_isWaitGroupAdd :
    ∀ ev : Event, ev.isDeregister = true → ev.isWaitGroupAdd = false := by
  intro ev h; cases ev <;> simp_all [Event.isDeregister, Event.isWaitGroupAdd]

theorem countP_isWaitGroupAdd_enter (self : AutoRefreshAmi) (wg : Int) :
    (self.enter wg).trace.countP Event.isWaitGroupAdd = (if self.Cron = "" then 0 else 1) := by
  rw [(self.enter_spec wg).2.2.2]
  by_cases h : self.Cron = "" <;> simp [h, Event.isWaitGroupAdd]

theorem Refresh_barrier (self : AutoRefreshAmi) (p : Provider) (wg : Int)
    (hwg : 0 ≤ wg) (hone : self.Cron = "" → 0 < wg) :
    (self.Refresh p wg).panicking = none ∧
    (self.Refresh p wg).waitGroup = (self.enter wg).waitGroup - 1 ∧
    (self.Refresh p wg).trace.countP Event.isWaitGroupDone = 1 ∧
    (self.Refresh p wg).trace.countP Event.isWaitGroupAdd
      = (self.enter wg).trace.countP Event.isWaitGroupAdd := by
  have en1 := countP_enter_trace self wg Event.isWaitGroupDone rfl
  cases hA : self.Account with
  | none =>
    rw [Refresh_nil_account self p wg hA hwg hone]
    simp [List.countP_append, List.countP_cons, en1, Event.isWaitGroupDone, Event.isWaitGroupAdd]
  | some account =>
    cases hL : p.launchInstance self.LaunchConfig with
    | error e =>
      rw [Refresh_on_launch_error self p wg account e hA hL hwg hone]
      simp [List.countP_append, List.countP_cons, en1, Event.isWaitGroupDone,
        Event.isWaitGroupAdd]
    | ok launched =>
      cases hW : (p.waitForStoppedState launched).2 with
      | some e =>
        rw [Refresh_on_wait_stopped_error self p wg account launched e hA hL hW hwg hone]
        simp [List.countP_append, List.countP_cons, en1, Event.isWaitGroupDone,
          Event.isWaitGroupAdd]
      | none =>
        cases hC : p.createAmi (p.waitForStoppedState launched).1 self.Name with
        | error e =>
          rw [Refresh_on_create_error self p wg account launched e hA hL hW hC hwg hone]
          simp [List.countP_append, List.countP_cons, en1, Event.isWaitGroupDone,
            Event.isWaitGroupAdd]
        | ok created =>
          have hr := retirementEvents_isDeregister p (p.waitForAvailableState created).1
            account.OwnerId self.RetentionCount
          have r1 := countP_zero_of_isDeregister _ Event.isWaitGroupDone hr
            isDeregister_not_isWaitGroupDone
          have r2 := countP_zero_of_isDeregister _ Event.isWaitGroupAdd hr
            isDeregister_not_isWaitGroupAdd
          cases hV : (p.waitForAvailableState created).2 with
          | some e =>
            rw [Refresh_on_wait_available_error self p wg account launched created e hA hL hW
              hC hV hwg hone]
            simp [List.countP_append, List.countP_cons, en1, r1, r2, Event.isWaitGroupDone,
              Event.isWaitGroupAdd]
          | none =>
            rw [Refresh_on_success self p wg account launched created hA hL hW hC hV hwg hone]
            by_cases hp : (retirementPanic p (p.waitForAvailableState created).1
                account.OwnerId self.RetentionCount).isSome = true
            · simp [List.countP_append, List.countP_cons, en1, r1, r2, hp,
                Event.isWaitGroupDone, Event.isWaitGroupAdd]
            · simp [List.countP_append, List.countP_cons, en1, r1, r2, hp,
                Event.isWaitGroupDone, Event.isWaitGroupAdd]

theorem cleanUpLoop_frame (clock : Nat → Int) (l : List AutoInstance) (i : Nat) (s : RunState) :
    (cleanUpLoop clock l i s).waitGroup = s.waitGroup ∧
    (cleanUpLoop clock l i s).panicking = s.panicking ∧
    (cleanUpLoop clock l i s).trace.countP Event.isWaitGroupDone
      = s.trace.countP Event.isWaitGroupDone ∧
    (cleanUpLoop clock l i s).trace.countP Event.isWaitGroupAdd
      = s.trace.countP Event.isWaitGroupAdd := by
  rw [cleanUpLoop_spec]
  refine ⟨rfl, rfl, ?_, ?_⟩
  · simp only [List.countP_append]
    have : (List.map (fun x : Nat × AutoInstance => Event.terminate x.2.Id)
        ((l.enumFrom i).filter (fun x => agedAndStopped clock x.1 x.2))).countP
          Event.isWaitGroupDone = 0 := by
      rw [List.countP_eq_zero]
      intro ev hev
      obtain ⟨x, _, rfl⟩ := List.mem_map.mp hev
      simp [Event.isWaitGroupDone]
    omega
  · simp only [List.countP_append]
    have : (List.map (fun x : Nat × AutoInstance => Event.terminate x.2.Id)
        ((l.enumFrom i).filter (fun x => agedAndStopped clock x.1 x.2))).countP
          Event.isWaitGroupAdd = 0 := by
      rw [List.countP_eq_zero]
      intro ev hev
      obtain ⟨x, _, rfl⟩ := List.mem_map.mp hev
      simp [Event.isWaitGroupAdd]
    omega

theorem unwind_base_barrier (p : Provider) (s : RunState) (hwg : 0 < s.waitGroup) :
    (unwind p [Deferred.recoverPanic, Deferred.waitGroupDone] s).panicking = none ∧
    (unwind p [Deferred.recoverPanic, Deferred.waitGroupDone] s).waitGroup = s.waitGroup - 1 ∧
    (unwind p [Deferred.recoverPanic, Deferred.waitGroupDone] s).trace.countP
        Event.isWaitGroupDone = s.trace.countP Event.isWaitGroupDone + 1 ∧
    (unwind p [Deferred.recoverPanic, Deferred.waitGroupDone] s).trace.countP
        Event.isWaitGroupAdd = s.trace.countP Event.isWaitGroupAdd := by
  rw [unwind_base p s hwg]
  by_cases hp : s.panicking.isSome = true
  · simp [List.countP_append, List.countP_cons, hp, Event.isWaitGroupDone, Event.isWaitGroupAdd]
  · simp [List.countP_append, List.countP_cons, hp, Event.isWaitGroupDone, Event.isWaitGroupAdd]

theorem CleanUp_barrier (self : AutoRefreshAmi) (p : Provider) (clock : Nat → Int) (wg : Int)
    (hwg : 0 ≤ wg) (hone : self.Cron = "" → 0 < wg) :
    (self.CleanUp p clock wg).panicking = none ∧
    (self.CleanUp p clock wg).waitGroup = (self.enter wg).waitGroup - 1 ∧
    (self.CleanUp p clock wg).trace.countP Event.isWaitGroupDone = 1 ∧
    (self.CleanUp p clock wg).trace.countP Event.isWaitGroupAdd
      = (self.enter wg).trace.countP Event.isWaitGroupAdd := by
  have hpos := self.enter_waitGroup_pos wg hwg hone
  have en1 := countP_enter_trace self wg Event.isWaitGroupDone rfl
  unfold AutoRefreshAmi.CleanUp
  cases hA : self.Account with
  | none =>
    simp only
    obtain ⟨b1, b2, b3, b4⟩ := unwind_base_barrier p ((self.enter wg).raise "nil pointer dereference")
      (by simpa [RunState.raise] using hpos)
    refine ⟨b1, by rw [b2]; rfl, ?_, ?_⟩
    · rw [b3]; simp [RunState.raise, en1]
    · rw [b4]; rfl
  | some account =>
    simp only
    cases hF : p.findInstances self.LaunchConfig with
    | error e =>
      simp only
      obtain ⟨b1, b2, b3, b4⟩ := unwind_base_barrier p
        (((self.enter wg).emit Event.findInstances).raise e)
        (by simpa [RunState.raise, RunState.emit] using hpos)
      refine ⟨b1, by rw [b2]; rfl, ?_, ?_⟩
      · rw [b3]
        simp [RunState.raise, RunState.emit, List.countP_append, en1, Event.isWaitGroupDone]
      · rw [b4]
        simp [RunState.raise, RunState.emit, List.countP_append, Event.isWaitGroupAdd]
    | ok instancesFound =>
      simp only
      obtain ⟨c1, c2, c3, c4⟩ := cleanUpLoop_frame clock instancesFound 0
        ((self.enter wg).emit Event.findInstances)
      obtain ⟨b1, b2, b3, b4⟩ := unwind_base_barrier p
        (cleanUpLoop clock instancesFound 0 ((self.enter wg).emit Event.findInstances))
        (by rw [c1]; simpa [RunState.emit] using hpos)
      refine ⟨b1, by rw [b2, c1]; rfl, ?_, ?_⟩
      · rw [b3, c3]
        simp [RunState.emit, List.countP_append, en1, Event.isWaitGroupDone]
      · rw [b4, c4]
        simp [RunState.emit, List.countP_append, Event.isWaitGroupAdd]

theorem startSource_GoWait (job : AutoRefreshAmi) (e : Engine) (s : Source) :
    (startSource job e s).GoWait = e.GoWait + (if job.Cron = "" then 2 else 0) := by
  unfold startSource AutoRefreshAmi.Copy
  by_cases hc : job.Cron = ""
  · simp [hc]
  · simp [hc]

/-- C17: every run of `Refresh` and of `CleanUp`, whatever the provider
answers (success, a provider error recovered inside the job, a panic inside the
deferred `DeleteOldAmi`, a `nil` account), calls `Done` on the barrier exactly
once and ends without a panic in flight.  A job with a cron expression calls
`Add(1)` once before, so its run leaves the counter as it found it; a job
without one calls no `Add`, so its run lowers the counter by one.  For a pair
without a cron expression `StartEngine` adds 2, and the two runs, in either
order, bring the counter back to its value before the pair, without it ever
being negative. -/
theorem barrier_done_exactly_once (self : AutoRefreshAmi) (p q : Provider) (clock : Nat → Int)
    (wg : Int) (hwg : 0 ≤ wg) :
    (self.Cron ≠ "" →
      (self.Refresh p wg).trace.countP Event.isWaitGroupAdd = 1 ∧
      (self.Refresh p wg).trace.countP Event.isWaitGroupDone = 1 ∧
      (self.Refresh p wg).waitGroup = wg ∧ (self.Refresh p wg).panicking = none ∧
      (self.CleanUp q clock wg).trace.countP Event.isWaitGroupAdd = 1 ∧
      (self.CleanUp q clock wg).trace.countP Event.isWaitGroupDone = 1 ∧
      (self.CleanUp q clock wg).waitGroup = wg ∧ (self.CleanUp q clock wg).panicking = none) ∧
    (self.Cron = "" → 0 < wg →
      (self.Refresh p wg).trace.countP Event.isWaitGroupAdd = 0 ∧
      (self.Refresh p wg).trace.countP Event.isWaitGroupDone = 1 ∧
      (self.Refresh p wg).waitGroup = wg - 1 ∧ (self.Refresh p wg).panicking = none ∧
      (self.CleanUp q clock wg).trace.countP Event.isWaitGroupAdd = 0 ∧
      (self.CleanUp q clock wg).trace.countP Event.isWaitGroupDone = 1 ∧
      (self.CleanUp q clock wg).waitGroup = wg - 1 ∧
      (self.CleanUp q clock wg).panicking = none) ∧
    (self.Cron = "" →
      (∀ (e : Engine) (s : Source), (startSource self e s).GoWait = e.GoWait + 2) ∧
      (self.Refresh p (wg + 2)).waitGroup = wg + 1 ∧
      (self.CleanUp q clock (self.Refresh p (wg + 2)).waitGroup).waitGroup = wg ∧
      (self.CleanUp q clock (self.Refresh p (wg + 2)).waitGroup).panicking = none ∧
      (self.CleanUp q clock (wg + 2)).waitGroup = wg + 1 ∧
      (self.Refresh p (self.CleanUp q clock (wg + 2)).waitGroup).waitGroup = wg ∧
      (self.Refresh p (self.CleanUp q clock (wg + 2)).waitGroup).panicking = none) := by
  have hent : ∀ w : Int, (self.enter w).waitGroup = (if self.Cron = "" then w else w + 1) :=
    fun w => (self.enter_spec w).2.2.1
  have hadd := countP_isWaitGroupAdd_enter self
  refine ⟨?_, ?_, ?_⟩
  · intro hc
    obtain ⟨r1, r2, r3, r4⟩ := Refresh_barrier self p wg hwg (fun h => absurd h hc)
    obtain ⟨c1, c2, c3, c4⟩ := CleanUp_barrier self q clock wg hwg (fun h => absurd h hc)
    rw [hadd wg] at r4 c4
    rw [hent wg] at r2 c2
    simp only [hc, if_false] at r2 r4 c2 c4
    exact ⟨r4, r3, by omega, r1, c4, c3, by omega, c1⟩
  · intro hc hpos
    obtain ⟨r1, r2, r3, r4⟩ := Refresh_barrier self p wg hwg (fun _ => hpos)
    obtain ⟨c1, c2, c3, c4⟩ := CleanUp_barrier self q clock wg hwg (fun _ => hpos)
    rw [hadd wg] at r4 c4
    rw [hent wg] at r2 c2
    simp only [hc, if_true] at r2 r4 c2 c4
    exact ⟨r4, r3, r2, r1, c4, c3, c2, c1⟩
  · intro hc
    have hR : (self.Refresh p (wg + 2)).waitGroup = wg + 1 := by
      obtain ⟨_, r2, _, _⟩ := Refresh_barrier self p (wg + 2) (by omega) (fun _ => by omega)
      rw [r2, hent]; simp only [hc, if_true]; omega
    have hC : (self.CleanUp q clock (wg + 2)).waitGroup = wg + 1 := by
      obtain ⟨_, c2, _, _⟩ := CleanUp_barrier self q clock (wg + 2) (by omega)
        (fun _ => by omega)
      rw [c2, hent]; simp only [hc, if_true]; omega
    refine ⟨?_, hR, ?_, ?_, hC, ?_, ?_⟩
    · intro e s
      rw [startSource_GoWait]; simp [hc]
    · rw [hR]
      obtain ⟨_, c2, _, _⟩ := CleanUp_barrier self q clock (wg + 1) (by omega)
        (fun _ => by omega)
      rw [c2, hent]; simp only [hc, if_true]; omega
    · rw [hR]
      exact (CleanUp_barrier self q clock (wg + 1) (by omega) (fun _ => by omega)).1
    · rw [hC]
      obtain ⟨_, r2, _, _⟩ := Refresh_barrier self p (wg + 1) (by omega) (fun _ => by omega)
      rw [r2, hent]; simp only [hc, if_true]; omega
    · rw [hC]
      exact (Refresh_barrier self p (wg + 1) (by omega) (fun _ => by omega)).1

theorem barrier_done_exactly_once_witness :
    (sampleJob.Refresh findAmiFailsProvider 2).trace.countP Event.isWaitGroupDone = 1 ∧
    (sampleJob.Refresh findAmiFailsProvider 2).waitGroup = 1 ∧
    (sampleJob.CleanUp cleanUpProvider threeHours
      (sampleJob.Refresh findAmiFailsProvider (0 + 2)).waitGroup).waitGroup = 0 ∧
    (cronJob.Refresh launchFailsProvider 0).waitGroup = 0 :=
  ⟨((barrier_done_exactly_once sampleJob findAmiFailsProvider cleanUpProvider threeHours 2
      (by decide)).2.1 rfl (by decide)).2.1,
   ((barrier_done_exactly_once sampleJob findAmiFailsProvider cleanUpProvider threeHours 2
      (by decide)).2.1 rfl (by decide)).2.2.1,
   ((barrier_done_exactly_once sampleJob findAmiFailsProvider cleanUpProvider threeHours 0
      (by decide)).2.2 rfl).2.2.1,
   ((barrier_done_exactly_once cronJob launchFailsProvider cleanUpProvider threeHours 0
      (by decide)).1 (by decide)).2.2.1⟩

end AutoRefresh
